import Mathlib

/-!
# SpendSmart backend: budgets, threshold alerts and savings goals

A shallow embedding of `src/controllers/budgetsController.js` and
`src/controllers/savingsGoalsController.js` together with the parts of the
schemas under `src/models/` they rely on.

Modelling conventions.

* A JavaScript `Date` is its time value: an integer number of milliseconds since
  the epoch.  `new Date(year, monthIndex, 1)` is evaluated as ECMAScript
  prescribes (`MakeDay`, `MakeDate`, `UTC`, `TimeClip`); the host's time zone is
  a parameter `z : Zone`.
* Monetary amounts are `Decimal128` values; the handlers read them as
  JavaScript numbers (`parseFloat`, `$toDouble`).  Two readings of the
  arithmetic are given.  In the exact reading (`listBudgets`,
  `checkBudgetAlert`, `getUserGoals`) the numbers are rationals and the
  arithmetic is exact; it carries the results that do not depend on how a
  quotient is rounded: which budgets are listed and in which order, the alert
  flag against the reported percentage, monotonicity, the error paths, the
  status of a goal.  In the reading on doubles (`listBudgetsDouble`,
  `checkBudgetAlertDouble`, `getUserGoalsDouble`, and `addMoneyToGoal`) every
  number is an IEEE 754 binary64 value and every operation is rounded to the
  nearest double (`roundDouble`); it carries the results about the numbers the
  handlers report and compare.
* Collections of the document store are lists of records; object ids are
  natural numbers.  Reads and writes of the store succeed unless a validator
  that the call runs rejects the data (`findOneAndUpdate` with
  `runValidators: true` validates the paths it sets, `save()` validates the
  loaded document) or a unique index does; an awaited call that may raise is
  given an explicit outcome where a claim is about the error path.
-/

namespace SpendSmart

/-! ## ECMAScript date arithmetic -/

/-- Milliseconds in one day (ECMAScript `msPerDay`). -/
def msPerDay : Int := 86400000

/-- Largest magnitude of a valid time value (ECMAScript `TimeClip`). -/
def maxTimeValue : Int := 8640000000000000

/-- ECMAScript `DayFromYear(y)`: day number of 1 January of year `y`. -/
def dayFromYear (y : Int) : Int :=
  365 * (y - 1970) + (y - 1969) / 4 - (y - 1901) / 100 + (y - 1601) / 400

/-- ECMAScript `InLeapYear`: whether year `y` has 366 days. -/
def inLeapYear (y : Int) : Bool :=
  y % 4 == 0 && (y % 100 != 0 || y % 400 == 0)

/-- Number of days of the year that precede month index `mn` (0 = January). -/
def daysBeforeMonth (leap : Bool) (mn : Nat) : Int :=
  let l : Int := if leap then 1 else 0
  match mn with
  | 0 => 0
  | 1 => 31
  | 2 => 59 + l
  | 3 => 90 + l
  | 4 => 120 + l
  | 5 => 151 + l
  | 6 => 181 + l
  | 7 => 212 + l
  | 8 => 243 + l
  | 9 => 273 + l
  | 10 => 304 + l
  | _ => 334 + l

/-- ECMAScript `MakeDay(year, month, date)`: the month index is normalised into
`0..11`, carrying whole years into `year`. -/
def makeDay (year month date : Int) : Int :=
  let ym := year + month / 12
  let mn := (month % 12).toNat
  dayFromYear ym + daysBeforeMonth (inLeapYear ym) mn + date - 1

/-- The host's time zone: `utc t` is the time value of the instant whose local
clock reading is `t` (ECMAScript `UTC(t)`); a local clock is never a full day
away from UTC. -/
structure Zone where
  utc : Int → Int
  bounded : ∀ t : Int, |utc t - t| ≤ msPerDay
  /-- The local clock reading at the instant `t` (ECMAScript `LocalTime(t)`). -/
  localTime : Int → Int

/-- The zone whose local clock is UTC. -/
def Zone.UTC : Zone := ⟨fun t => t, fun t => by simp [msPerDay], fun t => t⟩

/-- The time value of `new Date(year, monthIndex, 1)` (local midnight of the
first day of a month); `none` is an Invalid Date. -/
def newDate (z : Zone) (year monthIndex : Int) : Option Int :=
  let yr := if 0 ≤ year ∧ year ≤ 99 then 1900 + year else year
  let t := z.utc (makeDay yr monthIndex 1 * msPerDay)
  if |t| ≤ maxTimeValue then some t else none

/-! ## `month.split('-').map(Number)` -/

/-- The pieces of `s.split('-')`, on the characters of `s`. -/
def splitDash : List Char → List (List Char)
  | [] => [[]]
  | c :: cs =>
    if c = '-' then [] :: splitDash cs
    else
      match splitDash cs with
      | [] => [[c]]
      | p :: ps => (c :: p) :: ps

/-- The value of `Number(s)` for a string of decimal digits (the empty string is `0`);
`none` for every other string, where JavaScript yields `NaN` or reads another
notation that is outside this development. -/
def jsNumber (s : List Char) : Option Int :=
  if s.all Char.isDigit then
    some (s.foldl (fun n c => 10 * n + ((c.toNat : Int) - 48)) 0)
  else none

/-- The pair read by `const [year, mm] = month.split('-').map(Number)`. -/
def parseMonth (month : String) : Option (Int × Int) :=
  match splitDash month.toList with
  | y :: m :: _ =>
    match jsNumber y, jsNumber m with
    | some year, some mm => some (year, mm)
    | _, _ => none
  | _ => none

/-! ## `spentInPeriod` -/

/-- The values `budgetCreatedAt` can take, as `spentInPeriod` distinguishes
them. -/
inductive Anchor where
  /-- A falsy value: `null`, `undefined`, the parameter left out. -/
  | absent
  /-- A truthy value for which `new Date(v).getTime()` is `NaN`. -/
  | invalid
  /-- A truthy value for which `new Date(v)` throws. -/
  | raises
  /-- A `Date`, or a string or number that `new Date(v)` reads as time `t`. -/
  | instant (t : Int)
deriving DecidableEq, Repr

/-- Lines 25-41 of `spentInPeriod`: the interval `[start, end)` handed to the
aggregation. -/
def spentInPeriodWindow (z : Zone) (month : String) (budgetCreatedAt : Anchor) :
    Option (Int × Int) :=
  match parseMonth month with
  | none => none
  | some (year, mm) =>
    match newDate z year (mm - 1), newDate z year mm with
    | some start, some «end» =>
      match budgetCreatedAt with
      | .instant created =>
        if start ≤ created ∧ created < «end» then some (created, «end»)
        else some (start, «end»)
      | _ => some (start, «end»)
    | _, _ => none

/-- The two transaction types of the schema. -/
inductive TxType where
  | ingreso
  | gasto
deriving DecidableEq, Repr

/-- A document of the `Transaction` collection. -/
structure Transaction where
  user_id : Nat
  type : TxType
  amount : ℚ
  date : Int
  category_id : Option Nat
deriving DecidableEq

/-- The `$match` stage of the aggregation in `spentInPeriod`. -/
def matchesSpend (userId catId : Nat) (start «end» : Int) (t : Transaction) : Bool :=
  t.user_id == userId && t.category_id == some catId && t.type == TxType.gasto
    && decide (start ≤ t.date) && decide (t.date < «end»)

/-- The aggregation pipeline of `spentInPeriod`: `$match`, then a `$group` with
`_id: null`, which yields one document holding the total when some document
matched and no document otherwise. -/
def aggregateSpend (txs : List Transaction) (userId catId : Nat) (start «end» : Int) :
    List ℚ :=
  match txs.filter (matchesSpend userId catId start «end») with
  | [] => []
  | m :: ms => [((m :: ms).map Transaction.amount).sum]

/-- The result of `spentInPeriod(userId, catId, month, budgetCreatedAt)` over the transaction
collection `txs`. -/
def spentInPeriod (z : Zone) (txs : List Transaction) (userId catId : Nat)
    (month : String) (budgetCreatedAt : Anchor) : Option ℚ :=
  match spentInPeriodWindow z month budgetCreatedAt with
  | none => none
  | some (start, «end») =>
    match aggregateSpend txs userId catId start «end» with
    | [] => some 0
    | total :: _ => some total

/-- The month that follows `(year, mm)` in the calendar. -/
def nextMonth (year mm : Int) : Int × Int :=
  if mm = 12 then (year + 1, 1) else (year, mm + 1)

/-- Length in days of calendar month `mm` (1 = January) of year `year`. -/
def daysInMonth (year mm : Int) : Int :=
  if mm = 2 then (if inLeapYear year then 29 else 28)
  else if mm = 4 ∨ mm = 6 ∨ mm = 9 ∨ mm = 11 then 30
  else 31

/-- The value the specification gives for `spentInPeriod`: the total of the
amounts of the transactions of user `userId` and category `catId` whose type is
expense and whose date lies in `[start, end)`. -/
def expectedSpend (txs : List Transaction) (userId catId : Nat) (start «end» : Int) : ℚ :=
  (txs.map (fun t =>
    if t.user_id = userId ∧ t.category_id = some catId ∧ t.type = TxType.gasto
        ∧ start ≤ t.date ∧ t.date < «end» then t.amount else 0)).sum

/-! ## `listBudgets` -/

/-- A document of the `Category` collection; `appliesTo` defaults to `'gasto'`
as in the schema. -/
structure Category where
  _id : Nat
  name : String
  appliesTo : TxType := TxType.gasto
deriving DecidableEq

/-- A document of the `Budget` collection. -/
structure Budget where
  _id : Nat
  user_id : Nat
  category_id : Nat
  month : String
  limit : ℚ
  threshold : ℚ
  isActive : Bool
  isDeleted : Bool
  createdAt : Int
  updatedAt : Int
deriving DecidableEq

/-- A budget after `.populate("category_id", "name")`: the reference is replaced
by the category document, or by `null` (`none`) when it does not resolve. -/
structure PopulatedBudget where
  _id : Nat
  category_id : Option Category
  month : String
  limit : ℚ
  threshold : ℚ
  isActive : Bool
  createdAt : Int
deriving DecidableEq

/-- An element of the `budgets` array `listBudgets` answers with. -/
structure BudgetEntry where
  _id : Nat
  category : String
  month : String
  limit : ℚ
  threshold : ℚ
  isActive : Bool
  spent : ℚ
  available : ℚ
  percentUsed : ℚ
  alert : Bool
deriving DecidableEq

/-- The response of `listBudgets`: the enriched budgets, or a message. -/
inductive ListBudgetsResponse where
  | budgets (status : Nat) (budgets : List BudgetEntry)
  | message (status : Nat) (message : String)
deriving DecidableEq

/-- The helper `toNumber(d)`, that is `parseFloat(d.toString())`, on exact values. -/
def toNumber (d : ℚ) : ℚ := d

/-- The value of `parseFloat(x.toFixed(1))`: `toFixed` takes the sign off, picks the integer
`n` with `n / 10` nearest to the magnitude (the larger one on a tie) and puts
the sign back. -/
def toFixed1 (x : ℚ) : ℚ :=
  if x < 0 then -((⌊-x * 10 + 1 / 2⌋ : ℤ) : ℚ) / 10
  else ((⌊x * 10 + 1 / 2⌋ : ℤ) : ℚ) / 10

/-- The query of `listBudgets`: the user's active, non-deleted budgets, newest
first, at most ten. -/
def findActiveBudgets (budgets : List Budget) (userId : Nat) : List Budget :=
  ((budgets.filter (fun b => b.user_id == userId && b.isActive && !b.isDeleted)).insertionSort
    (fun a b => b.createdAt ≤ a.createdAt)).take 10

/-- Resolution of a budget's category reference by `populate`. -/
def populate (cats : List Category) (b : Budget) : PopulatedBudget :=
  { _id := b._id
    category_id := cats.find? (fun c => c._id == b.category_id)
    month := b.month
    limit := b.limit
    threshold := b.threshold
    isActive := b.isActive
    createdAt := b.createdAt }

/-- The callback `listBudgets` maps over the budgets (lines 121-147).  `none`
when the category is `null` (not reached: `listBudgets` has answered 400 by
then) or when `spentInPeriod` is outside the modelled months. -/
def enrichBudget (z : Zone) (txs : List Transaction) (userId : Nat) (b : PopulatedBudget) :
    Option BudgetEntry :=
  match b.category_id with
  | none => none
  | some cat =>
    match spentInPeriod z txs userId cat._id b.month (Anchor.instant b.createdAt) with
    | none => none
    | some spent =>
      let limitNum := toNumber b.limit
      let avail := limitNum - spent
      let percent := if limitNum ≠ 0 then toFixed1 (spent / limitNum * 100) else 0
      some
        { _id := b._id
          category := cat.name
          month := b.month
          limit := limitNum
          threshold := b.threshold
          isActive := b.isActive
          spent := spent
          available := avail
          percentUsed := percent
          alert := b.isActive && decide (b.threshold ≤ percent) }

/-- The effect of `Promise.all` over the results of the callbacks: all of them, if each one
produced a value. -/
def allSome {α : Type} : List (Option α) → Option (List α)
  | [] => some []
  | none :: _ => none
  | some a :: rest =>
    match allSome rest with
    | none => none
    | some as => some (a :: as)

/-- The handler `listBudgets` for the authenticated user `userId` over the `Budget`,
`Category` and `Transaction` collections.  A response without an explicit
status has status 200. -/
def listBudgets (z : Zone) (cats : List Category) (budgets : List Budget)
    (txs : List Transaction) (userId : Nat) : Option ListBudgetsResponse :=
  let found := (findActiveBudgets budgets userId).map (populate cats)
  match found.find? (fun b => b.category_id.isNone) with
  | some _ => some (ListBudgetsResponse.message 400 "ID de categoría inválido")
  | none =>
    match allSome (found.map (enrichBudget z txs userId)) with
    | none => none
    | some enriched => some (ListBudgetsResponse.budgets 200 enriched)

/-- What it means for `r` to be `x` rounded to one decimal place: `r` is a
whole number of tenths and no further than half a tenth from `x`. -/
def IsRoundedToOneDecimal (x r : ℚ) : Prop :=
  (∃ n : ℤ, r = (n : ℚ) / 10) ∧ |r - x| ≤ 1 / 20

/-! ## `createBudget` -/

/-- The body of a `createBudget` request, with its fields cast to the types
of the Budget schema. -/
structure CreateBudgetBody where
  category_id : Nat
  month : String
  limit : ℚ
  threshold : ℚ
deriving DecidableEq

/-- The response of `createBudget`: the stored budget, or a message. -/
inductive CreateBudgetResponse where
  | budget (status : Nat) (budget : Budget)
  | message (status : Nat) (message : String)
deriving DecidableEq

/-- The status code of a `createBudget` response. -/
def CreateBudgetResponse.status : CreateBudgetResponse → Nat
  | CreateBudgetResponse.budget status _ => status
  | CreateBudgetResponse.message status _ => status

/-- The count `Budget.countDocuments({ user_id, isActive: true, isDeleted: false })`. -/
def activeCount (budgets : List Budget) (userId : Nat) : Nat :=
  (budgets.filter (fun b => b.user_id == userId && b.isActive && !b.isDeleted)).length

/-- The validators of the schema that `runValidators: true` runs on the paths
of `$set`: `limit` is at least `0.01` and `threshold` lies in `0..100`. -/
def updateValidatorsPass (limit threshold : ℚ) : Bool :=
  decide (1 / 100 ≤ limit) && decide (0 ≤ threshold) && decide (threshold ≤ 100)

/-- The filter `{ user_id, category_id, month }` of the upsert. -/
def matchesKey (userId catId : Nat) (month : String) (b : Budget) : Bool :=
  b.user_id == userId && b.category_id == catId && b.month == month

/-- An object id no stored budget has. -/
def freshId (budgets : List Budget) : Nat :=
  (budgets.map (fun b => b._id)).foldr max 0 + 1

/-- The `$set` of `createBudget` applied to a stored budget (`updatedAt` is
maintained by `timestamps: true`). -/
def applySet (b : Budget) (limit threshold : ℚ) (now : Int) : Budget :=
  { b with limit := limit, threshold := threshold, isActive := true, isDeleted := false,
           updatedAt := now }

/-- The document an upsert inserts: the fields of the filter, those of `$set`
and the timestamps. -/
def insertedBudget (userId catId : Nat) (month : String) (limit threshold : ℚ) (now : Int)
    (newId : Nat) : Budget :=
  { _id := newId, user_id := userId, category_id := catId, month := month,
    limit := limit, threshold := threshold, isActive := true, isDeleted := false,
    createdAt := now, updatedAt := now }

/-- The call `Budget.findOneAndUpdate(filter, { $set }, { new: true, upsert: true })`:
the first document matching the filter is updated in place; if there is none,
a document made of the filter, the `$set` fields and the timestamps is inserted
under the id `newId`.  Returns the document after the update and the
collection. -/
def findOneAndUpsert (budgets : List Budget) (userId catId : Nat) (month : String)
    (limit threshold : ℚ) (now : Int) (newId : Nat) : Budget × List Budget :=
  match budgets with
  | [] =>
    (insertedBudget userId catId month limit threshold now newId,
      [insertedBudget userId catId month limit threshold now newId])
  | b :: rest =>
    if matchesKey userId catId month b then
      (applySet b limit threshold now, applySet b limit threshold now :: rest)
    else
      let r := findOneAndUpsert rest userId catId month limit threshold now newId
      (r.1, b :: r.2)

/-- The handler `createBudget` for the authenticated user `userId` at time `now`: the
response and the `Budget` collection afterwards.  A validation error raised by
`findOneAndUpdate` is caught and answered with status 500. -/
def createBudget (budgets : List Budget) (userId : Nat) (body : CreateBudgetBody)
    (now : Int) : CreateBudgetResponse × List Budget :=
  if activeCount budgets userId ≥ 10 then
    (CreateBudgetResponse.message 409
      "Solo puedes tener hasta 10 presupuestos activos simultáneamente.", budgets)
  else if updateValidatorsPass body.limit body.threshold then
    let r := findOneAndUpsert budgets userId body.category_id body.month body.limit
      body.threshold now (freshId budgets)
    (CreateBudgetResponse.budget 200 r.1, r.2)
  else
    (CreateBudgetResponse.message 500 "Error al crear presupuesto", budgets)

/-- The key of the unique index `{ user_id: 1, category_id: 1, month: 1 }`. -/
def budgetKey (b : Budget) : Nat × Nat × String :=
  (b.user_id, b.category_id, b.month)

/-- The unique index holds: no two stored budgets have the same key. -/
def UniqueKeys (budgets : List Budget) : Prop :=
  (budgets.map budgetKey).Nodup

/-- A `createBudget` request: the caller, the body and the time of the call. -/
structure CreateBudgetCall where
  userId : Nat
  body : CreateBudgetBody
  now : Int

/-- The `Budget` collection after a sequence of `createBudget` requests served
one after the other. -/
def createBudgets (budgets : List Budget) : List CreateBudgetCall → List Budget
  | [] => budgets
  | c :: cs => createBudgets (createBudget budgets c.userId c.body c.now).2 cs

/-- Ten budgets of user 7, all active and not deleted, in categories 1 to 10. -/
def tenActiveBudgets : List Budget :=
  (List.range 10).map (fun i =>
    { _id := i + 1, user_id := 7, category_id := i + 1, month := "2024-06", limit := 100,
      threshold := 80, isActive := true, isDeleted := false, createdAt := 1717200000000,
      updatedAt := 1717200000000 })

/-- A soft-deleted budget of user 7 for category 3 in June 2024. -/
def deletedBudget : Budget :=
  { _id := 1, user_id := 7, category_id := 3, month := "2024-06", limit := 100,
    threshold := 50, isActive := false, isDeleted := true, createdAt := 1717200000000,
    updatedAt := 1717300000000 }

/-! ## `toggleBudget` and `deleteBudget` -/

/-- The response of `toggleBudget` and `deleteBudget`. -/
inductive BudgetActionResponse where
  | budget (status : Nat) (budget : Budget) (message : String)
  | message (status : Nat) (message : String)
deriving DecidableEq

/-- The status code of a `toggleBudget` or `deleteBudget` response. -/
def BudgetActionResponse.status : BudgetActionResponse → Nat
  | BudgetActionResponse.budget status _ _ => status
  | BudgetActionResponse.message status _ => status

/-- The filter `{ _id: id, user_id, isDeleted: false }` of `toggleBudget` and
`deleteBudget`. -/
def matchesOwned (id userId : Nat) (b : Budget) : Bool :=
  b._id == id && b.user_id == userId && !b.isDeleted

/-- A write to the first document that satisfies `p`; the other documents are
left as they are. -/
def updateFirst (p : Budget → Bool) (f : Budget → Budget) : List Budget → List Budget
  | [] => []
  | b :: rest => if p b then f b :: rest else b :: updateFirst p f rest

/-- The validators of the schema on `month`: the pattern `/^\d{4}-\d{2}$/`
and the check that the year lies in 2000..2100 and the month in 1..12. -/
def monthValidatorsPass (month : String) : Bool :=
  match month.toList with
  | [y1, y2, y3, y4, dash, m1, m2] =>
    decide (dash = '-') &&
      (match jsNumber [y1, y2, y3, y4], jsNumber [m1, m2] with
        | some y, some m =>
          decide (2000 ≤ y) && decide (y ≤ 2100) && decide (1 ≤ m) && decide (m ≤ 12)
        | _, _ => false)
  | _ => false

/-- The validators `save()` runs on a budget loaded by `findOne`: every path
of the document is validated again, so those of `month`, of `limit` and of
`threshold` all run. -/
def saveValidatorsPass (b : Budget) : Bool :=
  monthValidatorsPass b.month && updateValidatorsPass b.limit b.threshold

/-- The handler `toggleBudget` for the authenticated user `userId` at time
`now`: the budget found by `findOne` has `isActive` flipped and is saved under
its `_id`.  `save()` validates the document first; its validation error is
caught and answered with status 500, and nothing is written. -/
def toggleBudget (budgets : List Budget) (userId id : Nat) (now : Int) :
    BudgetActionResponse × List Budget :=
  match budgets.find? (matchesOwned id userId) with
  | none => (BudgetActionResponse.message 404 "Presupuesto no encontrado", budgets)
  | some bud =>
    let saved : Budget := { bud with isActive := !bud.isActive, updatedAt := now }
    if saveValidatorsPass saved then
      (BudgetActionResponse.budget 200 saved
          (if saved.isActive then "Presupuesto activado" else "Presupuesto desactivado"),
        updateFirst (fun b => b._id == bud._id)
          (fun b => { b with isActive := saved.isActive, updatedAt := now }) budgets)
    else (BudgetActionResponse.message 500 "Error al cambiar estado", budgets)

/-- The handler `deleteBudget` for the authenticated user `userId` at time
`now`: `findOneAndUpdate` marks the first matching budget deleted and
inactive. -/
def deleteBudget (budgets : List Budget) (userId id : Nat) (now : Int) :
    BudgetActionResponse × List Budget :=
  match budgets.find? (matchesOwned id userId) with
  | none => (BudgetActionResponse.message 404 "Presupuesto no encontrado", budgets)
  | some _ =>
    (BudgetActionResponse.message 200 "Presupuesto eliminado",
      updateFirst (matchesOwned id userId)
        (fun b => { b with isDeleted := true, isActive := false, updatedAt := now }) budgets)

/-- A request to one of the three budget handlers that write. -/
inductive BudgetRequest where
  | create (userId : Nat) (body : CreateBudgetBody) (now : Int)
  | toggle (userId id : Nat) (now : Int)
  | delete (userId id : Nat) (now : Int)

/-- The `Budget` collection after one request. -/
def serveBudgetRequest (budgets : List Budget) : BudgetRequest → List Budget
  | BudgetRequest.create userId body now => (createBudget budgets userId body now).2
  | BudgetRequest.toggle userId id now => (toggleBudget budgets userId id now).2
  | BudgetRequest.delete userId id now => (deleteBudget budgets userId id now).2

/-- The `Budget` collection after a sequence of requests served one after the
other. -/
def serveBudgetRequests (budgets : List Budget) : List BudgetRequest → List Budget
  | [] => budgets
  | r :: rs => serveBudgetRequests (serveBudgetRequest budgets r) rs

/-- A body asking for a budget of 100 with threshold 80 in June 2024. -/
def juneBody (category : Nat) : CreateBudgetBody :=
  { category_id := category, month := "2024-06", limit := 100, threshold := 80 }

/-- Thirteen requests of user 7: ten budgets are created (ids 1 to 10), the first
is switched off, an eleventh is created, and the first is switched on again. -/
def elevenActiveRequests : List BudgetRequest :=
  (List.range 10).map (fun i => BudgetRequest.create 7 (juneBody (i + 1)) (1717200000000 + i))
    ++ [BudgetRequest.toggle 7 1 1717300000000,
        BudgetRequest.create 7 (juneBody 11) 1717400000000,
        BudgetRequest.toggle 7 1 1717500000000]

/-! ## `checkBudgetAlert` -/

/-- A document of the `User` collection, with the fields the alert can read. -/
structure User where
  _id : Nat
  email : Option String
  thresholdEnabled : Bool
deriving DecidableEq

/-- The value of `parseFloat(x.toFixed(2))`, as `toFixed1` with hundredths. -/
def toFixed2 (x : ℚ) : ℚ :=
  if x < 0 then -((⌊-x * 100 + 1 / 2⌋ : ℤ) : ℚ) / 100
  else ((⌊x * 100 + 1 / 2⌋ : ℤ) : ℚ) / 100

/-- The `mailOptions` handed to `sendMail`: the recipient (`to`), the subject and the
values written into the text and the HTML body. -/
structure MailOptions where
  toAddress : String
  subject : String
  category : String
  month : String
  percentUsed : ℚ
  limit : ℚ
  spent : ℚ
deriving DecidableEq

/-- Which of the awaited calls of `checkBudgetAlert` raise an error: the budget
lookup, the aggregation of `spentInPeriod`, the user lookup, `sendMail`. -/
structure AlertFaults where
  budgetLookup : Bool
  aggregation : Bool
  userLookup : Bool
  sendMail : Bool
deriving DecidableEq

/-- No call raises. -/
def AlertFaults.none : AlertFaults :=
  { budgetLookup := false, aggregation := false, userLookup := false, sendMail := false }

/-- What a run of `checkBudgetAlert` does, as its caller and the mailer see
it: the error it throws (`none` when it completes normally), the calls of
`sendMail` it makes, and those of them that did not raise. -/
structure AlertRun where
  thrown : Option String
  sendMailCalls : List MailOptions
  delivered : List MailOptions
deriving DecidableEq

/-- The filter of the budget lookup of `checkBudgetAlert`. -/
def matchesAlert (userId categoryId : Nat) (month : String) (b : Budget) : Bool :=
  b.user_id == userId && b.category_id == categoryId && b.month == month
    && b.isActive && !b.isDeleted

/-- The name written into the mail: `budget.category_id?.name || "Categoría"`. -/
def alertCategoryName (category : Option Category) : String :=
  match category with
  | some c => if c.name = "" then "Categoría" else c.name
  | none => "Categoría"

/-- The `mailOptions` that `checkBudgetAlert` builds: the percentage is written
with one decimal, the limit and the spent amount with two. -/
def alertMail (email : String) (category : Option Category) (month : String)
    (percentUsed limitNum spentNum : ℚ) : MailOptions :=
  { toAddress := email
    subject := "⚠️ Alerta de presupuesto"
    category := alertCategoryName category
    month := month
    percentUsed := toFixed1 percentUsed
    limit := toFixed2 limitNum
    spent := toFixed2 spentNum }

/-- The outer `try` block of `checkBudgetAlert` (lines 207-297): the calls of
`sendMail` it makes, or the error raised inside it.  An error of `sendMail`
itself is caught by the inner `try`.  `none` when `spentInPeriod` is outside
the modelled months. -/
def checkBudgetAlertTry (z : Zone) (budgets : List Budget) (cats : List Category)
    (txs : List Transaction) (users : List User) (faults : AlertFaults)
    (userId categoryId : Nat) (month : String) : Option (Except String (List MailOptions)) :=
  if faults.budgetLookup then some (Except.error "Budget.findOne")
  else
    match (budgets.find? (matchesAlert userId categoryId month)).map (populate cats) with
    | none => some (Except.ok [])
    | some budget =>
      if faults.aggregation then some (Except.error "Transaction.aggregate")
      else
        match spentInPeriod z txs userId categoryId month (Anchor.instant budget.createdAt) with
        | none => none
        | some spent =>
          let limitNum := budget.limit
          let spentNum := spent
          let percentUsed := if limitNum ≠ 0 then spentNum / limitNum * 100 else 0
          if percentUsed ≥ budget.threshold then
            if faults.userLookup then some (Except.error "User.findById")
            else
              match users.find? (fun u => u._id == userId) with
              | none => some (Except.ok [])
              | some user =>
                match user.email with
                | none => some (Except.ok [])
                | some email =>
                  if email = "" then some (Except.ok [])
                  else
                    some (Except.ok
                      [alertMail email budget.category_id month percentUsed limitNum spentNum])
          else some (Except.ok [])

/-- The function `checkBudgetAlert(userId, categoryId, month)`: the outer
`catch` logs whatever the `try` block raised and returns. -/
def checkBudgetAlert (z : Zone) (budgets : List Budget) (cats : List Category)
    (txs : List Transaction) (users : List User) (faults : AlertFaults)
    (userId categoryId : Nat) (month : String) : Option AlertRun :=
  match checkBudgetAlertTry z budgets cats txs users faults userId categoryId month with
  | none => none
  | some (Except.ok calls) =>
    some { thrown := none, sendMailCalls := calls,
           delivered := if faults.sendMail then [] else calls }
  | some (Except.error _) => some { thrown := none, sendMailCalls := [], delivered := [] }

/-- The `User` collection of the scenario. -/
def scenarioUsers : List User :=
  [{ _id := 7, email := some "ana@example.com", thresholdEnabled := true }]

/-- The mail of the scenario: 90.0 % of a limit of 500, 450 spent. -/
def scenarioMail : MailOptions :=
  { toAddress := "ana@example.com", subject := "⚠️ Alerta de presupuesto", category := "Comida",
    month := "2024-06", percentUsed := 90, limit := 500, spent := 450 }

/-! ## Calendar fields of a `Date` -/

/-- ECMAScript `Day(t)`: the day number of a time value. -/
def dayOf (t : Int) : Int := t / msPerDay

/-- ECMAScript `YearFromTime`, on day numbers: the year whose first day is the
last one not after day `d`. -/
def yearFromDay (d : Int) : Int :=
  let y := 1970 + d * 400 / 146097
  if dayFromYear (y + 1) ≤ d then y + 1
  else if d < dayFromYear y then y - 1
  else y

/-- ECMAScript `MonthFromTime`, on day numbers: the month index (0 = January)
of day `d`. -/
def monthFromDay (d : Int) : Int :=
  let y := yearFromDay d
  let dayWithinYear := d - dayFromYear y
  let l : Int := if inLeapYear y then 1 else 0
  if dayWithinYear < 31 then 0
  else if dayWithinYear < 59 + l then 1
  else if dayWithinYear < 90 + l then 2
  else if dayWithinYear < 120 + l then 3
  else if dayWithinYear < 151 + l then 4
  else if dayWithinYear < 181 + l then 5
  else if dayWithinYear < 212 + l then 6
  else if dayWithinYear < 243 + l then 7
  else if dayWithinYear < 273 + l then 8
  else if dayWithinYear < 304 + l then 9
  else if dayWithinYear < 334 + l then 10
  else 11

/-- The value of `date.getFullYear()` for the time value `t`. -/
def getFullYear (z : Zone) (t : Int) : Int := yearFromDay (dayOf (z.localTime t))

/-- The value of `date.getMonth()` for the time value `t`. -/
def getMonth (z : Zone) (t : Int) : Int := monthFromDay (dayOf (z.localTime t))

/-- The time value after `date.setHours(0, 0, 0, 0)`: local midnight of the
local day of `t`. -/
def setHoursZero (z : Zone) (t : Int) : Int := z.utc (dayOf (z.localTime t) * msPerDay)

/-! ## Savings goals -/

/-- A document of the `SavingsGoal` collection. -/
structure SavingsGoal where
  _id : Nat
  user_id : Nat
  name : String
  description : String
  target_amount : ℚ
  current_amount : ℚ
  due_date : Int
  isDeleted : Bool
deriving DecidableEq

/-- The function `getMonthlyQuota(target, current, dueDate)`, with `now` the
value of `new Date()`. -/
def getMonthlyQuota (z : Zone) (now : Int) (target current : ℚ) (dueDate : Int) : ℚ :=
  let diffMonths : Int :=
    max 0 ((getFullYear z dueDate - getFullYear z now) * 12
      + (getMonth z dueDate - getMonth z now))
  let remaining := target - current
  if diffMonths = 0 then remaining else remaining / ((diffMonths : ℚ) + 1)

/-- The two values of `status` in an entry of `getUserGoals`. -/
inductive GoalStatus where
  | vencida
  | activa
deriving DecidableEq, Repr

/-- An element of the `goals` array `getUserGoals` answers with. -/
structure GoalEntry where
  _id : Nat
  name : String
  description : String
  target_amount : ℚ
  current_amount : ℚ
  due_date : Int
  status : GoalStatus
  progress : ℚ
  monthly_quota : ℚ
deriving DecidableEq

/-- The callback `getUserGoals` maps over the goals (lines 87-111), with `now`
the value of `new Date()` during the request. -/
def enrichGoal (z : Zone) (now : Int) (g : SavingsGoal) : GoalEntry :=
  let target := toNumber g.target_amount
  let current := toNumber g.current_amount
  let progress := if target ≠ 0 then min 100 (current / target * 100) else 0
  let today := setHoursZero z now
  let due := setHoursZero z g.due_date
  let status := if today > due then GoalStatus.vencida else GoalStatus.activa
  let monthlyQuota := getMonthlyQuota z now target current due
  { _id := g._id
    name := g.name
    description := g.description
    target_amount := target
    current_amount := current
    due_date := g.due_date
    status := status
    progress := toFixed2 progress
    monthly_quota := toFixed2 monthlyQuota }

/-- The handler `getUserGoals` for the authenticated user `userId`: the
`goals` array of its response (status 200). -/
def getUserGoals (z : Zone) (now : Int) (goals : List SavingsGoal) (userId : Nat) :
    List GoalEntry :=
  (goals.filter (fun g => g.user_id == userId && !g.isDeleted)).map (enrichGoal z now)

/-- What it means for `r` to be `x` rounded to two decimal places: `r` is a
whole number of hundredths and no further than half a hundredth from `x`. -/
def IsRoundedToTwoDecimals (x r : ℚ) : Prop :=
  (∃ n : ℤ, r = (n : ℚ) / 100) ∧ |r - x| ≤ 1 / 200

/-! ## JavaScript numbers

A JavaScript `Number` is an IEEE 754 binary64 value.  The finite ones are the
rationals `m * 2 ^ e` with `|m| < 2 ^ 53` and `e ≥ -1074`; an arithmetic
operation, `parseFloat` and `$toDouble` yield the double nearest to the exact
result, the one with the even significand when two are equally near.  Overflow
to `Infinity` is not represented: from `2 ^ 1024` on the exponent range is
taken to go on. -/

/-- The position of the leading binary digit of `n`, found in at most `fuel`
halvings. -/
def log2Fuel : Nat → Nat → Nat
  | 0, _ => 0
  | fuel + 1, n => if n < 2 then 0 else log2Fuel fuel (n / 2) + 1

/-- The position of the leading binary digit of `n`: `⌊log₂ n⌋` for `n > 0`. -/
def natLog2 (n : Nat) : Nat := log2Fuel n n

/-- The binary exponent of a rational `x ≠ 0`: the `k` with
`2 ^ k ≤ |x| < 2 ^ (k + 1)`. -/
def floorLog2 (x : ℚ) : Int :=
  let k : Int := (natLog2 x.num.natAbs : Int) - (natLog2 x.den : Int)
  if (2 : ℚ) ^ k ≤ |x| then k else k - 1

/-- The integer nearest to `m`, the even one of the two when `m` lies halfway
between them. -/
def roundHalfEven (m : ℚ) : Int :=
  let f := ⌊m⌋
  let r := m - f
  if r < 1 / 2 then f
  else if 1 / 2 < r then f + 1
  else if f % 2 = 0 then f else f + 1

/-- The exponent of the unit in the last place of the doubles of the size of
`x`: 52 binary places below the leading digit, and not below `-1074`, where
the subnormal numbers end. -/
def ulpExponent (x : ℚ) : Int := max (floorLog2 x - 52) (-1074)

/-- The double nearest to `x` (round to nearest, ties to even). -/
def roundDouble (x : ℚ) : ℚ :=
  if x = 0 then 0
  else
    let n := roundHalfEven (|x| / (2 : ℚ) ^ ulpExponent x)
    if x < 0 then -((n : ℚ) * (2 : ℚ) ^ ulpExponent x) else (n : ℚ) * (2 : ℚ) ^ ulpExponent x

/-- The finite doubles: a significand of at most 53 binary digits and an
exponent of at least `-1074`. -/
def IsDouble (c : ℚ) : Prop :=
  ∃ m e : ℤ, |m| < 2 ^ 53 ∧ -1074 ≤ e ∧ c = (m : ℚ) * (2 : ℚ) ^ e

/-! ## The validators of the `SavingsGoal` schema -/

/-- The characters `String.prototype.trim` removes and `\s` matches. -/
def isJsSpace (c : Char) : Bool :=
  let n := c.toNat
  n == 9 || n == 10 || n == 11 || n == 12 || n == 13 || n == 32 || n == 160 || n == 5760
    || (decide (8192 ≤ n) && decide (n ≤ 8202)) || n == 8232 || n == 8233 || n == 8239
    || n == 8287 || n == 12288 || n == 65279

/-- The value of `s.trim()`. -/
def jsTrim (s : String) : String :=
  String.mk ((s.toList.dropWhile isJsSpace).reverse.dropWhile isJsSpace).reverse

/-- The class `[a-zA-Z0-9áéíóúüñÑ\s'-]` of the name's `match` validator. -/
def nameCharOk (c : Char) : Bool :=
  c.isAlphanum || c == 'á' || c == 'é' || c == 'í' || c == 'ó' || c == 'ú' || c == 'ü'
    || c == 'ñ' || c == 'Ñ' || isJsSpace c || c.toNat == 39 || c == '-'

/-- The length of a string in UTF-16 code units, as `maxlength` counts it. -/
def utf16Length (s : String) : Nat :=
  (s.toList.map (fun c => if c.toNat ≥ 65536 then 2 else 1)).sum

/-- The validators of the schema on a new goal: the name has 3 to 60
characters of the allowed class, the description at most 250, the target is
at least `0.01`, and the due date is a valid date whose day lies strictly
after today. -/
def newGoalValidatorsPass (z : Zone) (now : Int) (name description : String) (target : ℚ)
    (dueDate : Option Int) : Bool :=
  decide (3 ≤ utf16Length name) && decide (utf16Length name ≤ 60)
    && name.toList.all nameCharOk
    && decide (utf16Length description ≤ 250)
    && decide (1 / 100 ≤ target)
    && (match dueDate with
      | some due => decide (setHoursZero z due > setHoursZero z now)
      | none => false)

/-- The validators `save()` runs on a goal loaded by `findOne`: every path of
the document is validated again, so the name, the description, the two
amounts and the due date (which has to lie strictly after today) all are. -/
def goalSaveValidatorsPass (z : Zone) (now : Int) (g : SavingsGoal) : Bool :=
  newGoalValidatorsPass z now g.name g.description g.target_amount (some g.due_date)
    && decide (0 ≤ g.current_amount)

/-! ## `addMoneyToGoal` and `updateSavingsGoal` -/

/-- The body of the request that `addMoneyToGoal` hands to `createTransaction`. -/
structure TransactionBody where
  type : TxType
  amount : ℚ
  date : Int
  category_id : Nat
  description : String
deriving DecidableEq

/-- The object `fakeReq`: the caller and the body of the synthetic transaction. -/
structure TransactionRequest where
  user : Nat
  body : TransactionBody
deriving DecidableEq

/-- How a call `createTransaction(fakeReq, fakeRes)` ends, as `fakeRes` records
it: with a last call `res.status(code).json(obj)`, without any call of
`res.status`, or by throwing.  The controller that defines `createTransaction`
is not part of the sources, so the function is a parameter of
`addMoneyToGoal`. -/
inductive CreateTransactionOutcome where
  | responded (status : Nat) (json : String)
  | unanswered
  | threw
deriving DecidableEq

/-- The body of a response of `addMoneyToGoal`: a message, the body captured
from `createTransaction`, or the summary of the goal. -/
inductive AddMoneyBody where
  | message (text : String)
  | forwarded (json : String)
  | added (message : String) (_id : Nat) (name : String) (current_amount target_amount : ℚ)
      (completed : Bool)
deriving DecidableEq

/-- What a run of `addMoneyToGoal` leaves behind: the response, the
`SavingsGoal` and `Category` collections, and the requests it submitted to
`createTransaction`. -/
structure AddMoneyResult where
  status : Nat
  body : AddMoneyBody
  goals : List SavingsGoal
  categories : List Category
  submitted : List TransactionRequest

/-- The filter `{ _id: id, user_id, isDeleted: false }` on savings goals. -/
def matchesOwnedGoal (id userId : Nat) (g : SavingsGoal) : Bool :=
  g._id == id && g.user_id == userId && !g.isDeleted

/-- A write to the first goal that satisfies `p`; the other goals are left as
they are. -/
def updateFirstGoal (p : SavingsGoal → Bool) (f : SavingsGoal → SavingsGoal) :
    List SavingsGoal → List SavingsGoal
  | [] => []
  | g :: rest => if p g then f g :: rest else g :: updateFirstGoal p f rest

/-- An object id no stored category has. -/
def freshCategoryId (cats : List Category) : Nat :=
  (cats.map (fun c => c._id)).foldr max 0 + 1

/-- The category `'Otros'` of type `'gasto'`: the one `Category.findOne` finds,
or else the one `Category.create` inserts (the insert is taken to succeed);
with the `Category` collection afterwards. -/
def findOrCreateOtros (cats : List Category) : Category × List Category :=
  match cats.find? (fun c => c.name == "Otros" && c.appliesTo == TxType.gasto) with
  | some category => (category, cats)
  | none =>
    (Category.mk (freshCategoryId cats) "Otros" TxType.gasto,
      cats ++ [Category.mk (freshCategoryId cats) "Otros" TxType.gasto])

/-- The object `fakeReq` that `addMoneyToGoal` builds for the amount `amount`
at time `now`. -/
def syntheticRequest (cats : List Category) (userId : Nat) (amount : ℚ) (now : Int) :
    TransactionRequest :=
  { user := userId
    body :=
      { type := TxType.gasto
        amount := amount
        date := now
        category_id := (findOrCreateOtros cats).1._id
        description := "Meta de ahorro" } }

/-- The handler `addMoneyToGoal` for the authenticated user `userId` at time
`now`.  `raw` is `Number(req.body.amount)` when that is a finite number and
`none` otherwise; the two amounts of the goal are read by `parseFloat` and the
sum is a sum of doubles.  `goal.save()` validates the loaded goal before it
writes; its validation error is caught by the handler's `catch` and answered
with status 500, after `createTransaction` was called.  A response without an
explicit status has status 200. -/
def addMoneyToGoal (z : Zone) (goals : List SavingsGoal) (cats : List Category)
    (createTransaction : TransactionRequest → CreateTransactionOutcome)
    (userId id : Nat) (raw : Option ℚ) (now : Int) : AddMoneyResult :=
  match raw with
  | none => AddMoneyResult.mk 400 (AddMoneyBody.message "Monto inválido") goals cats []
  | some amount =>
    if amount ≤ 0 then
      AddMoneyResult.mk 400 (AddMoneyBody.message "Monto inválido") goals cats []
    else
      match goals.find? (matchesOwnedGoal id userId) with
      | none => AddMoneyResult.mk 404 (AddMoneyBody.message "Meta no encontrada") goals cats []
      | some goal =>
        let current := roundDouble goal.current_amount
        let target := roundDouble goal.target_amount
        let newCurrent := min (roundDouble (current + amount)) target
        let fakeReq := syntheticRequest cats userId amount now
        let failed : AddMoneyResult :=
          AddMoneyResult.mk 500 (AddMoneyBody.message "Error al abonar a la meta") goals
            (findOrCreateOtros cats).2 [fakeReq]
        let saved : AddMoneyResult :=
          if goalSaveValidatorsPass z now { goal with current_amount := newCurrent } then
            AddMoneyResult.mk 200
              (AddMoneyBody.added "Dinero agregado" goal._id goal.name newCurrent target
                (decide (newCurrent ≥ target)))
              (updateFirstGoal (fun g => g._id == goal._id)
                (fun g => { g with current_amount := newCurrent }) goals)
              (findOrCreateOtros cats).2 [fakeReq]
          else failed
        match createTransaction fakeReq with
        | CreateTransactionOutcome.threw => failed
        | CreateTransactionOutcome.unanswered => saved
        | CreateTransactionOutcome.responded capturedStatus capturedJson =>
          if capturedStatus ≠ 201 then
            AddMoneyResult.mk capturedStatus (AddMoneyBody.forwarded capturedJson) goals
              (findOrCreateOtros cats).2 [fakeReq]
          else saved

/-- The amount fields of the body of an `updateSavingsGoal` request; `none`
for a field the body does not have. -/
structure UpdateGoalBody where
  target_amount : Option ℚ
  current_amount : Option ℚ
deriving DecidableEq

/-- The response of `updateSavingsGoal`. -/
inductive GoalResponse where
  | goal (status : Nat) (goal : SavingsGoal)
  | message (status : Nat) (message : String)
deriving DecidableEq

/-- The validators that `runValidators: true` runs on the amounts of the
update: a target of at least `0.01`, a current amount of at least `0`. -/
def goalValidatorsPass (body : UpdateGoalBody) : Bool :=
  (match body.target_amount with
    | some t => decide (1 / 100 ≤ t)
    | none => true)
  && (match body.current_amount with
    | some c => decide (0 ≤ c)
    | none => true)

/-- The fields of `body` written over a goal. -/
def applyGoalBody (body : UpdateGoalBody) (g : SavingsGoal) : SavingsGoal :=
  { g with target_amount := body.target_amount.getD g.target_amount
           current_amount := body.current_amount.getD g.current_amount }

/-- The handler `updateSavingsGoal` for the authenticated user `userId`, on a
body that sets amounts: `findOneAndUpdate` writes the body's fields to the
first matching goal.  A validation error is caught and answered with status
500. -/
def updateSavingsGoal (goals : List SavingsGoal) (userId id : Nat) (body : UpdateGoalBody) :
    GoalResponse × List SavingsGoal :=
  if goalValidatorsPass body then
    match goals.find? (matchesOwnedGoal id userId) with
    | none => (GoalResponse.message 404 "Meta no encontrada", goals)
    | some goal =>
      (GoalResponse.goal 200 (applyGoalBody body goal),
        updateFirstGoal (matchesOwnedGoal id userId) (applyGoalBody body) goals)
  else (GoalResponse.message 500 "Error al actualizar meta", goals)

/-- A `createTransaction` that stores every transaction and answers 201. -/
def acceptingCreateTransaction : TransactionRequest → CreateTransactionOutcome :=
  fun _ => CreateTransactionOutcome.responded 201 "transaction"

/-- A `createTransaction` that rejects every transaction with status 400. -/
def rejectingCreateTransaction : TransactionRequest → CreateTransactionOutcome :=
  fun _ => CreateTransactionOutcome.responded 400 "validation"

/-- A goal of user 7 with target 100 and 80 saved, due 2024-09-01 (UTC). -/
def nearlyDoneGoal : SavingsGoal :=
  { _id := 3, user_id := 7, name := "Bici", description := "", target_amount := 100,
    current_amount := 80, due_date := 1725148800000, isDeleted := false }

/-- A goal of user 7 with target 3 and 1 saved, due 2024-09-01 (UTC). -/
def thirdGoal : SavingsGoal :=
  { _id := 2, user_id := 7, name := "Libro", description := "", target_amount := 3,
    current_amount := 1, due_date := 1725148800000, isDeleted := false }

/-! ## `parseDateOnly`, `createSavingsGoal` and `deleteSavingsGoal` -/

/-- The time value of `new Date(year, monthIndex, date)` (local midnight);
`none` is an Invalid Date. -/
def newDateYMD (z : Zone) (year monthIndex date : Int) : Option Int :=
  let yr := if 0 ≤ year ∧ year ≤ 99 then 1900 + year else year
  let t := z.utc (makeDay yr monthIndex date * msPerDay)
  if |t| ≤ maxTimeValue then some t else none

/-- ECMAScript `DateFromTime`, on day numbers: the day of the month of day `d`. -/
def dateFromDay (d : Int) : Int :=
  let y := yearFromDay d
  d - dayFromYear y - daysBeforeMonth (inLeapYear y) (monthFromDay d).toNat + 1

/-- The value of `date.getDate()` for the time value `t`. -/
def getDate (z : Zone) (t : Int) : Int := dateFromDay (dayOf (z.localTime t))

/-- The groups of `input.match(/^(\d{4})-(\d{2})-(\d{2})$/)`, as numbers; `none`
when the string does not match. -/
def isoDateMatch (input : String) : Option (Int × Int × Int) :=
  match input.toList with
  | [y1, y2, y3, y4, s1, m1, m2, s2, d1, d2] =>
    if s1 = '-' ∧ s2 = '-' then
      match jsNumber [y1, y2, y3, y4], jsNumber [m1, m2], jsNumber [d1, d2] with
      | some y, some m, some d => some (y, m, d)
      | _, _, _ => none
    else none
  | _ => none

/-- The values `parseDateOnly` can be given. -/
inductive DateInput where
  /-- A falsy value: `undefined`, `null`. -/
  | missing
  /-- A string. -/
  | text (s : String)
  /-- A `Date` object; `none` is an Invalid Date. -/
  | date (t : Option Int)
  /-- A value of any other type. -/
  | other
deriving DecidableEq

/-- The local midnight `new Date(dt.getFullYear(), dt.getMonth(), dt.getDate())`
of the day of `t`. -/
def localMidnight (z : Zone) (t : Int) : Option Int :=
  newDateYMD z (getFullYear z t) (getMonth z t) (getDate z t)

/-- The function `parseDateOnly(input)`.  The result is `none` for `null` and
`some d` for a `Date` object `d`, itself `none` when it is an Invalid Date.
`dateParse` is the reading `new Date(string)` makes of a string that is not
of the form `YYYY-MM-DD`. -/
def parseDateOnly (z : Zone) (dateParse : String → Option Int) (input : DateInput) :
    Option (Option Int) :=
  match input with
  | DateInput.missing => none
  | DateInput.text s =>
    if s = "" then none
    else
      match isoDateMatch s with
      | some (y, m, d) => some (newDateYMD z y (m - 1) d)
      | none =>
        match dateParse s with
        | some t => some (localMidnight z t)
        | none => none
  | DateInput.date none => none
  | DateInput.date (some t) => some (localMidnight z t)
  | DateInput.other => none

/-- The body of a `createSavingsGoal` request. -/
structure CreateGoalBody where
  name : String
  description : Option String
  target_amount : ℚ
  due_date : DateInput
deriving DecidableEq

/-- The status code of a response about a goal. -/
def GoalResponse.status : GoalResponse → Nat
  | GoalResponse.goal status _ => status
  | GoalResponse.message status _ => status

/-- Whether writing `candidate` would give two goals the same key of the
unique index `{ user_id: 1, name: 1, isDeleted: 1 }`. -/
def violatesGoalIndex (goals : List SavingsGoal) (candidate : SavingsGoal) : Bool :=
  goals.any (fun g => g._id != candidate._id && g.user_id == candidate.user_id
    && g.name == candidate.name && g.isDeleted == candidate.isDeleted)

/-- An object id no stored goal has. -/
def freshGoalId (goals : List SavingsGoal) : Nat :=
  (goals.map (fun g => g._id)).foldr max 0 + 1

/-- The handler `createSavingsGoal` for the authenticated user `userId` at
time `now`.  A validation error, a cast error of an Invalid Date and a
duplicate key of the unique index are caught and answered with status 500. -/
def createSavingsGoal (z : Zone) (dateParse : String → Option Int) (goals : List SavingsGoal)
    (userId : Nat) (body : CreateGoalBody) (now : Int) : GoalResponse × List SavingsGoal :=
  match parseDateOnly z dateParse body.due_date with
  | none => (GoalResponse.message 400 "Fecha límite inválida", goals)
  | some dueDate =>
    match goals.find? (fun g => g.user_id == userId && g.name == jsTrim body.name
        && !g.isDeleted) with
    | some _ => (GoalResponse.message 409 "Ya tienes una meta con ese nombre.", goals)
    | none =>
      let description := jsTrim (body.description.getD "")
      if newGoalValidatorsPass z now (jsTrim body.name) description body.target_amount dueDate
      then
        let goal : SavingsGoal :=
          { _id := freshGoalId goals
            user_id := userId
            name := jsTrim body.name
            description := description
            target_amount := body.target_amount
            current_amount := 0
            due_date := dueDate.getD 0
            isDeleted := false }
        if violatesGoalIndex goals goal then
          (GoalResponse.message 500 "Error al crear meta de ahorro", goals)
        else (GoalResponse.goal 201 goal, goals ++ [goal])
      else (GoalResponse.message 500 "Error al crear meta de ahorro", goals)

/-- The handler `deleteSavingsGoal` for the authenticated user `userId`:
`findOneAndUpdate` marks the first matching goal deleted, unless the unique
index rejects the write, which is caught and answered with status 500. -/
def deleteSavingsGoal (goals : List SavingsGoal) (userId id : Nat) :
    GoalResponse × List SavingsGoal :=
  match goals.find? (matchesOwnedGoal id userId) with
  | none => (GoalResponse.message 404 "Meta no encontrada", goals)
  | some goal =>
    if violatesGoalIndex goals { goal with isDeleted := true } then
      (GoalResponse.message 500 "Error al eliminar meta", goals)
    else
      (GoalResponse.message 200 "Meta eliminada",
        updateFirstGoal (matchesOwnedGoal id userId)
          (fun g => { g with isDeleted := true }) goals)

/-! ## What `toggleBudget` and `deleteBudget` write -/

/-- A budget as `toggleBudget` saves it: `isActive` flipped, and `updatedAt`
set by `timestamps: true`. -/
def flippedBudget (b : Budget) (now : Int) : Budget :=
  { b with isActive := !b.isActive, updatedAt := now }

/-- A budget as `deleteBudget` leaves it: deleted and inactive, and `updatedAt`
set by `timestamps: true`. -/
def softDeletedBudget (b : Budget) (now : Int) : Budget :=
  { b with isDeleted := true, isActive := false, updatedAt := now }

/-! ## Inputs of the later checks -/

/-- The user of the scenario with the budget alerts switched off. -/
def mutedUsers : List User :=
  [{ _id := 7, email := some "ana@example.com", thresholdEnabled := false }]

/-- An expense of 40 of user 7 in category 3, dated 2024-06-10T09:00:00Z: on
the day the scenario's budget is created, six hours before its creation. -/
def morningExpense : Transaction :=
  { user_id := 7, type := TxType.gasto, amount := 40, date := 1718010000000,
    category_id := some 3 }

/-- A goal of user 7 due on 2024-06-10 at 00:00 UTC. -/
def dueTodayGoal : SavingsGoal :=
  { _id := 4, user_id := 7, name := "Regalo", description := "", target_amount := 100,
    current_amount := 10, due_date := 1717977600000, isDeleted := false }

/-! ## The scenario of the specification

Month `2024-06`, a budget created on 2024-06-10T15:00:00Z with limit 500 and
threshold 80, and expenses of 100, 300 and 150 dated 5, 15 and 20 June (at
UTC midnight). -/

/-- The time value of 2024-06-10T15:00:00Z. -/
def scenarioCreatedAt : Int := 1718031600000

/-- The `Budget` collection of the scenario. -/
def scenarioBudgets : List Budget :=
  [{ _id := 1, user_id := 7, category_id := 3, month := "2024-06", limit := 500,
     threshold := 80, isActive := true, isDeleted := false,
     createdAt := scenarioCreatedAt, updatedAt := scenarioCreatedAt }]

/-- The `Category` collection of the scenario. -/
def scenarioCategories : List Category := [{ _id := 3, name := "Comida" }]

/-- The `Transaction` collection of the scenario. -/
def scenarioTransactions : List Transaction :=
  [{ user_id := 7, type := TxType.gasto, amount := 100, date := 1717545600000,
     category_id := some 3 },
   { user_id := 7, type := TxType.gasto, amount := 300, date := 1718409600000,
     category_id := some 3 },
   { user_id := 7, type := TxType.gasto, amount := 150, date := 1718841600000,
     category_id := some 3 }]

/-- The entry of the scenario's budget before the expense of 20 June. -/
def scenarioEntryBefore : BudgetEntry :=
  { _id := 1, category := "Comida", month := "2024-06", limit := 500, threshold := 80,
    isActive := true, spent := 300, available := 200, percentUsed := 60, alert := false }

/-- The entry the scenario expects `listBudgets` to report. -/
def scenarioEntry : BudgetEntry :=
  { _id := 1, category := "Comida", month := "2024-06", limit := 500, threshold := 80,
    isActive := true, spent := 450, available := 50, percentUsed := 90, alert := true }

/-! ## Goals named `Viaje` -/

/-- A `new Date(string)` that reads no string beyond the `YYYY-MM-DD` ones. -/
def noDateParse : String → Option Int := fun _ => none

/-- A request for a goal named `Viaje` of 1200, due on 2024-09-01. -/
def viajeBody : CreateGoalBody :=
  { name := "Viaje", description := none, target_amount := 1200,
    due_date := DateInput.text "2024-09-01" }

/-- The goals after user 7 creates the goal `Viaje` on 2024-06-10 (UTC). -/
def viajeCreated : GoalResponse × List SavingsGoal :=
  createSavingsGoal Zone.UTC noDateParse [] 7 viajeBody scenarioCreatedAt

/-- The goals after the goal `Viaje` is then deleted. -/
def viajeDeleted : GoalResponse × List SavingsGoal :=
  deleteSavingsGoal viajeCreated.2 7 1

/-- The goals after a goal `Viaje` is then created again. -/
def viajeCreatedAgain : GoalResponse × List SavingsGoal :=
  createSavingsGoal Zone.UTC noDateParse viajeDeleted.2 7 viajeBody scenarioCreatedAt

/-- The goals after the second goal `Viaje` is then deleted. -/
def viajeDeletedAgain : GoalResponse × List SavingsGoal :=
  deleteSavingsGoal viajeCreatedAgain.2 7 2

/-- A request for a goal due on the 31st of February 2024. -/
def februaryBody : CreateGoalBody :=
  { name := "Viaje", description := none, target_amount := 1200,
    due_date := DateInput.text "2024-02-31" }

/-! ## The handlers on JavaScript numbers

The lines of `spentInPeriod`, `listBudgets`, `checkBudgetAlert`,
`getMonthlyQuota` and `getUserGoals` once more, with every `Number` a double
and every arithmetic operation rounded to the nearest double. -/

/-- The aggregation pipeline of `spentInPeriod` on doubles: `$toDouble` reads
every matching amount as the nearest double and `$sum` adds those doubles.
How the accumulator rounds while it adds is the database's affair and not part
of the sources; its total is taken to be the double nearest to the exact sum
of the doubles, which is what it is for a single amount. -/
def aggregateSpendDouble (txs : List Transaction) (userId catId : Nat) (start «end» : Int) :
    List ℚ :=
  match txs.filter (matchesSpend userId catId start «end») with
  | [] => []
  | m :: ms => [roundDouble (((m :: ms).map (fun t => roundDouble t.amount)).sum)]

/-- The result of `spentInPeriod(userId, catId, month, budgetCreatedAt)` on
doubles: the total of the aggregation, or `0` when nothing matched. -/
def spentInPeriodDouble (z : Zone) (txs : List Transaction) (userId catId : Nat)
    (month : String) (budgetCreatedAt : Anchor) : Option ℚ :=
  match spentInPeriodWindow z month budgetCreatedAt with
  | none => none
  | some (start, «end») =>
    match aggregateSpendDouble txs userId catId start «end» with
    | [] => some 0
    | total :: _ => some total

/-- The callback `listBudgets` maps over the budgets (lines 121-147), on
doubles: `toNumber` reads the limit as the nearest double, the subtraction,
the division and the multiplication round, `toFixed(1)` writes the product
with one decimal and `parseFloat` reads that back. -/
def enrichBudgetDouble (z : Zone) (txs : List Transaction) (userId : Nat)
    (b : PopulatedBudget) : Option BudgetEntry :=
  match b.category_id with
  | none => none
  | some cat =>
    match spentInPeriodDouble z txs userId cat._id b.month (Anchor.instant b.createdAt) with
    | none => none
    | some spent =>
      let limitNum := roundDouble b.limit
      let avail := roundDouble (limitNum - spent)
      let percent :=
        if limitNum ≠ 0 then
          roundDouble (toFixed1 (roundDouble (roundDouble (spent / limitNum) * 100)))
        else 0
      some
        { _id := b._id
          category := cat.name
          month := b.month
          limit := limitNum
          threshold := b.threshold
          isActive := b.isActive
          spent := spent
          available := avail
          percentUsed := percent
          alert := b.isActive && decide (b.threshold ≤ percent) }

/-- The handler `listBudgets` with the callback on doubles. -/
def listBudgetsDouble (z : Zone) (cats : List Category) (budgets : List Budget)
    (txs : List Transaction) (userId : Nat) : Option ListBudgetsResponse :=
  let found := (findActiveBudgets budgets userId).map (populate cats)
  match found.find? (fun b => b.category_id.isNone) with
  | some _ => some (ListBudgetsResponse.message 400 "ID de categoría inválido")
  | none =>
    match allSome (found.map (enrichBudgetDouble z txs userId)) with
    | none => none
    | some enriched => some (ListBudgetsResponse.budgets 200 enriched)

/-- The outer `try` block of `checkBudgetAlert` (lines 207-297) on doubles:
`limitNum` and `spentNum` are read by `parseFloat`, and the quotient and the
product of `(spentNum / limitNum) * 100` are rounded before the comparison
with the threshold. -/
def checkBudgetAlertTryDouble (z : Zone) (budgets : List Budget) (cats : List Category)
    (txs : List Transaction) (users : List User) (faults : AlertFaults)
    (userId categoryId : Nat) (month : String) : Option (Except String (List MailOptions)) :=
  if faults.budgetLookup then some (Except.error "Budget.findOne")
  else
    match (budgets.find? (matchesAlert userId categoryId month)).map (populate cats) with
    | none => some (Except.ok [])
    | some budget =>
      if faults.aggregation then some (Except.error "Transaction.aggregate")
      else
        match spentInPeriodDouble z txs userId categoryId month
            (Anchor.instant budget.createdAt) with
        | none => none
        | some spent =>
          let limitNum := roundDouble budget.limit
          let spentNum := roundDouble spent
          let percentUsed :=
            if limitNum ≠ 0 then roundDouble (roundDouble (spentNum / limitNum) * 100) else 0
          if percentUsed ≥ budget.threshold then
            if faults.userLookup then some (Except.error "User.findById")
            else
              match users.find? (fun u => u._id == userId) with
              | none => some (Except.ok [])
              | some user =>
                match user.email with
                | none => some (Except.ok [])
                | some email =>
                  if email = "" then some (Except.ok [])
                  else
                    some (Except.ok
                      [alertMail email budget.category_id month percentUsed limitNum spentNum])
          else some (Except.ok [])

/-- The function `checkBudgetAlert(userId, categoryId, month)` on doubles. -/
def checkBudgetAlertDouble (z : Zone) (budgets : List Budget) (cats : List Category)
    (txs : List Transaction) (users : List User) (faults : AlertFaults)
    (userId categoryId : Nat) (month : String) : Option AlertRun :=
  match checkBudgetAlertTryDouble z budgets cats txs users faults userId categoryId month with
  | none => none
  | some (Except.ok calls) =>
    some { thrown := none, sendMailCalls := calls,
           delivered := if faults.sendMail then [] else calls }
  | some (Except.error _) => some { thrown := none, sendMailCalls := [], delivered := [] }

/-- The function `getMonthlyQuota(target, current, dueDate)` on doubles: the
subtraction and the division round. -/
def getMonthlyQuotaDouble (z : Zone) (now : Int) (target current : ℚ) (dueDate : Int) : ℚ :=
  let diffMonths : Int :=
    max 0 ((getFullYear z dueDate - getFullYear z now) * 12
      + (getMonth z dueDate - getMonth z now))
  let remaining := roundDouble (target - current)
  if diffMonths = 0 then remaining else roundDouble (remaining / ((diffMonths : ℚ) + 1))

/-- The callback `getUserGoals` maps over the goals (lines 87-111) on doubles. -/
def enrichGoalDouble (z : Zone) (now : Int) (g : SavingsGoal) : GoalEntry :=
  let target := roundDouble g.target_amount
  let current := roundDouble g.current_amount
  let progress :=
    if target ≠ 0 then min 100 (roundDouble (roundDouble (current / target) * 100)) else 0
  let today := setHoursZero z now
  let due := setHoursZero z g.due_date
  let status := if today > due then GoalStatus.vencida else GoalStatus.activa
  let monthlyQuota := getMonthlyQuotaDouble z now target current due
  { _id := g._id
    name := g.name
    description := g.description
    target_amount := target
    current_amount := current
    due_date := g.due_date
    status := status
    progress := roundDouble (toFixed2 progress)
    monthly_quota := roundDouble (toFixed2 monthlyQuota) }

/-- The handler `getUserGoals` with the callback on doubles. -/
def getUserGoalsDouble (z : Zone) (now : Int) (goals : List SavingsGoal) (userId : Nat) :
    List GoalEntry :=
  (goals.filter (fun g => g.user_id == userId && !g.isDeleted)).map (enrichGoalDouble z now)

/-- What it means for the instant `t` to lie in month `m` (1 = January) of year
`y` on the local clock: its clock reading is not before the first day of that
month and is before the first day of the next one. -/
@[reducible] def InLocalMonth (z : Zone) (t : Int) (y m : Int) : Prop :=
  makeDay y (m - 1) 1 * msPerDay ≤ z.localTime t ∧ z.localTime t < makeDay y m 1 * msPerDay

/-! ## Budgets of June 2024 -/

/-- The `Budget` collection with one budget of user 7 for category 3 in June
2024, created at the instant of the scenario. -/
def juneBudget (limit threshold : ℚ) : List Budget :=
  [{ _id := 1, user_id := 7, category_id := 3, month := "2024-06", limit := limit,
     threshold := threshold, isActive := true, isDeleted := false,
     createdAt := scenarioCreatedAt, updatedAt := scenarioCreatedAt }]

/-- The `Transaction` collection with one expense of user 7 in category 3,
dated 2024-06-15 (UTC). -/
def juneExpense (amount : ℚ) : List Transaction :=
  [{ user_id := 7, type := TxType.gasto, amount := amount, date := 1718409600000,
     category_id := some 3 }]

/-- The entry of a budget of 80 with 23 spent: the product `(23 / 80) * 100` is
the double below 28.75 and is written as `28.7`. -/
def tieEntry : BudgetEntry :=
  { _id := 1, category := "Comida", month := "2024-06", limit := 80, threshold := 80,
    isActive := true, spent := 23, available := 57, percentUsed := roundDouble (287 / 10),
    alert := false }

/-- The entry of a budget of 80 with 100 spent: the available amount is
negative. -/
def overspentEntry : BudgetEntry :=
  { _id := 1, category := "Comida", month := "2024-06", limit := 80, threshold := 80,
    isActive := true, spent := 100, available := -20, percentUsed := 125, alert := true }

/-- The entry of a budget of 1000.1 with 0.3 spent. -/
def unevenEntry : BudgetEntry :=
  { _id := 1, category := "Comida", month := "2024-06", limit := roundDouble (10001 / 10),
    threshold := 80, isActive := true, spent := roundDouble (3 / 10),
    available := roundDouble (roundDouble (10001 / 10) - roundDouble (3 / 10)),
    percentUsed := 0, alert := false }

/-- A goal of user 7 with target 200 and 2.01 saved, due 2024-09-01 (UTC). -/
def pennyGoal : SavingsGoal :=
  { _id := 5, user_id := 7, name := "Curso", description := "", target_amount := 200,
    current_amount := 201 / 100, due_date := 1725148800000, isDeleted := false }

/-- The `User` collection with the preference `thresholdEnabled` of every
user set to `value`. -/
def withThresholdEnabled (value : Bool) (users : List User) : List User :=
  users.map (fun u => { u with thresholdEnabled := value })

/-! ## The goal `Regalo` -/

/-- A request for a goal named `Regalo` of 100, due on 2024-06-10. -/
def regaloBody : CreateGoalBody :=
  { name := "Regalo", description := none, target_amount := 100,
    due_date := DateInput.text "2024-06-10" }

/-- The goals after user 7 creates the goal `Regalo` on 2024-06-01 at 12:00 UTC. -/
def regaloCreated : GoalResponse × List SavingsGoal :=
  createSavingsGoal Zone.UTC noDateParse [] 7 regaloBody 1717243200000

/-! ## Date lemmas -/

theorem daysBeforeMonth_bounds (leap : Bool) (mn : Nat) :
    0 ≤ daysBeforeMonth leap mn ∧ daysBeforeMonth leap mn ≤ 335 := by
  unfold daysBeforeMonth
  cases leap <;> simp <;> split <;> omega

theorem makeDay_bounds (y m : Int) (hy : 2000 ≤ y ∧ y ≤ 2101) (hm : 0 ≤ m ∧ m ≤ 12) :
    10957 ≤ makeDay y m 1 ∧ makeDay y m 1 ≤ 48600 := by
  have hb := daysBeforeMonth_bounds (inLeapYear (y + m / 12)) (m % 12).toNat
  unfold makeDay dayFromYear
  simp only []
  omega

/-- The day on which a month ends is the day it starts plus its length. -/
theorem makeDay_succ_month (y mm : Int) (hm : 1 ≤ mm ∧ mm ≤ 12) :
    makeDay y mm 1 = makeDay y (mm - 1) 1 + daysInMonth y mm := by
  obtain ⟨h1, h2⟩ := hm
  interval_cases mm <;>
    simp [makeDay, daysBeforeMonth, daysInMonth, dayFromYear, inLeapYear] <;>
    (try split) <;> omega

/-- For the years the Budget schema admits (and the one after), the first day
of a month is a valid `Date`. -/
theorem newDate_eq (z : Zone) (y m : Int) (hy : 2000 ≤ y ∧ y ≤ 2101) (hm : 0 ≤ m ∧ m ≤ 12) :
    newDate z y m = some (z.utc (makeDay y m 1 * msPerDay)) := by
  have hb := makeDay_bounds y m hy hm
  have hz := z.bounded (makeDay y m 1 * msPerDay)
  have hyr : ¬ (0 ≤ y ∧ y ≤ 99) := by omega
  unfold newDate
  simp only [hyr, if_false]
  rw [if_pos]
  rw [abs_le] at hz ⊢
  simp only [msPerDay, maxTimeValue] at *
  constructor <;> omega

/-- The window of a valid month, as a function of the anchor. -/
theorem spentInPeriodWindow_eq (z : Zone) (month : String) (year mm : Int)
    (hparse : parseMonth month = some (year, mm))
    (hyear : 2000 ≤ year ∧ year ≤ 2101) (hmm : 1 ≤ mm ∧ mm ≤ 12) (anchor : Anchor) :
    spentInPeriodWindow z month anchor =
      match anchor with
      | .instant t =>
        if z.utc (makeDay year (mm - 1) 1 * msPerDay) ≤ t
            ∧ t < z.utc (makeDay year mm 1 * msPerDay)
        then some (t, z.utc (makeDay year mm 1 * msPerDay))
        else some (z.utc (makeDay year (mm - 1) 1 * msPerDay),
          z.utc (makeDay year mm 1 * msPerDay))
      | _ => some (z.utc (makeDay year (mm - 1) 1 * msPerDay),
          z.utc (makeDay year mm 1 * msPerDay)) := by
  unfold spentInPeriodWindow
  rw [hparse]
  simp only [newDate_eq z year (mm - 1) hyear (by omega), newDate_eq z year mm hyear (by omega)]

/-- A valid month's un-anchored window is not empty. -/
theorem monthStart_lt_end (z : Zone) (year mm : Int) (hmm : 1 ≤ mm ∧ mm ≤ 12) :
    z.utc (makeDay year (mm - 1) 1 * msPerDay) < z.utc (makeDay year mm 1 * msPerDay) := by
  have h1 := z.bounded (makeDay year (mm - 1) 1 * msPerDay)
  have h2 := z.bounded (makeDay year mm 1 * msPerDay)
  have h3 := makeDay_succ_month year mm hmm
  have h4 : 28 ≤ daysInMonth year mm := by
    unfold daysInMonth
    split_ifs <;> omega
  rw [abs_le] at h1 h2
  simp only [msPerDay] at *
  omega

/-! ## The period window (C1, C2) -/

/-- C1: for a valid month (year 2000-2100, month 1-12) and any anchor value
passed to `spentInPeriod`, the window starts at the anchor's exact instant `t`
when the anchor is a valid timestamp with `monthStart ≤ t < end`, and at the
start of the month in every other case (anchor absent, unparseable, raising,
before the month start, at or after the window end); the window end never
depends on the anchor. -/
theorem spentInPeriod_effective_start (z : Zone) (month : String) (year mm : Int)
    (hparse : parseMonth month = some (year, mm))
    (hyear : 2000 ≤ year ∧ year ≤ 2100) (hmm : 1 ≤ mm ∧ mm ≤ 12) (anchor : Anchor) :
    spentInPeriodWindow z month Anchor.absent
        = some (z.utc (makeDay year (mm - 1) 1 * msPerDay),
            z.utc (makeDay year mm 1 * msPerDay)) ∧
    (∀ t, anchor = Anchor.instant t →
        z.utc (makeDay year (mm - 1) 1 * msPerDay) ≤ t →
        t < z.utc (makeDay year mm 1 * msPerDay) →
        spentInPeriodWindow z month anchor
          = some (t, z.utc (makeDay year mm 1 * msPerDay))) ∧
    ((∀ t, anchor = Anchor.instant t →
        ¬ (z.utc (makeDay year (mm - 1) 1 * msPerDay) ≤ t
            ∧ t < z.utc (makeDay year mm 1 * msPerDay))) →
        spentInPeriodWindow z month anchor
          = spentInPeriodWindow z month Anchor.absent) := by
  have hy : 2000 ≤ year ∧ year ≤ 2101 := ⟨hyear.1, by omega⟩
  have hw := spentInPeriodWindow_eq z month year mm hparse hy hmm
  refine ⟨hw Anchor.absent, ?_, ?_⟩
  · intro t ht h1 h2
    rw [hw anchor, ht]
    simp only [h1, h2, and_self, if_true]
  · intro h
    rw [hw anchor, hw Anchor.absent]
    cases anchor with
    | instant t =>
      have := h t rfl
      simp only [this, if_false]
    | absent => rfl
    | invalid => rfl
    | raises => rfl

/-- Witness of C1: June 2024 in UTC with an anchor on 2024-06-10T15:00:00Z. -/
theorem spentInPeriod_effective_start_witness :
    parseMonth "2024-06" = some (2024, 6) ∧
    spentInPeriodWindow Zone.UTC "2024-06" (Anchor.instant 1718031600000)
      = some (1718031600000, 1719792000000) :=
  ⟨by decide,
    (spentInPeriod_effective_start Zone.UTC "2024-06" 2024 6 (by decide) (by decide)
      (by decide) (Anchor.instant 1718031600000)).2.1 1718031600000 rfl
      (by decide) (by decide)⟩

/-- C2: for a valid month, the window end is the first instant (local midnight
of day 1) of the following calendar month, lies exactly the month's length in
days after the month's first local midnight, and is the un-anchored window
start of the following month, December rolling over into January of the next
year; so the two windows neither overlap nor leave a gap. -/
theorem spentInPeriod_end_is_next_start (z : Zone) (month next : String) (year mm : Int)
    (hparse : parseMonth month = some (year, mm))
    (hnext : parseMonth next = some (nextMonth year mm))
    (hyear : 2000 ≤ year ∧ year ≤ 2100) (hmm : 1 ≤ mm ∧ mm ≤ 12) :
    spentInPeriodWindow z month Anchor.absent
        = some (z.utc (makeDay year (mm - 1) 1 * msPerDay),
            z.utc (makeDay year mm 1 * msPerDay)) ∧
    spentInPeriodWindow z next Anchor.absent
        = some (z.utc (makeDay year mm 1 * msPerDay),
            z.utc (makeDay (nextMonth year mm).1 (nextMonth year mm).2 1 * msPerDay)) ∧
    makeDay year mm 1 = makeDay (nextMonth year mm).1 ((nextMonth year mm).2 - 1) 1 ∧
    makeDay year mm 1 = makeDay year (mm - 1) 1 + daysInMonth year mm ∧
    z.utc (makeDay year (mm - 1) 1 * msPerDay) < z.utc (makeDay year mm 1 * msPerDay) ∧
    z.utc (makeDay year mm 1 * msPerDay)
      < z.utc (makeDay (nextMonth year mm).1 (nextMonth year mm).2 1 * msPerDay) ∧
    (∀ t : Int,
      ¬ ((z.utc (makeDay year (mm - 1) 1 * msPerDay) ≤ t
            ∧ t < z.utc (makeDay year mm 1 * msPerDay)) ∧
          (z.utc (makeDay year mm 1 * msPerDay) ≤ t
            ∧ t < z.utc (makeDay (nextMonth year mm).1 (nextMonth year mm).2 1 * msPerDay)))) ∧
    (∀ t : Int, z.utc (makeDay year (mm - 1) 1 * msPerDay) ≤ t →
      t < z.utc (makeDay (nextMonth year mm).1 (nextMonth year mm).2 1 * msPerDay) →
      (z.utc (makeDay year (mm - 1) 1 * msPerDay) ≤ t
            ∧ t < z.utc (makeDay year mm 1 * msPerDay)) ∨
          (z.utc (makeDay year mm 1 * msPerDay) ≤ t
            ∧ t < z.utc (makeDay (nextMonth year mm).1 (nextMonth year mm).2 1 * msPerDay))) := by
  have hy : 2000 ≤ year ∧ year ≤ 2101 := ⟨hyear.1, by omega⟩
  have hroll : makeDay year mm 1
      = makeDay (nextMonth year mm).1 ((nextMonth year mm).2 - 1) 1 := by
    unfold nextMonth
    by_cases h12 : mm = 12
    · subst h12
      simp [makeDay]
    · simp [h12]
  have hny : 2000 ≤ (nextMonth year mm).1 ∧ (nextMonth year mm).1 ≤ 2101 := by
    unfold nextMonth
    split_ifs <;> (simp only []; omega)
  have hnm : 1 ≤ (nextMonth year mm).2 ∧ (nextMonth year mm).2 ≤ 12 := by
    unfold nextMonth
    split_ifs <;> (simp only []; omega)
  have hw := spentInPeriodWindow_eq z month year mm hparse hy hmm Anchor.absent
  have hw2 := spentInPeriodWindow_eq z next (nextMonth year mm).1 (nextMonth year mm).2
    hnext hny hnm Anchor.absent
  have h1 := monthStart_lt_end z year mm hmm
  have h2 := monthStart_lt_end z (nextMonth year mm).1 (nextMonth year mm).2 hnm
  rw [← hroll] at hw2 h2
  refine ⟨hw, hw2, hroll, makeDay_succ_month year mm hmm, h1, h2, ?_, ?_⟩
  · intro t
    omega
  · intro t ht1 ht2
    omega

/-- Witness of C2: December 2024 is followed by January 2025. -/
theorem spentInPeriod_end_is_next_start_witness :
    spentInPeriodWindow Zone.UTC "2024-12" Anchor.absent
        = some (1733011200000, 1735689600000) ∧
    spentInPeriodWindow Zone.UTC "2025-01" Anchor.absent
        = some (1735689600000, 1738368000000) :=
  ⟨(spentInPeriod_end_is_next_start Zone.UTC "2024-12" "2025-01" 2024 12 (by decide)
      (by decide) (by decide) (by decide)).1,
   (spentInPeriod_end_is_next_start Zone.UTC "2024-12" "2025-01" 2024 12 (by decide)
      (by decide) (by decide) (by decide)).2.1⟩

/-! ## The spend aggregation (C3) -/

theorem expectedSpend_eq_filter (txs : List Transaction) (userId catId : Nat)
    (start «end» : Int) :
    expectedSpend txs userId catId start «end»
      = ((txs.filter (matchesSpend userId catId start «end»)).map Transaction.amount).sum := by
  unfold expectedSpend
  induction txs with
  | nil => rfl
  | cons t ts ih =>
    by_cases h : t.user_id = userId ∧ t.category_id = some catId ∧ t.type = TxType.gasto
        ∧ start ≤ t.date ∧ t.date < «end»
    · have hm : matchesSpend userId catId start «end» t = true := by
        simp [matchesSpend, h.1, h.2.1, h.2.2.1, h.2.2.2.1, h.2.2.2.2]
      simp only [List.map_cons, List.sum_cons, if_pos h, List.filter_cons_of_pos hm, ih]
    · have hm : ¬ matchesSpend userId catId start «end» t = true := by
        intro hm
        apply h
        simpa [matchesSpend, and_assoc] using hm
      simp only [List.map_cons, List.sum_cons, if_neg h, List.filter_cons_of_neg hm, ih,
        zero_add]

theorem spentInPeriod_of_window {z : Zone} {txs : List Transaction} {userId catId : Nat}
    {month : String} {anchor : Anchor} {start «end» : Int}
    (hw : spentInPeriodWindow z month anchor = some (start, «end»)) :
    spentInPeriod z txs userId catId month anchor
      = some (expectedSpend txs userId catId start «end») := by
  rw [expectedSpend_eq_filter]
  unfold spentInPeriod aggregateSpend
  rw [hw]
  simp only []
  cases txs.filter (matchesSpend userId catId start «end») with
  | nil => rfl
  | cons m ms => rfl

theorem expectedSpend_append (txs extra : List Transaction) (userId catId : Nat)
    (start «end» : Int) :
    expectedSpend (txs ++ extra) userId catId start «end»
      = expectedSpend txs userId catId start «end»
        + expectedSpend extra userId catId start «end» := by
  simp [expectedSpend]

/-- C3: `spentInPeriod` returns the total of the amounts of exactly those
transactions with the given user and category, type expense and date in the
half-open window `[start, end)`; the total is `0` when no transaction matches; a
matching transaction dated exactly at `start` is counted, one dated exactly at
`end` is not, and a transaction of another user, another category or of type
income leaves the result as it was. -/
theorem spentInPeriod_is_matching_total (z : Zone) (txs : List Transaction)
    (userId catId : Nat) (month : String) (anchor : Anchor) (start «end» : Int)
    (hw : spentInPeriodWindow z month anchor = some (start, «end»)) :
    spentInPeriod z txs userId catId month anchor
        = some (expectedSpend txs userId catId start «end») ∧
    ((∀ t ∈ txs, ¬ (t.user_id = userId ∧ t.category_id = some catId
        ∧ t.type = TxType.gasto ∧ start ≤ t.date ∧ t.date < «end»)) →
      spentInPeriod z txs userId catId month anchor = some 0) ∧
    (∀ t : Transaction, t.user_id = userId → t.category_id = some catId →
      t.type = TxType.gasto → t.date = start → start < «end» →
      spentInPeriod z (t :: txs) userId catId month anchor
        = some (t.amount + expectedSpend txs userId catId start «end»)) ∧
    (∀ t : Transaction,
      (t.date = «end» ∨ «end» < t.date ∨ t.date < start ∨ t.user_id ≠ userId
        ∨ t.category_id ≠ some catId ∨ t.type = TxType.ingreso) →
      spentInPeriod z (t :: txs) userId catId month anchor
        = spentInPeriod z txs userId catId month anchor) := by
  refine ⟨spentInPeriod_of_window hw, ?_, ?_, ?_⟩
  · intro hnone
    rw [spentInPeriod_of_window hw]
    unfold expectedSpend
    have hz : ∀ x ∈ txs.map (fun t =>
        if t.user_id = userId ∧ t.category_id = some catId ∧ t.type = TxType.gasto
          ∧ start ≤ t.date ∧ t.date < «end» then t.amount else 0), x = 0 := by
      intro x hx
      obtain ⟨t, ht, rfl⟩ := List.mem_map.1 hx
      exact if_neg (hnone t ht)
    rw [List.sum_eq_zero hz]
  · intro t hu hc hty hd hlt
    rw [spentInPeriod_of_window hw]
    have hcond : t.user_id = userId ∧ t.category_id = some catId ∧ t.type = TxType.gasto
        ∧ start ≤ t.date ∧ t.date < «end» := ⟨hu, hc, hty, by omega, by omega⟩
    simp only [expectedSpend, List.map_cons, List.sum_cons, if_pos hcond]
  · intro t ht
    rw [spentInPeriod_of_window hw, spentInPeriod_of_window hw]
    have hcond : ¬ (t.user_id = userId ∧ t.category_id = some catId ∧ t.type = TxType.gasto
        ∧ start ≤ t.date ∧ t.date < «end») := by
      rintro ⟨hu, hc, hty, h1, h2⟩
      rcases ht with h | h | h | h | h | h
      · omega
      · omega
      · omega
      · exact h hu
      · exact h hc
      · rw [hty] at h
        cases h
    simp only [expectedSpend, List.map_cons, List.sum_cons, if_neg hcond, zero_add]

/-- Witness of C3: the scenario's transactions in the window that starts at
the budget's creation. -/
theorem spentInPeriod_is_matching_total_witness :
    spentInPeriodWindow Zone.UTC "2024-06" (Anchor.instant scenarioCreatedAt)
        = some (1718031600000, 1719792000000) ∧
    spentInPeriod Zone.UTC scenarioTransactions 7 3 "2024-06"
        (Anchor.instant scenarioCreatedAt) = some 450 :=
  ⟨by decide,
    (spentInPeriod_is_matching_total Zone.UTC scenarioTransactions 7 3 "2024-06"
      (Anchor.instant scenarioCreatedAt) 1718031600000 1719792000000 (by decide)).1.trans
      (by decide!)⟩

/-! ## Entries of `listBudgets` -/

theorem allSome_forall₂ {α : Type} :
    ∀ (l : List (Option α)) (r : List α), allSome l = some r →
      List.Forall₂ (fun o a => o = some a) l r
  | [], r, h => by
    simp only [allSome, Option.some.injEq] at h
    subst h
    exact List.Forall₂.nil
  | none :: _, r, h => by simp [allSome] at h
  | some a :: rest, r, h => by
    unfold allSome at h
    cases hrest : allSome rest with
    | none => simp [hrest] at h
    | some as =>
      simp only [hrest, Option.some.injEq] at h
      subst h
      exact List.Forall₂.cons rfl (allSome_forall₂ rest as hrest)

theorem allSome_mem {α β : Type} (f : α → Option β) (l : List α) (r : List β)
    (h : allSome (l.map f) = some r) (e : β) (he : e ∈ r) : ∃ a ∈ l, f a = some e := by
  have h2 := allSome_forall₂ _ _ h
  rw [List.forall₂_map_left_iff] at h2
  clear h
  induction h2 with
  | nil => cases he
  | cons hab _ ih =>
    rcases List.mem_cons.1 he with rfl | he
    · exact ⟨_, List.mem_cons_self _ _, hab⟩
    · obtain ⟨a, ha, hfa⟩ := ih he
      exact ⟨a, List.mem_cons_of_mem _ ha, hfa⟩

/-- When `listBudgets` answers with budgets: every selected budget's category
resolved and every callback produced its entry. -/
theorem listBudgets_budgets_iff {z : Zone} {cats : List Category} {budgets : List Budget}
    {txs : List Transaction} {userId status : Nat} {entries : List BudgetEntry} :
    listBudgets z cats budgets txs userId
        = some (ListBudgetsResponse.budgets status entries) ↔
      (status = 200 ∧
        ((findActiveBudgets budgets userId).map (populate cats)).find?
          (fun b => b.category_id.isNone) = none ∧
        allSome (((findActiveBudgets budgets userId).map (populate cats)).map
          (enrichBudget z txs userId)) = some entries) := by
  unfold listBudgets
  simp only []
  cases hfind : ((findActiveBudgets budgets userId).map (populate cats)).find?
      (fun b => b.category_id.isNone) with
  | some b => simp
  | none =>
    cases hall : allSome (((findActiveBudgets budgets userId).map (populate cats)).map
        (enrichBudget z txs userId)) with
    | none => simp
    | some es =>
      simp only [Option.some.injEq, ListBudgetsResponse.budgets.injEq, true_and]
      constructor
      · rintro ⟨h1, h2⟩
        exact ⟨h1.symm, h2⟩
      · rintro ⟨h1, h2⟩
        exact ⟨h1.symm, h2⟩

/-- Every entry `listBudgets` returns is the enrichment of one of the budgets
its query selected. -/
theorem listBudgets_entry {z : Zone} {cats : List Category} {budgets : List Budget}
    {txs : List Transaction} {userId status : Nat} {entries : List BudgetEntry}
    (h : listBudgets z cats budgets txs userId
      = some (ListBudgetsResponse.budgets status entries))
    {e : BudgetEntry} (he : e ∈ entries) :
    ∃ b ∈ findActiveBudgets budgets userId,
      enrichBudget z txs userId (populate cats b) = some e := by
  unfold listBudgets at h
  simp only [] at h
  split at h
  · simp at h
  · split at h
    · simp at h
    · rename_i enriched henr
      simp only [Option.some.injEq, ListBudgetsResponse.budgets.injEq] at h
      obtain ⟨_, rfl⟩ := h
      obtain ⟨pb, hpb, hpe⟩ := allSome_mem _ _ _ henr e he
      obtain ⟨b, hb, rfl⟩ := List.mem_map.1 hpb
      exact ⟨b, hb, hpe⟩

/-- The shape of an entry produced by the callback of `listBudgets`. -/
theorem enrichBudget_eq_some {z : Zone} {txs : List Transaction} {userId : Nat}
    {b : PopulatedBudget} {e : BudgetEntry} (h : enrichBudget z txs userId b = some e) :
    ∃ cat spent, b.category_id = some cat ∧
      spentInPeriod z txs userId cat._id b.month (Anchor.instant b.createdAt) = some spent ∧
      e = { _id := b._id
            category := cat.name
            month := b.month
            limit := b.limit
            threshold := b.threshold
            isActive := b.isActive
            spent := spent
            available := b.limit - spent
            percentUsed := if b.limit ≠ 0 then toFixed1 (spent / b.limit * 100) else 0
            alert := b.isActive && decide (b.threshold
              ≤ if b.limit ≠ 0 then toFixed1 (spent / b.limit * 100) else 0) } := by
  unfold enrichBudget at h
  split at h
  · simp at h
  · rename_i cat hcat
    split at h
    · simp at h
    · rename_i spent hspent
      simp only [toNumber, Option.some.injEq] at h
      exact ⟨cat, spent, hcat, hspent, h.symm⟩

/-- The conversion `toFixed(1)` rounds to one decimal place. -/
theorem toFixed1_isRounded (x : ℚ) : IsRoundedToOneDecimal x (toFixed1 x) := by
  unfold toFixed1 IsRoundedToOneDecimal
  split_ifs with hx
  · have h1 := Int.floor_le (-x * 10 + 1 / 2)
    have h2 := Int.lt_floor_add_one (-x * 10 + 1 / 2)
    refine ⟨⟨-⌊-x * 10 + 1 / 2⌋, by push_cast; ring⟩, ?_⟩
    rw [abs_le]
    constructor <;> linarith
  · have h1 := Int.floor_le (x * 10 + 1 / 2)
    have h2 := Int.lt_floor_add_one (x * 10 + 1 / 2)
    refine ⟨⟨⌊x * 10 + 1 / 2⌋, rfl⟩, ?_⟩
    rw [abs_le]
    constructor <;> linarith

/-- The conversion `toFixed(1)` preserves the order of its arguments. -/
theorem toFixed1_mono {x y : ℚ} (h : x ≤ y) : toFixed1 x ≤ toFixed1 y := by
  unfold toFixed1
  split_ifs with hx hy hy
  · have hf : ⌊-y * 10 + 1 / 2⌋ ≤ ⌊-x * 10 + 1 / 2⌋ := Int.floor_le_floor (by linarith)
    have hq : ((⌊-y * 10 + 1 / 2⌋ : ℤ) : ℚ) ≤ ((⌊-x * 10 + 1 / 2⌋ : ℤ) : ℚ) := by
      exact_mod_cast hf
    linarith
  · have h1 : (0 : ℤ) ≤ ⌊-x * 10 + 1 / 2⌋ := Int.floor_nonneg.2 (by linarith)
    have h2 : (0 : ℤ) ≤ ⌊y * 10 + 1 / 2⌋ := Int.floor_nonneg.2 (by linarith)
    have q1 : (0 : ℚ) ≤ ((⌊-x * 10 + 1 / 2⌋ : ℤ) : ℚ) := by exact_mod_cast h1
    have q2 : (0 : ℚ) ≤ ((⌊y * 10 + 1 / 2⌋ : ℤ) : ℚ) := by exact_mod_cast h2
    linarith
  · exact absurd (lt_of_le_of_lt h hy) hx
  · have hf : ⌊x * 10 + 1 / 2⌋ ≤ ⌊y * 10 + 1 / 2⌋ := Int.floor_le_floor (by linarith)
    have hq : ((⌊x * 10 + 1 / 2⌋ : ℤ) : ℚ) ≤ ((⌊y * 10 + 1 / 2⌋ : ℤ) : ℚ) := by
      exact_mod_cast hf
    linarith

/-- The entry `listBudgets` returns for the scenario, with UTC as local time. -/
theorem scenario_listBudgets_utc :
    listBudgets Zone.UTC scenarioCategories scenarioBudgets scenarioTransactions 7
      = some (ListBudgetsResponse.budgets 200 [scenarioEntry]) := by
  decide!

/-! ## The alert flag of an entry (C4) -/

/-- C4: in every entry `listBudgets` returns, `alert` is true if and only if
the budget is active and the `percentUsed` reported in the same entry is at
least the threshold. -/
theorem listBudgets_alert_iff (z : Zone) (cats : List Category) (budgets : List Budget)
    (txs : List Transaction) (userId status : Nat) (entries : List BudgetEntry)
    (h : listBudgets z cats budgets txs userId
      = some (ListBudgetsResponse.budgets status entries))
    (e : BudgetEntry) (he : e ∈ entries) :
    e.alert = true ↔ (e.isActive = true ∧ e.threshold ≤ e.percentUsed) := by
  obtain ⟨b, _, hb⟩ := listBudgets_entry h he
  obtain ⟨cat, spent, _, _, rfl⟩ := enrichBudget_eq_some hb
  simp only [Bool.and_eq_true, decide_eq_true_eq]

/-- Witness of C4: the entry of the scenario. -/
theorem listBudgets_alert_iff_witness :
    scenarioEntry.alert = true
      ↔ (scenarioEntry.isActive = true ∧ scenarioEntry.threshold ≤ scenarioEntry.percentUsed) :=
  listBudgets_alert_iff Zone.UTC scenarioCategories scenarioBudgets scenarioTransactions 7 200
    [scenarioEntry] scenario_listBudgets_utc scenarioEntry (List.mem_singleton.2 rfl)

/-! ## The scenario (C6) -/

/-- In every time zone the scenario's budget is created inside June 2024, so
its window starts at the creation instant and ends after 20 June. -/
theorem scenario_window (z : Zone) :
    ∃ E : Int, 1718841600000 < E ∧
      spentInPeriodWindow z "2024-06" (Anchor.instant scenarioCreatedAt)
        = some (scenarioCreatedAt, E) := by
  have hw := spentInPeriodWindow_eq z "2024-06" 2024 6 (by decide) (by decide) (by decide)
    (Anchor.instant scenarioCreatedAt)
  have hs : makeDay 2024 (6 - 1) 1 = 19875 := by decide
  have he : makeDay 2024 6 1 = 19905 := by decide
  have b1 := z.bounded (19875 * msPerDay)
  have b2 := z.bounded (19905 * msPerDay)
  rw [abs_le] at b1 b2
  simp only [hs, he] at hw
  simp only [msPerDay, scenarioCreatedAt] at *
  refine ⟨z.utc (19905 * 86400000), by omega, ?_⟩
  rw [hw, if_pos ⟨by omega, by omega⟩]

/-- The spend of the scenario counted from the budget's creation. -/
theorem scenario_spent (z : Zone) :
    spentInPeriod z scenarioTransactions 7 3 "2024-06" (Anchor.instant scenarioCreatedAt)
      = some 450 := by
  obtain ⟨E, hE, hw⟩ := scenario_window z
  rw [spentInPeriod_of_window hw]
  have h2 : (1718409600000 : Int) < E := by omega
  have h3 : ¬ (scenarioCreatedAt ≤ 1717545600000) := by decide
  have h4 : scenarioCreatedAt ≤ 1718409600000 := by decide
  have h5 : scenarioCreatedAt ≤ 1718841600000 := by decide
  simp only [expectedSpend, scenarioTransactions, List.map_cons, List.map_nil, List.sum_cons,
    List.sum_nil, h2, h3, h4, h5, hE, and_true, and_false, true_and, false_and, if_true,
    if_false]
  norm_num

/-- C6: in the scenario (month 2024-06, budget created 2024-06-10T15:00:00Z
with limit 500 and threshold 80, expenses of 100, 300 and 150 dated 5, 15 and
20 June), whatever the host's time zone, `listBudgets` answers with the single
entry spent = 450, percentUsed = 90.0, available = 50, alert = true: the
expense of 5 June precedes the creation instant and is left out. -/
theorem listBudgets_scenario (z : Zone) :
    listBudgets z scenarioCategories scenarioBudgets scenarioTransactions 7
      = some (ListBudgetsResponse.budgets 200 [scenarioEntry]) := by
  have hfound : (findActiveBudgets scenarioBudgets 7).map (populate scenarioCategories)
      = [{ _id := 1, category_id := some { _id := 3, name := "Comida" }, month := "2024-06",
           limit := 500, threshold := 80, isActive := true,
           createdAt := scenarioCreatedAt }] := by
    decide
  have hfix : toFixed1 ((450 : ℚ) / 500 * 100) = 90 := by decide!
  unfold listBudgets
  simp only [hfound, List.find?, Option.isNone, List.map_cons, List.map_nil, enrichBudget,
    scenario_spent z, toNumber, allSome, hfix]
  decide!

/-! ## Monotonicity of `percentUsed` (C7) -/

theorem expectedSpend_perm {txs txs' : List Transaction} (h : txs'.Perm txs)
    (userId catId : Nat) (start «end» : Int) :
    expectedSpend txs' userId catId start «end» = expectedSpend txs userId catId start «end» := by
  unfold expectedSpend
  exact (h.map _).sum_eq

theorem expectedSpend_nonneg {txs : List Transaction} (h : ∀ t ∈ txs, 0 < t.amount)
    (userId catId : Nat) (start «end» : Int) :
    0 ≤ expectedSpend txs userId catId start «end» := by
  unfold expectedSpend
  apply List.sum_nonneg
  intro x hx
  obtain ⟨t, ht, rfl⟩ := List.mem_map.1 hx
  split_ifs
  · exact le_of_lt (h t ht)
  · exact le_refl _

theorem spentInPeriod_window_of_some {z : Zone} {txs : List Transaction} {userId catId : Nat}
    {month : String} {anchor : Anchor} {v : ℚ}
    (h : spentInPeriod z txs userId catId month anchor = some v) :
    ∃ start «end», spentInPeriodWindow z month anchor = some (start, «end») := by
  unfold spentInPeriod at h
  cases hw : spentInPeriodWindow z month anchor with
  | none => simp [hw] at h
  | some w => exact ⟨w.1, w.2, rfl⟩

/-- With more transactions of positive amount, `spentInPeriod` still returns,
and returns at least as much. -/
theorem spentInPeriod_mono {z : Zone} {txs txs' extra : List Transaction}
    (hperm : txs'.Perm (txs ++ extra)) (hextra : ∀ t ∈ extra, 0 < t.amount)
    {userId catId : Nat} {month : String} {anchor : Anchor} {v : ℚ}
    (h : spentInPeriod z txs userId catId month anchor = some v) :
    ∃ v', spentInPeriod z txs' userId catId month anchor = some v' ∧ v ≤ v' := by
  obtain ⟨start, stop, hw⟩ := spentInPeriod_window_of_some h
  rw [spentInPeriod_of_window hw] at h
  refine ⟨_, spentInPeriod_of_window hw, ?_⟩
  rw [expectedSpend_perm hperm, expectedSpend_append]
  have hn := expectedSpend_nonneg hextra userId catId start stop
  have hv : v = expectedSpend txs userId catId start stop := (Option.some.inj h).symm
  linarith

theorem allSome_lift {α β : Type} (R : β → β → Prop) (f g : α → Option β)
    (hfg : ∀ a b, f a = some b → ∃ b', g a = some b' ∧ R b b') :
    ∀ (l : List α) (r : List β), allSome (l.map f) = some r →
      ∃ r', allSome (l.map g) = some r' ∧ List.Forall₂ R r r'
  | [], r, h => by
    simp only [List.map_nil, allSome, Option.some.injEq] at h
    subst h
    exact ⟨[], rfl, List.Forall₂.nil⟩
  | a :: l, r, h => by
    rw [List.map_cons] at h
    cases hfa : f a with
    | none => simp [hfa, allSome] at h
    | some b =>
      rw [hfa] at h
      unfold allSome at h
      cases hrest : allSome (l.map f) with
      | none => simp [hrest] at h
      | some bs =>
        simp only [hrest, Option.some.injEq] at h
        subst h
        obtain ⟨b', hga, hR⟩ := hfg a b hfa
        obtain ⟨bs', hgl, hRs⟩ := allSome_lift R f g hfg l bs hrest
        refine ⟨b' :: bs', ?_, List.Forall₂.cons hR hRs⟩
        simp only [List.map_cons, hga, allSome, hgl]

/-- C7: `percentUsed` does not decrease when transactions are added.  If
`listBudgets` returns `entries` over the transactions `txs`, and `txs'` is
`txs` plus further transactions of positive amount (in any order; in
particular expenses of the user in a listed budget's category and window),
then over `txs'` it returns entries for the same budgets in the same order,
and for every budget of positive limit the `percentUsed` over `txs'` is at
least the one over `txs`. -/
theorem listBudgets_mono_percentUsed (z : Zone) (cats : List Category)
    (budgets : List Budget) (txs txs' extra : List Transaction) (userId status : Nat)
    (entries : List BudgetEntry)
    (hperm : txs'.Perm (txs ++ extra)) (hextra : ∀ t ∈ extra, 0 < t.amount)
    (h : listBudgets z cats budgets txs userId
      = some (ListBudgetsResponse.budgets status entries)) :
    ∃ entries', listBudgets z cats budgets txs' userId
        = some (ListBudgetsResponse.budgets status entries') ∧
      List.Forall₂ (fun e e' => e._id = e'._id ∧ e.limit = e'.limit ∧
        (0 < e.limit → e.percentUsed ≤ e'.percentUsed)) entries entries' := by
  have key : ∀ (pb : PopulatedBudget) (e : BudgetEntry),
      enrichBudget z txs userId pb = some e →
      ∃ e', enrichBudget z txs' userId pb = some e' ∧
        (e._id = e'._id ∧ e.limit = e'.limit ∧
          (0 < e.limit → e.percentUsed ≤ e'.percentUsed)) := by
    intro pb e hpe
    obtain ⟨cat, spent, hcat, hspent, rfl⟩ := enrichBudget_eq_some hpe
    obtain ⟨spent', hspent', hle⟩ := spentInPeriod_mono hperm hextra hspent
    refine ⟨{ _id := pb._id
              category := cat.name
              month := pb.month
              limit := pb.limit
              threshold := pb.threshold
              isActive := pb.isActive
              spent := spent'
              available := pb.limit - spent'
              percentUsed := if pb.limit ≠ 0 then toFixed1 (spent' / pb.limit * 100) else 0
              alert := pb.isActive && decide (pb.threshold
                ≤ if pb.limit ≠ 0 then toFixed1 (spent' / pb.limit * 100) else 0) },
      by simp only [enrichBudget, hcat, hspent', toNumber], rfl, rfl, ?_⟩
    intro hpos
    simp only at hpos ⊢
    rw [if_pos (ne_of_gt hpos), if_pos (ne_of_gt hpos)]
    apply toFixed1_mono
    have hd : spent / pb.limit ≤ spent' / pb.limit :=
      div_le_div_of_nonneg_right hle (le_of_lt hpos)
    linarith
  obtain ⟨hst, hfind, henr⟩ := listBudgets_budgets_iff.1 h
  obtain ⟨r', hr', hR⟩ := allSome_lift _ _ _ key _ _ henr
  exact ⟨r', listBudgets_budgets_iff.2 ⟨hst, hfind, hr'⟩, hR⟩

/-- Witness of C7: the scenario before and after the expense of 20 June. -/
theorem listBudgets_mono_percentUsed_witness :
    ∃ entries', listBudgets Zone.UTC scenarioCategories scenarioBudgets
        scenarioTransactions 7 = some (ListBudgetsResponse.budgets 200 entries') ∧
      List.Forall₂ (fun e e' => e._id = e'._id ∧ e.limit = e'.limit ∧
        (0 < e.limit → e.percentUsed ≤ e'.percentUsed)) [scenarioEntryBefore] entries' :=
  listBudgets_mono_percentUsed Zone.UTC scenarioCategories scenarioBudgets
    (scenarioTransactions.take 2) scenarioTransactions (scenarioTransactions.drop 2) 7 200
    [scenarioEntryBefore] (List.Perm.of_eq (List.take_append_drop 2 scenarioTransactions).symm)
    (by decide!) (by decide!)

/-! ## The cap on active budgets (C9) -/

/-- C9: `createBudget` answers 409 exactly when the caller already has ten (or
more) budgets that are active and not deleted, and then leaves the `Budget`
collection unchanged; with fewer than ten the status is not 409. -/
theorem createBudget_cap (budgets : List Budget) (userId : Nat) (body : CreateBudgetBody)
    (now : Int) :
    (10 ≤ activeCount budgets userId →
      createBudget budgets userId body now
        = (CreateBudgetResponse.message 409
            "Solo puedes tener hasta 10 presupuestos activos simultáneamente.", budgets)) ∧
    (activeCount budgets userId < 10 →
      (createBudget budgets userId body now).1.status ≠ 409) ∧
    ((createBudget budgets userId body now).1.status = 409
      ↔ 10 ≤ activeCount budgets userId) := by
  have hlt : activeCount budgets userId < 10 →
      (createBudget budgets userId body now).1.status ≠ 409 := by
    intro h
    unfold createBudget
    rw [if_neg (by omega)]
    split_ifs <;> simp [CreateBudgetResponse.status]
  have hge : 10 ≤ activeCount budgets userId →
      createBudget budgets userId body now
        = (CreateBudgetResponse.message 409
            "Solo puedes tener hasta 10 presupuestos activos simultáneamente.", budgets) := by
    intro h
    unfold createBudget
    rw [if_pos h]
  refine ⟨hge, hlt, ?_, ?_⟩
  · intro h
    by_contra hc
    exact hlt (by omega) h
  · intro h
    rw [hge h]
    rfl

/-- Witness of C9: an eleventh budget for a user who has ten active ones. -/
theorem createBudget_cap_witness :
    activeCount tenActiveBudgets 7 = 10 ∧
    createBudget tenActiveBudgets 7
        { category_id := 11, month := "2024-06", limit := 50, threshold := 80 } 1718000000000
      = (CreateBudgetResponse.message 409
          "Solo puedes tener hasta 10 presupuestos activos simultáneamente.",
          tenActiveBudgets) :=
  ⟨by decide,
    (createBudget_cap tenActiveBudgets 7
      { category_id := 11, month := "2024-06", limit := 50, threshold := 80 }
      1718000000000).1 (by decide)⟩

/-! ## The upsert (C10) -/

theorem matchesKey_iff (userId catId : Nat) (month : String) (b : Budget) :
    matchesKey userId catId month b = true ↔ budgetKey b = (userId, catId, month) := by
  simp [matchesKey, budgetKey, and_assoc]

theorem budgetKey_applySet (b : Budget) (limit threshold : ℚ) (now : Int) :
    budgetKey (applySet b limit threshold now) = budgetKey b := rfl

/-- Without a document under the key, the upsert appends one. -/
theorem findOneAndUpsert_insert (budgets : List Budget) (userId catId : Nat) (month : String)
    (limit threshold : ℚ) (now : Int) (newId : Nat)
    (hnone : ∀ x ∈ budgets, budgetKey x ≠ (userId, catId, month)) :
    findOneAndUpsert budgets userId catId month limit threshold now newId
      = (insertedBudget userId catId month limit threshold now newId,
         budgets ++ [insertedBudget userId catId month limit threshold now newId]) := by
  induction budgets with
  | nil => rfl
  | cons b rest ih =>
    have hb : ¬ matchesKey userId catId month b = true := fun h =>
      hnone b (List.mem_cons_self _ _) ((matchesKey_iff _ _ _ _).1 h)
    have ih2 := ih (fun x hx => hnone x (List.mem_cons_of_mem _ hx))
    unfold findOneAndUpsert
    rw [if_neg hb]
    simp only [ih2, List.cons_append]

/-- With a document under the key, the upsert overwrites the first one. -/
theorem findOneAndUpsert_update (pre post : List Budget) (b : Budget) (userId catId : Nat)
    (month : String) (limit threshold : ℚ) (now : Int) (newId : Nat)
    (hpre : ∀ x ∈ pre, budgetKey x ≠ (userId, catId, month))
    (hb : budgetKey b = (userId, catId, month)) :
    findOneAndUpsert (pre ++ b :: post) userId catId month limit threshold now newId
      = (applySet b limit threshold now, pre ++ applySet b limit threshold now :: post) := by
  induction pre with
  | nil =>
    have hm : matchesKey userId catId month b = true := (matchesKey_iff _ _ _ _).2 hb
    simp only [List.nil_append]
    unfold findOneAndUpsert
    rw [if_pos hm]
  | cons p pre ih =>
    have hp : ¬ matchesKey userId catId month p = true := fun h =>
      hpre p (List.mem_cons_self _ _) ((matchesKey_iff _ _ _ _).1 h)
    have ih2 := ih (fun x hx => hpre x (List.mem_cons_of_mem _ hx))
    simp only [List.cons_append]
    unfold findOneAndUpsert
    rw [if_neg hp]
    simp only [ih2]

/-- Any list splits at its first element under a given key. -/
theorem exists_first_key (budgets : List Budget) (k : Nat × Nat × String) :
    (∀ x ∈ budgets, budgetKey x ≠ k) ∨
    ∃ pre b post, budgets = pre ++ b :: post ∧ (∀ x ∈ pre, budgetKey x ≠ k)
      ∧ budgetKey b = k := by
  induction budgets with
  | nil => exact Or.inl (fun x hx => by cases hx)
  | cons a rest ih =>
    by_cases ha : budgetKey a = k
    · exact Or.inr ⟨[], a, rest, rfl, fun x hx => (by cases hx), ha⟩
    · rcases ih with h | ⟨pre, b, post, rfl, hpre, hb⟩
      · left
        intro x hx
        rcases List.mem_cons.1 hx with rfl | hx
        · exact ha
        · exact h x hx
      · right
        refine ⟨a :: pre, b, post, rfl, ?_, hb⟩
        intro x hx
        rcases List.mem_cons.1 hx with rfl | hx
        · exact ha
        · exact hpre x hx

/-- The keys held by the collection after the upsert: the same keys, with the
key of the request added at the end if it was not there. -/
theorem findOneAndUpsert_keys (budgets : List Budget) (userId catId : Nat) (month : String)
    (limit threshold : ℚ) (now : Int) (newId : Nat) :
    ((findOneAndUpsert budgets userId catId month limit threshold now newId).2.map budgetKey
        = budgets.map budgetKey ∧ (userId, catId, month) ∈ budgets.map budgetKey) ∨
    ((findOneAndUpsert budgets userId catId month limit threshold now newId).2.map budgetKey
        = budgets.map budgetKey ++ [(userId, catId, month)]
      ∧ (userId, catId, month) ∉ budgets.map budgetKey) := by
  rcases exists_first_key budgets (userId, catId, month) with h | ⟨pre, b, post, rfl, hpre, hb⟩
  · right
    rw [findOneAndUpsert_insert budgets userId catId month limit threshold now newId h]
    refine ⟨by simp [budgetKey, insertedBudget], ?_⟩
    intro hmem
    obtain ⟨x, hx, hk⟩ := List.mem_map.1 hmem
    exact h x hx hk
  · left
    rw [findOneAndUpsert_update pre post b userId catId month limit threshold now newId hpre hb]
    refine ⟨by simp [budgetKey_applySet], ?_⟩
    exact List.mem_map.2 ⟨b, by simp, hb⟩

/-- Among records with distinct keys, a key that occurs belongs to exactly one
record. -/
theorem filter_key_length_of_nodup (budgets : List Budget) (k : Nat × Nat × String)
    (hn : (budgets.map budgetKey).Nodup) (hm : k ∈ budgets.map budgetKey) :
    (budgets.filter (fun b => decide (budgetKey b = k))).length = 1 := by
  induction budgets with
  | nil => cases hm
  | cons a rest ih =>
    rw [List.map_cons, List.nodup_cons] at hn
    by_cases ha : budgetKey a = k
    · have hrest : rest.filter (fun b => decide (budgetKey b = k)) = [] := by
        rw [List.filter_eq_nil_iff]
        intro x hx hk
        apply hn.1
        rw [ha]
        exact List.mem_map.2 ⟨x, hx, of_decide_eq_true hk⟩
      rw [List.filter_cons_of_pos (by simpa using ha), hrest]
      rfl
    · rw [List.filter_cons_of_neg (by simpa using ha)]
      apply ih hn.2
      rw [List.map_cons, List.mem_cons] at hm
      rcases hm with h | h
      · exact absurd h.symm ha
      · exact h

/-- One `createBudget` request keeps the keys of the collection distinct. -/
theorem createBudget_uniqueKeys (budgets : List Budget) (userId : Nat)
    (body : CreateBudgetBody) (now : Int) (h : UniqueKeys budgets) :
    UniqueKeys (createBudget budgets userId body now).2 := by
  unfold createBudget
  split_ifs
  · exact h
  · unfold UniqueKeys at h ⊢
    rcases findOneAndUpsert_keys budgets userId body.category_id body.month body.limit
      body.threshold now (freshId budgets) with ⟨hk, _⟩ | ⟨hk, hnot⟩
    · simp only [hk]
      exact h
    · simp only [hk]
      exact List.Nodup.append h (List.nodup_singleton _)
        (by
          intro k hk1 hk2
          rw [List.mem_singleton] at hk2
          subst hk2
          exact hnot hk1)
  · exact h

/-- Any sequence of `createBudget` requests keeps the keys distinct. -/
theorem createBudgets_uniqueKeys (calls : List CreateBudgetCall) :
    ∀ budgets : List Budget, UniqueKeys budgets → UniqueKeys (createBudgets budgets calls) := by
  induction calls with
  | nil => exact fun _ h => h
  | cons c cs ih =>
    intro budgets h
    exact ih _ (createBudget_uniqueKeys budgets c.userId c.body c.now h)

/-- C10, as the code has it: when the cap check passes and the new limit and
threshold pass the validators that `runValidators: true` runs, `createBudget`
upserts on (user, category, month).  If a record with that key exists, deleted
or inactive ones included, that record is overwritten with the new limit and
threshold and set active and not deleted, keeping its id, key and creation
time, and the collection keeps its length; if none exists exactly one record
is appended.  With distinct keys before, the keys are distinct afterwards and
exactly one record has the key of the request; so no collection reached from
the empty one by `createBudget` requests holds two records with the same
key. -/
theorem createBudget_upsert (budgets : List Budget) (userId : Nat) (body : CreateBudgetBody)
    (now : Int) (hcap : activeCount budgets userId < 10)
    (hvalid : updateValidatorsPass body.limit body.threshold = true) :
    (∀ pre b post, budgets = pre ++ b :: post →
      (∀ x ∈ pre, budgetKey x ≠ (userId, body.category_id, body.month)) →
      budgetKey b = (userId, body.category_id, body.month) →
      createBudget budgets userId body now
          = (CreateBudgetResponse.budget 200 (applySet b body.limit body.threshold now),
              pre ++ applySet b body.limit body.threshold now :: post) ∧
        (createBudget budgets userId body now).2.length = budgets.length) ∧
    (∀ b : Budget,
      (applySet b body.limit body.threshold now)._id = b._id ∧
      budgetKey (applySet b body.limit body.threshold now) = budgetKey b ∧
      (applySet b body.limit body.threshold now).createdAt = b.createdAt ∧
      (applySet b body.limit body.threshold now).limit = body.limit ∧
      (applySet b body.limit body.threshold now).threshold = body.threshold ∧
      (applySet b body.limit body.threshold now).isActive = true ∧
      (applySet b body.limit body.threshold now).isDeleted = false) ∧
    ((∀ x ∈ budgets, budgetKey x ≠ (userId, body.category_id, body.month)) →
      createBudget budgets userId body now
          = (CreateBudgetResponse.budget 200
              (insertedBudget userId body.category_id body.month body.limit body.threshold now
                (freshId budgets)),
              budgets ++ [insertedBudget userId body.category_id body.month body.limit
                body.threshold now (freshId budgets)])) ∧
    (UniqueKeys budgets →
      UniqueKeys (createBudget budgets userId body now).2 ∧
      ((createBudget budgets userId body now).2.filter
        (fun b => decide (budgetKey b = (userId, body.category_id, body.month)))).length = 1) ∧
    (∀ calls : List CreateBudgetCall, UniqueKeys (createBudgets [] calls)) := by
  have hcb : createBudget budgets userId body now
      = (CreateBudgetResponse.budget 200
          (findOneAndUpsert budgets userId body.category_id body.month body.limit
            body.threshold now (freshId budgets)).1,
          (findOneAndUpsert budgets userId body.category_id body.month body.limit
            body.threshold now (freshId budgets)).2) := by
    unfold createBudget
    rw [if_neg (by omega), if_pos hvalid]
  refine ⟨?_, fun b => ⟨rfl, rfl, rfl, rfl, rfl, rfl, rfl⟩, ?_, ?_, ?_⟩
  · intro pre b post hsplit hpre hb
    subst hsplit
    rw [hcb, findOneAndUpsert_update pre post b userId body.category_id body.month body.limit
      body.threshold now _ hpre hb]
    exact ⟨rfl, by simp⟩
  · intro hnone
    rw [hcb, findOneAndUpsert_insert budgets userId body.category_id body.month body.limit
      body.threshold now _ hnone]
  · intro huniq
    have hu := createBudget_uniqueKeys budgets userId body now huniq
    refine ⟨hu, ?_⟩
    apply filter_key_length_of_nodup _ _ hu
    rw [hcb]
    rcases findOneAndUpsert_keys budgets userId body.category_id body.month body.limit
      body.threshold now (freshId budgets) with ⟨hk, hmem⟩ | ⟨hk, _⟩
    · simp only [hk]
      exact hmem
    · simp only [hk]
      simp
  · intro calls
    exact createBudgets_uniqueKeys calls [] List.nodup_nil

/-- Witness of C10: creating a budget under the key of a soft-deleted one
reactivates that record and adds none. -/
theorem createBudget_upsert_witness :
    createBudget [deletedBudget] 7
        { category_id := 3, month := "2024-06", limit := 500, threshold := 80 } 1718031600000
      = (CreateBudgetResponse.budget 200 (applySet deletedBudget 500 80 1718031600000),
          [applySet deletedBudget 500 80 1718031600000]) :=
  ((createBudget_upsert [deletedBudget] 7
      { category_id := 3, month := "2024-06", limit := 500, threshold := 80 } 1718031600000
      (by decide) (by decide!)).1 [] deletedBudget [] rfl (fun x hx => (by cases hx))
      (by decide)).1

/-- Counterexample to C10 as stated: the cap check passes and no record has
the key, but the threshold 150 fails the schema's validator, so no record is
created and the answer is 500. -/
theorem createBudget_invalid_threshold :
    activeCount [] 7 < 10 ∧
    createBudget [] 7 { category_id := 3, month := "2024-06", limit := 500, threshold := 150 }
        1718031600000
      = (CreateBudgetResponse.message 500 "Error al crear presupuesto", []) := by
  decide!

/-! ## The cap under toggling (C11) -/

theorem activeCount_cons (b : Budget) (rest : List Budget) (u : Nat) :
    activeCount (b :: rest) u
      = (if (b.user_id == u && b.isActive && !b.isDeleted) = true then 1 else 0)
        + activeCount rest u := by
  unfold activeCount
  rw [List.filter_cons]
  by_cases h : (b.user_id == u && b.isActive && !b.isDeleted) = true
  · simp only [h, if_true, List.length_cons]
    omega
  · simp only [h, Bool.false_eq_true, if_false]
    omega

/-- An upsert adds at most one active budget, and only for the caller. -/
theorem activeCount_findOneAndUpsert_le (userId catId : Nat) (month : String)
    (limit threshold : ℚ) (now : Int) (newId u : Nat) :
    ∀ budgets : List Budget,
      activeCount (findOneAndUpsert budgets userId catId month limit threshold now newId).2 u
        ≤ activeCount budgets u + (if u = userId then 1 else 0)
  | [] => by
    unfold findOneAndUpsert
    rw [activeCount_cons]
    by_cases hu : u = userId
    · rw [if_pos hu]
      split_ifs <;> simp [activeCount]
    · have : ¬ ((insertedBudget userId catId month limit threshold now newId).user_id == u
          && (insertedBudget userId catId month limit threshold now newId).isActive
          && !(insertedBudget userId catId month limit threshold now newId).isDeleted) = true := by
        simp [insertedBudget, Ne.symm hu]
      rw [if_neg this, if_neg hu]
      omega
  | b :: rest => by
    unfold findOneAndUpsert
    by_cases hk : matchesKey userId catId month b = true
    · rw [if_pos hk]
      simp only []
      rw [activeCount_cons, activeCount_cons]
      by_cases hu : u = userId
      · rw [if_pos hu]
        split_ifs <;> omega
      · have hb : b.user_id = userId := by
          have := (matchesKey_iff userId catId month b).1 hk
          simp only [budgetKey, Prod.mk.injEq] at this
          exact this.1
        have : ¬ ((applySet b limit threshold now).user_id == u
            && (applySet b limit threshold now).isActive
            && !(applySet b limit threshold now).isDeleted) = true := by
          simp [applySet, hb, Ne.symm hu]
        rw [if_neg this, if_neg hu]
        omega
    · rw [if_neg hk]
      simp only []
      rw [activeCount_cons, activeCount_cons]
      have ih := activeCount_findOneAndUpsert_le userId catId month limit threshold now newId u
        rest
      omega

/-- The path that does enforce the cap: one `createBudget` request never takes
a user from at most ten active, non-deleted budgets to more than ten. -/
theorem createBudget_keeps_cap (budgets : List Budget) (userId : Nat)
    (body : CreateBudgetBody) (now : Int) (u : Nat) (h : activeCount budgets u ≤ 10) :
    activeCount (createBudget budgets userId body now).2 u ≤ 10 := by
  unfold createBudget
  split_ifs with hcap hvalid
  · exact h
  · have hle := activeCount_findOneAndUpsert_le userId body.category_id body.month body.limit
      body.threshold now (freshId budgets) u budgets
    by_cases hu : u = userId
    · subst hu
      rw [if_pos rfl] at hle
      simp only []
      omega
    · rw [if_neg hu] at hle
      simp only []
      omega
  · exact h

/-- C11 fails on the code: `toggleBudget` switches a budget on without the
count check that `createBudget` makes.  After ten creations, switching the
first budget off, creating an eleventh and switching the first on again, user
7 has eleven budgets that are active and not deleted; every request of the
sequence is answered with status 200. -/
theorem toggleBudget_exceeds_cap :
    activeCount (serveBudgetRequests [] elevenActiveRequests) 7 = 11 ∧
    activeCount (serveBudgetRequests [] (elevenActiveRequests.take 12)) 7 = 10 ∧
    (toggleBudget (serveBudgetRequests [] (elevenActiveRequests.take 12)) 7 1
      1717500000000).1.status = 200 := by
  decide!

/-! ## The selection of `listBudgets` (C14, C15) -/

/-- The entries of `listBudgets` are, in order, the enrichments of the budgets
its query selected. -/
theorem listBudgets_forall₂ {z : Zone} {cats : List Category} {budgets : List Budget}
    {txs : List Transaction} {userId status : Nat} {entries : List BudgetEntry}
    (h : listBudgets z cats budgets txs userId
      = some (ListBudgetsResponse.budgets status entries)) :
    List.Forall₂ (fun b e => enrichBudget z txs userId (populate cats b) = some e)
      (findActiveBudgets budgets userId) entries := by
  obtain ⟨_, _, henr⟩ := listBudgets_budgets_iff.1 h
  have h2 := allSome_forall₂ _ _ henr
  rw [List.forall₂_map_left_iff, List.forall₂_map_left_iff] at h2
  exact h2

/-- The query result is ordered by creation time, newest first. -/
theorem sorted_newest_first (l : List Budget) :
    (l.insertionSort (fun a b : Budget => b.createdAt ≤ a.createdAt)).Pairwise
      (fun a b => b.createdAt ≤ a.createdAt) := by
  haveI : IsTotal Budget (fun a b : Budget => b.createdAt ≤ a.createdAt) :=
    ⟨fun a b => le_total b.createdAt a.createdAt⟩
  haveI : IsTrans Budget (fun a b : Budget => b.createdAt ≤ a.createdAt) :=
    ⟨fun _ _ _ hab hbc => le_trans hbc hab⟩
  exact List.sorted_insertionSort _ l

/-- C14: when `listBudgets` answers with entries, these are, in order, the
entries of the selected budgets; every selected budget is a stored budget of
the calling user that is active and not deleted; at most ten are returned;
they are ordered by creation time, newest first; and the selected budgets
together with the ones left out are all of the user's active, non-deleted
budgets, none left out being newer than a selected one, with exactly ten
selected whenever some budget is left out. -/
theorem listBudgets_newest_ten (z : Zone) (cats : List Category) (budgets : List Budget)
    (txs : List Transaction) (userId status : Nat) (entries : List BudgetEntry)
    (h : listBudgets z cats budgets txs userId
      = some (ListBudgetsResponse.budgets status entries)) :
    ∃ selected rest : List Budget,
      List.Forall₂ (fun b e => e._id = b._id ∧ e.month = b.month ∧ e.limit = b.limit
        ∧ e.threshold = b.threshold) selected entries ∧
      (∀ b ∈ selected, b ∈ budgets ∧ b.user_id = userId ∧ b.isActive = true
        ∧ b.isDeleted = false) ∧
      entries.length ≤ 10 ∧
      selected.Pairwise (fun a b => b.createdAt ≤ a.createdAt) ∧
      (selected ++ rest).Perm
        (budgets.filter (fun b => b.user_id == userId && b.isActive && !b.isDeleted)) ∧
      (∀ b ∈ selected, ∀ b' ∈ rest, b'.createdAt ≤ b.createdAt) ∧
      (rest ≠ [] → entries.length = 10) := by
  have hF := listBudgets_forall₂ h
  have hlen : (findActiveBudgets budgets userId).length = entries.length := hF.length_eq
  have hsorted := sorted_newest_first
    (budgets.filter (fun b => b.user_id == userId && b.isActive && !b.isDeleted))
  refine ⟨findActiveBudgets budgets userId,
    ((budgets.filter (fun b => b.user_id == userId && b.isActive && !b.isDeleted)).insertionSort
      (fun a b => b.createdAt ≤ a.createdAt)).drop 10, ?_, ?_, ?_, ?_, ?_, ?_, ?_⟩
  · refine hF.imp ?_
    intro b e hbe
    obtain ⟨cat, spent, _, _, rfl⟩ := enrichBudget_eq_some hbe
    exact ⟨rfl, rfl, rfl, rfl⟩
  · intro b hb
    unfold findActiveBudgets at hb
    have h1 := List.mem_of_mem_take hb
    rw [(List.perm_insertionSort _ _).mem_iff, List.mem_filter] at h1
    obtain ⟨hmem, hp⟩ := h1
    simp only [Bool.and_eq_true, beq_iff_eq, Bool.not_eq_true'] at hp
    exact ⟨hmem, hp.1.1, hp.1.2, hp.2⟩
  · rw [← hlen]
    unfold findActiveBudgets
    rw [List.length_take]
    exact min_le_left _ _
  · unfold findActiveBudgets
    exact hsorted.sublist (List.take_sublist _ _)
  · unfold findActiveBudgets
    rw [List.take_append_drop]
    exact List.perm_insertionSort _ _
  · unfold findActiveBudgets
    rw [← List.take_append_drop 10 (List.insertionSort _ _), List.pairwise_append] at hsorted
    exact hsorted.2.2
  · intro hrest
    rw [← hlen]
    unfold findActiveBudgets
    rw [List.length_take]
    have hl : 10 < ((budgets.filter
        (fun b => b.user_id == userId && b.isActive && !b.isDeleted)).insertionSort
        (fun a b => b.createdAt ≤ a.createdAt)).length := by
      by_contra hc
      exact hrest (List.drop_eq_nil_of_le (by omega))
    omega

/-- Witness of C14: the listing of the scenario. -/
theorem listBudgets_newest_ten_witness :
    ∃ selected rest : List Budget,
      List.Forall₂ (fun b e => e._id = b._id ∧ e.month = b.month ∧ e.limit = b.limit
        ∧ e.threshold = b.threshold) selected [scenarioEntry] ∧
      (∀ b ∈ selected, b ∈ scenarioBudgets ∧ b.user_id = 7 ∧ b.isActive = true
        ∧ b.isDeleted = false) ∧
      [scenarioEntry].length ≤ 10 ∧
      selected.Pairwise (fun a b => b.createdAt ≤ a.createdAt) ∧
      (selected ++ rest).Perm
        (scenarioBudgets.filter (fun b => b.user_id == 7 && b.isActive && !b.isDeleted)) ∧
      (∀ b ∈ selected, ∀ b' ∈ rest, b'.createdAt ≤ b.createdAt) ∧
      (rest ≠ [] → [scenarioEntry].length = 10) :=
  listBudgets_newest_ten Zone.UTC scenarioCategories scenarioBudgets scenarioTransactions 7 200
    [scenarioEntry] scenario_listBudgets_utc

theorem allSome_of_forall {α β : Type} (f : α → Option β) :
    ∀ l : List α, (∀ a ∈ l, ∃ b, f a = some b) → ∃ r, allSome (l.map f) = some r
  | [], _ => ⟨[], rfl⟩
  | a :: l, h => by
    obtain ⟨b, hb⟩ := h a (List.mem_cons_self _ _)
    obtain ⟨r, hr⟩ := allSome_of_forall f l (fun x hx => h x (List.mem_cons_of_mem _ hx))
    exact ⟨b :: r, by simp only [List.map_cons, hb, allSome, hr]⟩

/-- The callback produces an entry when the category resolved and the month
is one `spentInPeriod` has a window for. -/
theorem enrichBudget_isSome {z : Zone} {txs : List Transaction} {userId : Nat}
    {cats : List Category} {b : Budget}
    (hcat : (cats.find? (fun c => c._id == b.category_id)).isSome = true)
    (hwin : (spentInPeriodWindow z b.month (Anchor.instant b.createdAt)).isSome = true) :
    ∃ e, enrichBudget z txs userId (populate cats b) = some e := by
  obtain ⟨cat, hc⟩ := Option.isSome_iff_exists.1 hcat
  obtain ⟨w, hw⟩ := Option.isSome_iff_exists.1 hwin
  have hsp := @spentInPeriod_of_window z txs userId cat._id b.month
    (Anchor.instant b.createdAt) w.1 w.2 hw
  unfold enrichBudget
  simp only [populate, hc, hsp]
  exact ⟨_, rfl⟩

/-- C15: `listBudgets` answers 400, with a message and no entries, if and only
if one of the budgets its query selected references a category that does not
resolve; it answers with a message in no other case; and when every selected
budget's category resolves (and `spentInPeriod` has a window for each month)
it answers 200 with one entry per selected budget, in order. -/
theorem listBudgets_invalid_category (z : Zone) (cats : List Category)
    (budgets : List Budget) (txs : List Transaction) (userId : Nat) :
    (listBudgets z cats budgets txs userId
        = some (ListBudgetsResponse.message 400 "ID de categoría inválido") ↔
      ∃ b ∈ findActiveBudgets budgets userId, (populate cats b).category_id = none) ∧
    (∀ status text, listBudgets z cats budgets txs userId
        = some (ListBudgetsResponse.message status text) →
      status = 400 ∧ ∃ b ∈ findActiveBudgets budgets userId,
        (populate cats b).category_id = none) ∧
    ((∀ b ∈ findActiveBudgets budgets userId, (populate cats b).category_id.isSome = true) →
      (∀ b ∈ findActiveBudgets budgets userId,
        (spentInPeriodWindow z b.month (Anchor.instant b.createdAt)).isSome = true) →
      ∃ entries, listBudgets z cats budgets txs userId
          = some (ListBudgetsResponse.budgets 200 entries) ∧
        List.Forall₂ (fun b e => enrichBudget z txs userId (populate cats b) = some e
          ∧ e._id = b._id) (findActiveBudgets budgets userId) entries) := by
  have hmsg : ∀ status text, listBudgets z cats budgets txs userId
        = some (ListBudgetsResponse.message status text) →
      status = 400 ∧ text = "ID de categoría inválido" ∧
        ∃ b ∈ findActiveBudgets budgets userId, (populate cats b).category_id = none := by
    intro status text h
    unfold listBudgets at h
    simp only [] at h
    split at h
    · rename_i pb hfind
      simp only [Option.some.injEq, ListBudgetsResponse.message.injEq] at h
      have hmem := List.mem_of_find?_eq_some hfind
      have hp := List.find?_some hfind
      obtain ⟨b, hb, rfl⟩ := List.mem_map.1 hmem
      refine ⟨h.1.symm, h.2.symm, b, hb, ?_⟩
      simpa using hp
    · split at h <;> simp at h
  have hback : (∃ b ∈ findActiveBudgets budgets userId, (populate cats b).category_id = none) →
      listBudgets z cats budgets txs userId
        = some (ListBudgetsResponse.message 400 "ID de categoría inválido") := by
    rintro ⟨b, hb, hnone⟩
    unfold listBudgets
    simp only []
    split
    · rfl
    · rename_i hfind
      rw [List.find?_eq_none] at hfind
      have := hfind (populate cats b) (List.mem_map.2 ⟨b, hb, rfl⟩)
      simp [hnone] at this
  refine ⟨⟨fun h => (hmsg _ _ h).2.2, hback⟩, fun status text h => ⟨(hmsg _ _ h).1,
    (hmsg _ _ h).2.2⟩, ?_⟩
  intro hcats hwins
  have hall : ∀ b ∈ findActiveBudgets budgets userId,
      ∃ e, enrichBudget z txs userId (populate cats b) = some e := by
    intro b hb
    exact enrichBudget_isSome (by simpa [populate] using hcats b hb) (hwins b hb)
  obtain ⟨entries, hentries⟩ := allSome_of_forall
    (fun b => enrichBudget z txs userId (populate cats b)) _ hall
  have hfind : ((findActiveBudgets budgets userId).map (populate cats)).find?
      (fun b => b.category_id.isNone) = none := by
    rw [List.find?_eq_none]
    intro pb hpb
    obtain ⟨b, hb, rfl⟩ := List.mem_map.1 hpb
    have := hcats b hb
    cases hc : (populate cats b).category_id with
    | none => rw [hc] at this; cases this
    | some c => simp
  have hlist : listBudgets z cats budgets txs userId
      = some (ListBudgetsResponse.budgets 200 entries) := by
    apply listBudgets_budgets_iff.2
    refine ⟨rfl, hfind, ?_⟩
    rw [List.map_map]
    exact hentries
  refine ⟨entries, hlist, ?_⟩
  refine (listBudgets_forall₂ hlist).imp ?_
  intro b e hbe
  obtain ⟨cat, spent, _, _, rfl⟩ := enrichBudget_eq_some hbe
  exact ⟨hbe, rfl⟩

/-! ## The threshold notifier never throws (C13) -/

/-- Whether a month has a window does not depend on the anchor. -/
theorem spentInPeriodWindow_isSome {z : Zone} {month : String}
    (h : (spentInPeriodWindow z month Anchor.absent).isSome = true) (anchor : Anchor) :
    (spentInPeriodWindow z month anchor).isSome = true := by
  unfold spentInPeriodWindow at h ⊢
  cases hp : parseMonth month with
  | none => simp [hp] at h
  | some ym =>
    obtain ⟨year, mm⟩ := ym
    simp only [hp] at h ⊢
    cases h1 : newDate z year (mm - 1) with
    | none => simp [h1] at h
    | some s =>
      cases h2 : newDate z year mm with
      | none => simp [h1, h2] at h
      | some e =>
        cases anchor with
        | instant t =>
          simp only []
          split_ifs <;> rfl
        | absent => rfl
        | invalid => rfl
        | raises => rfl

/-- For a month with a window `spentInPeriod` returns a value. -/
theorem spentInPeriod_isSome {z : Zone} {month : String}
    (h : (spentInPeriodWindow z month Anchor.absent).isSome = true) (txs : List Transaction)
    (userId catId : Nat) (anchor : Anchor) :
    ∃ v, spentInPeriod z txs userId catId month anchor = some v := by
  obtain ⟨w, hw⟩ := Option.isSome_iff_exists.1 (spentInPeriodWindow_isSome h anchor)
  exact ⟨_, @spentInPeriod_of_window z txs userId catId month anchor w.1 w.2 hw⟩

/-- The `try` block ends, with a value or an error, for every month that has
a window. -/
theorem checkBudgetAlertTry_isSome (z : Zone) (budgets : List Budget) (cats : List Category)
    (txs : List Transaction) (users : List User) (faults : AlertFaults)
    (userId categoryId : Nat) (month : String)
    (hwin : (spentInPeriodWindow z month Anchor.absent).isSome = true) :
    ∃ t, checkBudgetAlertTry z budgets cats txs users faults userId categoryId month
      = some t := by
  have hall : ∀ a, spentInPeriod z txs userId categoryId month a ≠ none := by
    intro a ha
    obtain ⟨v, hv⟩ := spentInPeriod_isSome hwin txs userId categoryId a
    rw [hv] at ha
    cases ha
  unfold checkBudgetAlertTry
  repeat' split
  all_goals first
    | exact ⟨_, rfl⟩
    | exact absurd (by assumption) (hall _)
    | (simp only []; split_ifs <;> exact ⟨_, rfl⟩)

/-- C13: whatever the stores hold and whichever of the budget lookup, the
aggregation, the user lookup and `sendMail` raise an error, `checkBudgetAlert`
returns to its caller without throwing; a failed budget lookup or aggregation
leads to no call of `sendMail`, and a failure of `sendMail` only means that no
mail is delivered. -/
theorem checkBudgetAlert_never_throws (z : Zone) (budgets : List Budget)
    (cats : List Category) (txs : List Transaction) (users : List User)
    (faults : AlertFaults) (userId categoryId : Nat) (month : String)
    (hwin : (spentInPeriodWindow z month Anchor.absent).isSome = true) :
    ∃ r, checkBudgetAlert z budgets cats txs users faults userId categoryId month = some r ∧
      r.thrown = none ∧
      (faults.budgetLookup = true → r.sendMailCalls = []) ∧
      (faults.sendMail = true → r.delivered = []) := by
  obtain ⟨t, ht⟩ := checkBudgetAlertTry_isSome z budgets cats txs users faults userId
    categoryId month hwin
  cases t with
  | error e =>
    refine ⟨{ thrown := none, sendMailCalls := [], delivered := [] }, ?_, rfl,
      fun _ => rfl, fun _ => rfl⟩
    simp only [checkBudgetAlert, ht]
  | ok calls =>
    refine ⟨{ thrown := none, sendMailCalls := calls,
              delivered := if faults.sendMail then [] else calls }, ?_, rfl, ?_, ?_⟩
    · simp only [checkBudgetAlert, ht]
    · intro hf
      unfold checkBudgetAlertTry at ht
      rw [if_pos hf] at ht
      cases ht
    · intro hf
      simp only [hf, if_true]

/-- Witness of C13: in the scenario with every call raising, nothing is
thrown and nothing is sent. -/
theorem checkBudgetAlert_never_throws_witness :
    ∃ r, checkBudgetAlert Zone.UTC scenarioBudgets scenarioCategories scenarioTransactions
        scenarioUsers
        { budgetLookup := true, aggregation := true, userLookup := true, sendMail := true }
        7 3 "2024-06" = some r ∧
      r.thrown = none ∧ r.sendMailCalls = [] :=
  (checkBudgetAlert_never_throws Zone.UTC scenarioBudgets scenarioCategories
    scenarioTransactions scenarioUsers
    { budgetLookup := true, aggregation := true, userLookup := true, sendMail := true }
    7 3 "2024-06" (by decide)).imp (fun _ h => ⟨h.1, h.2.1, h.2.2.1 rfl⟩)

/-! ## Rounding to two decimals -/

/-- The conversion `toFixed(2)` rounds to two decimal places. -/
theorem toFixed2_isRounded (x : ℚ) : IsRoundedToTwoDecimals x (toFixed2 x) := by
  unfold toFixed2 IsRoundedToTwoDecimals
  split_ifs with hx
  · have h1 := Int.floor_le (-x * 100 + 1 / 2)
    have h2 := Int.lt_floor_add_one (-x * 100 + 1 / 2)
    refine ⟨⟨-⌊-x * 100 + 1 / 2⌋, by push_cast; ring⟩, ?_⟩
    rw [abs_le]
    constructor <;> linarith
  · have h1 := Int.floor_le (x * 100 + 1 / 2)
    have h2 := Int.lt_floor_add_one (x * 100 + 1 / 2)
    refine ⟨⟨⌊x * 100 + 1 / 2⌋, rfl⟩, ?_⟩
    rw [abs_le]
    constructor <;> linarith

/-- Rounding to two decimals keeps a percentage between 0 and 100. -/
theorem toFixed2_bounds {x : ℚ} (h0 : 0 ≤ x) (h100 : x ≤ 100) :
    0 ≤ toFixed2 x ∧ toFixed2 x ≤ 100 := by
  unfold toFixed2
  rw [if_neg (not_lt.2 h0)]
  have h1 : (0 : ℤ) ≤ ⌊x * 100 + 1 / 2⌋ := Int.floor_nonneg.2 (by linarith)
  have h2 : ⌊x * 100 + 1 / 2⌋ < 10001 := by
    rw [Int.floor_lt]
    push_cast
    linarith
  have h3 : ⌊x * 100 + 1 / 2⌋ ≤ 10000 := by omega
  have q1 : (0 : ℚ) ≤ ((⌊x * 100 + 1 / 2⌋ : ℤ) : ℚ) := by exact_mod_cast h1
  have q3 : ((⌊x * 100 + 1 / 2⌋ : ℤ) : ℚ) ≤ 10000 := by exact_mod_cast h3
  constructor
  · positivity
  · linarith

/-! ## Adding money to a goal (C16, C17) -/

/-- C16 fails on the code: `goal.save()` validates the whole goal again, and
the validator of `due_date` wants a day strictly after today.  User 7 creates
the goal `Regalo` on 2024-06-01 with the due date 2024-06-10 (201); on
2024-06-10 at 15:00 UTC an amount of 50 is added: the expense of 50 is
submitted and accepted (201), the response is 500, and the goal still has
nothing saved, where the claim says 50.  The same holds for a goal that is
overdue, and on 2024-06-09 the same request is answered 200 and stores 50. -/
theorem addMoneyToGoal_rejects_due_goal :
    regaloCreated.1.status = 201 ∧
    regaloCreated.2.map (fun g => (g._id, g.user_id, g.current_amount, g.target_amount,
        g.due_date, g.isDeleted)) = [(1, 7, 0, 100, 1717977600000, false)] ∧
    acceptingCreateTransaction (syntheticRequest [] 7 50 scenarioCreatedAt)
      = CreateTransactionOutcome.responded 201 "transaction" ∧
    (addMoneyToGoal Zone.UTC regaloCreated.2 [] acceptingCreateTransaction 7 1 (some 50)
      scenarioCreatedAt).status = 500 ∧
    (addMoneyToGoal Zone.UTC regaloCreated.2 [] acceptingCreateTransaction 7 1 (some 50)
      scenarioCreatedAt).body = AddMoneyBody.message "Error al abonar a la meta" ∧
    (addMoneyToGoal Zone.UTC regaloCreated.2 [] acceptingCreateTransaction 7 1 (some 50)
      scenarioCreatedAt).goals = regaloCreated.2 ∧
    (addMoneyToGoal Zone.UTC regaloCreated.2 [] acceptingCreateTransaction 7 1 (some 50)
      scenarioCreatedAt).submitted = [syntheticRequest [] 7 50 scenarioCreatedAt] ∧
    (syntheticRequest [] 7 50 scenarioCreatedAt).body.amount = 50 ∧
    (addMoneyToGoal Zone.UTC regaloCreated.2 [] acceptingCreateTransaction 7 1 (some 50)
      1718204400000).status = 500 ∧
    (addMoneyToGoal Zone.UTC regaloCreated.2 [] acceptingCreateTransaction 7 1 (some 50)
      1717945200000).status = 200 ∧
    (addMoneyToGoal Zone.UTC regaloCreated.2 [] acceptingCreateTransaction 7 1 (some 50)
      1717945200000).goals.map SavingsGoal.current_amount = [50] := by
  refine ⟨?_, ?_, ?_, ?_, ?_, ?_, ?_, ?_, ?_, ?_, ?_⟩ <;> decide!

/-- C17: whenever `createTransaction` reports a status other than 201, the
response of `addMoneyToGoal` carries exactly that status and the captured
body, and the `SavingsGoal` collection is left as it was. -/
theorem addMoneyToGoal_forwards_failure (z : Zone) (goals : List SavingsGoal)
    (cats : List Category)
    (createTransaction : TransactionRequest → CreateTransactionOutcome)
    (userId id : Nat) (a : ℚ) (now : Int) (goal : SavingsGoal) (status : Nat) (json : String)
    (ha : 0 < a) (hgoal : goals.find? (matchesOwnedGoal id userId) = some goal)
    (hstatus : status ≠ 201)
    (hreported : createTransaction (syntheticRequest cats userId a now)
      = CreateTransactionOutcome.responded status json) :
    (addMoneyToGoal z goals cats createTransaction userId id (some a) now).status = status ∧
    (addMoneyToGoal z goals cats createTransaction userId id (some a) now).body
      = AddMoneyBody.forwarded json ∧
    (addMoneyToGoal z goals cats createTransaction userId id (some a) now).goals = goals := by
  have hrun : addMoneyToGoal z goals cats createTransaction userId id (some a) now
      = AddMoneyResult.mk status (AddMoneyBody.forwarded json) goals
          (findOrCreateOtros cats).2 [syntheticRequest cats userId a now] := by
    unfold addMoneyToGoal
    simp only [if_neg (not_le.2 ha), hgoal, hreported, ne_eq, hstatus, not_false_eq_true,
      if_true]
  rw [hrun]
  exact ⟨rfl, rfl, rfl⟩

/-- Witness of C17: a rejected transaction (400) leaves the goal at 80. -/
theorem addMoneyToGoal_forwards_failure_witness :
    (addMoneyToGoal Zone.UTC [nearlyDoneGoal] [] rejectingCreateTransaction 7 3 (some 50)
      1718031600000).status = 400 ∧
    (addMoneyToGoal Zone.UTC [nearlyDoneGoal] [] rejectingCreateTransaction 7 3 (some 50)
      1718031600000).body = AddMoneyBody.forwarded "validation" ∧
    (addMoneyToGoal Zone.UTC [nearlyDoneGoal] [] rejectingCreateTransaction 7 3 (some 50)
      1718031600000).goals = [nearlyDoneGoal] :=
  addMoneyToGoal_forwards_failure Zone.UTC [nearlyDoneGoal] [] rejectingCreateTransaction 7 3 50
    1718031600000 nearlyDoneGoal 400 "validation" (by norm_num) (by decide) (by decide) rfl

/-! ## The bounds of the current amount (C19) -/

/-- C19 fails on the code: `updateSavingsGoal` writes the body's amounts
without the cap that `addMoneyToGoal` applies.  On a goal with 80 of 100
saved, a body with `current_amount: 500` is answered 200 and stores 500, above
the target; a body with `target_amount: 1` is answered 200 and leaves the 80
above the new target. -/
theorem updateSavingsGoal_exceeds_target :
    (0 ≤ nearlyDoneGoal.current_amount
      ∧ nearlyDoneGoal.current_amount ≤ nearlyDoneGoal.target_amount) ∧
    updateSavingsGoal [nearlyDoneGoal] 7 3 { target_amount := none, current_amount := some 500 }
      = (GoalResponse.goal 200 { nearlyDoneGoal with current_amount := 500 },
          [{ nearlyDoneGoal with current_amount := 500 }]) ∧
    ¬ ((500 : ℚ) ≤ nearlyDoneGoal.target_amount) ∧
    updateSavingsGoal [nearlyDoneGoal] 7 3 { target_amount := some 1, current_amount := none }
      = (GoalResponse.goal 200 { nearlyDoneGoal with target_amount := 1 },
          [{ nearlyDoneGoal with target_amount := 1 }]) ∧
    ¬ (nearlyDoneGoal.current_amount ≤ 1) := by
  decide!

/-! ## Status of a goal (C21) -/

/-- C21: in a time zone where the local midnight of a later day is a later
instant, every entry of `getUserGoals` belongs to a non-deleted goal of the
caller, and its status is `'vencida'` if and only if the calendar day of the
due date lies strictly before today's calendar day (the times of day play no
part); a goal due today, whatever the time of day, is `'activa'`. -/
theorem getUserGoals_status (z : Zone) (now : Int) (goals : List SavingsGoal)
    (userId : Nat) (e : GoalEntry)
    (hmono : ∀ d1 d2 : Int, d1 < d2 → z.utc (d1 * msPerDay) < z.utc (d2 * msPerDay))
    (he : e ∈ getUserGoals z now goals userId) :
    ∃ g ∈ goals, g.user_id = userId ∧ g.isDeleted = false ∧ e._id = g._id ∧
      e.due_date = g.due_date ∧
      (e.status = GoalStatus.vencida
        ↔ dayOf (z.localTime g.due_date) < dayOf (z.localTime now)) ∧
      (e.status = GoalStatus.activa
        ↔ dayOf (z.localTime now) ≤ dayOf (z.localTime g.due_date)) ∧
      (dayOf (z.localTime g.due_date) = dayOf (z.localTime now) →
        e.status = GoalStatus.activa) := by
  unfold getUserGoals at he
  obtain ⟨g, hg, rfl⟩ := List.mem_map.1 he
  rw [List.mem_filter] at hg
  obtain ⟨hmem, hp⟩ := hg
  simp only [Bool.and_eq_true, beq_iff_eq, Bool.not_eq_true'] at hp
  have hiff : setHoursZero z now > setHoursZero z g.due_date
      ↔ dayOf (z.localTime g.due_date) < dayOf (z.localTime now) := by
    unfold setHoursZero
    constructor
    · intro h
      by_contra hc
      rcases lt_or_eq_of_le (not_lt.1 hc) with h1 | h1
      · have := hmono _ _ h1
        omega
      · rw [h1] at h
        exact lt_irrefl _ h
    · intro h
      exact hmono _ _ h
  have hstatus : (enrichGoal z now g).status
      = if setHoursZero z now > setHoursZero z g.due_date then GoalStatus.vencida
        else GoalStatus.activa := rfl
  refine ⟨g, hmem, hp.1, hp.2, rfl, rfl, ?_, ?_, ?_⟩
  · rw [hstatus, ← hiff]
    split_ifs with h
    · exact ⟨fun _ => h, fun _ => rfl⟩
    · exact ⟨fun hv => (by cases hv), fun hv => absurd hv h⟩
  · rw [hstatus, ← not_lt, ← hiff]
    split_ifs with h
    · exact ⟨fun hv => (by cases hv), fun hv => absurd h hv⟩
    · exact ⟨fun _ => h, fun _ => rfl⟩
  · intro heq
    rw [hstatus, if_neg]
    rw [hiff, heq]
    exact lt_irrefl _

/-- Witness of C21: at 15:00 UTC on 2024-06-10 a goal due that day at 00:00
is active. -/
theorem getUserGoals_status_witness :
    (enrichGoal Zone.UTC scenarioCreatedAt dueTodayGoal).status = GoalStatus.activa :=
  (getUserGoals_status Zone.UTC scenarioCreatedAt [dueTodayGoal] 7
    (enrichGoal Zone.UTC scenarioCreatedAt dueTodayGoal)
    (fun d1 d2 h => by
      show d1 * msPerDay < d2 * msPerDay
      unfold msPerDay
      omega)
    (List.mem_singleton.2 rfl)).elim
    (fun g hg => hg.2.2.2.2.2.2.2 (by
      have hmem := List.mem_singleton.1 hg.1
      rw [hmem]
      decide))

/-! ## Validation errors of `createBudget` (C22) -/

/-- C22 fails on the code: a threshold of 150 and a limit of 0 are answered
with status 500 and a generic message, not 400 with field detail; a month
outside the calendar (`2024-13`) or not a month at all (`junio`) is not
validated by the upsert, is answered 200 and is stored. -/
theorem createBudget_validation_not_400 :
    createBudget [] 7 { category_id := 3, month := "2024-06", limit := 500, threshold := 150 }
        scenarioCreatedAt
      = (CreateBudgetResponse.message 500 "Error al crear presupuesto", []) ∧
    createBudget [] 7 { category_id := 3, month := "2024-06", limit := 0, threshold := 80 }
        scenarioCreatedAt
      = (CreateBudgetResponse.message 500 "Error al crear presupuesto", []) ∧
    createBudget [] 7 { category_id := 3, month := "2024-13", limit := 500, threshold := 80 }
        scenarioCreatedAt
      = (CreateBudgetResponse.budget 200
          (insertedBudget 7 3 "2024-13" 500 80 scenarioCreatedAt 1),
          [insertedBudget 7 3 "2024-13" 500 80 scenarioCreatedAt 1]) ∧
    createBudget [] 7 { category_id := 3, month := "junio", limit := 500, threshold := 80 }
        scenarioCreatedAt
      = (CreateBudgetResponse.budget 200
          (insertedBudget 7 3 "junio" 500 80 scenarioCreatedAt 1),
          [insertedBudget 7 3 "junio" 500 80 scenarioCreatedAt 1]) := by
  decide!

/-! ## The anchor is not moved to the start of its day (C25) -/

/-- C25, as the code has it: when `budgetCreatedAt` falls within a valid
month, the interval begins at the exact instant of `budgetCreatedAt`, not at
the start of its day, so a transaction dated before that instant, one dated
earlier on the creation day included, is not counted. -/
theorem spentInPeriod_excludes_before_creation (z : Zone) (month : String) (year mm : Int)
    (hparse : parseMonth month = some (year, mm))
    (hyear : 2000 ≤ year ∧ year ≤ 2100) (hmm : 1 ≤ mm ∧ mm ≤ 12) (t : Int)
    (hstart : z.utc (makeDay year (mm - 1) 1 * msPerDay) ≤ t)
    (hend : t < z.utc (makeDay year mm 1 * msPerDay))
    (txs : List Transaction) (tx : Transaction) (userId catId : Nat)
    (hbefore : tx.date < t) :
    spentInPeriodWindow z month (Anchor.instant t)
      = some (t, z.utc (makeDay year mm 1 * msPerDay)) ∧
    spentInPeriod z (tx :: txs) userId catId month (Anchor.instant t)
      = spentInPeriod z txs userId catId month (Anchor.instant t) := by
  have hw : spentInPeriodWindow z month (Anchor.instant t)
      = some (t, z.utc (makeDay year mm 1 * msPerDay)) := by
    rw [spentInPeriodWindow_eq z month year mm hparse ⟨hyear.1, by omega⟩ hmm
      (Anchor.instant t)]
    simp only []
    rw [if_pos ⟨hstart, hend⟩]
  refine ⟨hw, ?_⟩
  rw [spentInPeriod_of_window hw, spentInPeriod_of_window hw]
  have hcond : ¬ (tx.user_id = userId ∧ tx.category_id = some catId ∧ tx.type = TxType.gasto
      ∧ t ≤ tx.date ∧ tx.date < z.utc (makeDay year mm 1 * msPerDay)) := by
    rintro ⟨_, _, _, h1, _⟩
    omega
  simp only [expectedSpend, List.map_cons, List.sum_cons, if_neg hcond, zero_add]

/-- Witness of C25: the expense of 09:00 on the day the scenario's budget is
created at 15:00 leaves the spend of the scenario as it is. -/
theorem spentInPeriod_excludes_before_creation_witness :
    spentInPeriod Zone.UTC (morningExpense :: scenarioTransactions) 7 3 "2024-06"
        (Anchor.instant scenarioCreatedAt)
      = spentInPeriod Zone.UTC scenarioTransactions 7 3 "2024-06"
          (Anchor.instant scenarioCreatedAt) :=
  (spentInPeriod_excludes_before_creation Zone.UTC "2024-06" 2024 6 (by decide) (by decide)
    (by decide) scenarioCreatedAt (by decide) (by decide) scenarioTransactions
    morningExpense 7 3 (by decide)).2

/-- Counterexample to C25 as documented: the budget of the scenario is created
at 15:00 UTC on 2024-06-10; the window starts at that instant and not at
00:00 of that day, and an expense of that day at 09:00 is not counted. -/
theorem anchor_not_moved_to_day_start :
    spentInPeriodWindow Zone.UTC "2024-06" (Anchor.instant scenarioCreatedAt)
      = some (scenarioCreatedAt, 1719792000000) ∧
    setHoursZero Zone.UTC scenarioCreatedAt = 1717977600000 ∧
    setHoursZero Zone.UTC scenarioCreatedAt ≤ morningExpense.date ∧
    morningExpense.date < scenarioCreatedAt ∧
    spentInPeriod Zone.UTC [morningExpense] 7 3 "2024-06" (Anchor.instant scenarioCreatedAt)
      = some 0 := by
  decide!

/-! ## The mail and the alert flag (C29) -/

/-- A whole number of tenths is left as it is by `toFixed(1)`. -/
theorem toFixed1_tenths (k : ℤ) : toFixed1 ((k : ℚ) / 10) = (k : ℚ) / 10 := by
  unfold toFixed1
  split_ifs with h
  · have hf : ⌊-((k : ℚ) / 10) * 10 + 1 / 2⌋ = -k := by
      rw [Int.floor_eq_iff]
      push_cast
      constructor <;> linarith
    rw [hf]
    push_cast
    ring
  · have hf : ⌊(k : ℚ) / 10 * 10 + 1 / 2⌋ = k := by
      rw [Int.floor_eq_iff]
      constructor <;> linarith
    rw [hf]

/-- When a run of `checkBudgetAlert` calls `sendMail`, the budget it found
reached its threshold. -/
theorem checkBudgetAlert_called {z : Zone} {budgets : List Budget} {cats : List Category}
    {txs : List Transaction} {users : List User} {faults : AlertFaults}
    {userId categoryId : Nat} {month : String} {r : AlertRun}
    (h : checkBudgetAlert z budgets cats txs users faults userId categoryId month = some r)
    (hcalls : r.sendMailCalls ≠ []) :
    ∃ b spent, budgets.find? (matchesAlert userId categoryId month) = some b ∧
      spentInPeriod z txs userId categoryId month (Anchor.instant b.createdAt) = some spent ∧
      b.threshold ≤ (if b.limit ≠ 0 then spent / b.limit * 100 else 0) := by
  unfold checkBudgetAlert at h
  cases ht : checkBudgetAlertTry z budgets cats txs users faults userId categoryId month with
  | none => simp [ht] at h
  | some t =>
    cases t with
    | error e =>
      simp only [ht, Option.some.injEq] at h
      subst h
      exact absurd rfl hcalls
    | ok calls =>
      simp only [ht, Option.some.injEq] at h
      subst h
      have hne : calls ≠ [] := hcalls
      unfold checkBudgetAlertTry at ht
      cases hfind : budgets.find? (matchesAlert userId categoryId month) with
      | none =>
        simp only [hfind, Option.map_none'] at ht
        split_ifs at ht
        all_goals first
          | (exfalso; simp at ht; done)
          | (simp at ht; exact absurd ht hne)
      | some b =>
        simp only [hfind, Option.map_some'] at ht
        cases hsp : spentInPeriod z txs userId categoryId month
            (Anchor.instant (populate cats b).createdAt) with
        | none =>
          simp only [hsp] at ht
          split_ifs at ht
          all_goals (simp at ht)
        | some spent =>
          simp only [hsp] at ht
          by_cases hpct : (if (populate cats b).limit ≠ 0
              then spent / (populate cats b).limit * 100 else 0) ≥ (populate cats b).threshold
          · exact ⟨b, spent, rfl, hsp, hpct⟩
          · rw [if_neg hpct] at ht
            split_ifs at ht
            all_goals first
              | (exfalso; simp at ht; done)
              | (simp at ht; exact absurd ht hne)

/-- An entry of an active budget with positive limit and a threshold in whole
tenths is flagged when the unrounded percentage reaches the threshold. -/
theorem enrichBudget_alert {z : Zone} {txs : List Transaction} {userId : Nat}
    {pb : PopulatedBudget} {e : BudgetEntry}
    (henr : enrichBudget z txs userId pb = some e) (hact : pb.isActive = true) (k : ℤ)
    (hlim : 0 < e.limit) (hk : e.threshold = (k : ℚ) / 10)
    (hc : e.threshold ≤ e.spent / e.limit * 100) : e.alert = true := by
  obtain ⟨cat, spent, _, _, rfl⟩ := enrichBudget_eq_some henr
  simp only at hlim hk hc ⊢
  rw [if_pos (ne_of_gt hlim), hact, Bool.true_and, decide_eq_true_eq]
  calc pb.threshold = toFixed1 pb.threshold := by rw [hk, toFixed1_tenths]
    _ ≤ toFixed1 (spent / pb.limit * 100) := toFixed1_mono hc

theorem forall₂_imp_mem {α β : Type} {R S : α → β → Prop} :
    ∀ {l : List α} {r : List β}, List.Forall₂ R l r →
      (∀ a b, a ∈ l → R a b → S a b) → List.Forall₂ S l r
  | _, _, List.Forall₂.nil, _ => List.Forall₂.nil
  | _, _, List.Forall₂.cons hab hrest, h =>
    List.Forall₂.cons (h _ _ (List.mem_cons_self _ _) hab)
      (forall₂_imp_mem hrest (fun a b ha => h a b (List.mem_cons_of_mem _ ha)))

/-- The budgets `listBudgets` selects are stored, belong to the caller, and
are active and not deleted. -/
theorem mem_findActiveBudgets {budgets : List Budget} {userId : Nat} {b : Budget}
    (hb : b ∈ findActiveBudgets budgets userId) :
    b ∈ budgets ∧ b.user_id = userId ∧ b.isActive = true ∧ b.isDeleted = false := by
  unfold findActiveBudgets at hb
  have h1 := List.mem_of_mem_take hb
  rw [(List.perm_insertionSort _ _).mem_iff, List.mem_filter] at h1
  obtain ⟨hmem, hp⟩ := h1
  simp only [Bool.and_eq_true, beq_iff_eq, Bool.not_eq_true'] at hp
  exact ⟨hmem, hp.1.1, hp.1.2, hp.2⟩

/-- C29: the mail implies the flag.  When `listBudgets` answers with entries,
every entry of a budget with positive limit and a threshold that is a whole
number of tenths has `alert = true` as soon as the unrounded
`spent / limit * 100` is at least the threshold (rounding to one decimal does
not take it below such a threshold); and, the keys of the collection being
distinct, whenever a run of `checkBudgetAlert` for a listed budget's user,
category and month calls `sendMail`, the entry of that budget has
`alert = true`. -/
theorem alert_flag_covers_mail (z : Zone) (cats : List Category) (budgets : List Budget)
    (txs : List Transaction) (userId status : Nat) (entries : List BudgetEntry)
    (hlist : listBudgets z cats budgets txs userId
      = some (ListBudgetsResponse.budgets status entries)) :
    (∀ e ∈ entries, ∀ k : ℤ, 0 < e.limit → e.threshold = (k : ℚ) / 10 →
      e.threshold ≤ e.spent / e.limit * 100 → e.alert = true) ∧
    (UniqueKeys budgets →
      List.Forall₂ (fun b e => e._id = b._id ∧
        ∀ (users : List User) (faults : AlertFaults) (r : AlertRun) (k : ℤ),
          0 < b.limit → b.threshold = (k : ℚ) / 10 →
          checkBudgetAlert z budgets cats txs users faults userId b.category_id b.month
            = some r →
          r.sendMailCalls ≠ [] → e.alert = true)
        (findActiveBudgets budgets userId) entries) := by
  constructor
  · intro e he k hlim hk hc
    obtain ⟨b, hb, henr⟩ := listBudgets_entry hlist he
    exact enrichBudget_alert henr (mem_findActiveBudgets hb).2.2.1 k hlim hk hc
  · intro huniq
    refine forall₂_imp_mem (listBudgets_forall₂ hlist) ?_
    intro b e hb henr
    obtain ⟨hmem, huser, hact, hdel⟩ := mem_findActiveBudgets hb
    obtain ⟨cat, spent, hcat, hspent, he⟩ := enrichBudget_eq_some henr
    refine ⟨by rw [he]; rfl, ?_⟩
    intro users faults r k hlim hk hrun hcalls
    obtain ⟨b', spent', hfind, hsp', hpct⟩ := checkBudgetAlert_called hrun hcalls
    have hb'mem := List.mem_of_find?_eq_some hfind
    have hb'p := List.find?_some hfind
    simp only [matchesAlert, Bool.and_eq_true, beq_iff_eq, Bool.not_eq_true'] at hb'p
    have hkey : budgetKey b' = budgetKey b := by
      simp only [budgetKey, hb'p.1.1.1.1, hb'p.1.1.1.2, hb'p.1.1.2, huser]
    have hbb : b' = b := List.inj_on_of_nodup_map huniq hb'mem hmem hkey
    subst hbb
    have hcid : cat._id = b'.category_id := by
      have := List.find?_some hcat
      simpa using this
    have hsame : spent = spent' := by
      have h1 : spentInPeriod z txs userId b'.category_id b'.month
          (Anchor.instant b'.createdAt) = some spent := by
        rw [← hcid]
        exact hspent
      rw [h1] at hsp'
      exact Option.some.inj hsp'
    subst hsame
    have hne : b'.limit ≠ 0 := ne_of_gt hlim
    rw [if_pos hne] at hpct
    apply enrichBudget_alert henr hact k
    · rw [he]
      exact hlim
    · rw [he]
      exact hk
    · rw [he]
      exact hpct

/-- Witness of C29: in the scenario the mail is sent (90 % against a threshold
of 80) and the entry is flagged. -/
theorem alert_flag_covers_mail_witness : scenarioEntry.alert = true :=
  (alert_flag_covers_mail Zone.UTC scenarioCategories scenarioBudgets scenarioTransactions 7
    200 [scenarioEntry] scenario_listBudgets_utc).1 scenarioEntry (List.mem_singleton.2 rfl)
    800 (by decide!) (by decide!) (by decide!)

/-! ## Soft deletion and toggling (C23) -/

theorem updateFirst_append (q : Budget → Bool) (f : Budget → Budget) (b : Budget)
    (post : List Budget) :
    ∀ pre : List Budget, (∀ x ∈ pre, q x = false) → q b = true →
      updateFirst q f (pre ++ b :: post) = pre ++ f b :: post
  | [], _, hb => by
    simp only [List.nil_append]
    unfold updateFirst
    rw [if_pos hb]
  | p :: pre, hpre, hb => by
    have hp : ¬ q p = true := by
      rw [hpre p (List.mem_cons_self _ _)]
      exact Bool.false_ne_true
    simp only [List.cons_append]
    unfold updateFirst
    rw [if_neg hp, updateFirst_append q f b post pre
      (fun x hx => hpre x (List.mem_cons_of_mem _ hx)) hb]

theorem find?_split (q : Budget → Bool) :
    ∀ (l : List Budget) (b : Budget), l.find? q = some b →
      ∃ pre post, l = pre ++ b :: post ∧ (∀ x ∈ pre, q x = false) ∧ q b = true
  | [], _, h => by simp at h
  | a :: rest, b, h => by
    by_cases ha : q a = true
    · rw [List.find?_cons_of_pos _ ha, Option.some.injEq] at h
      subst h
      exact ⟨[], rest, rfl, fun x hx => (by cases hx), ha⟩
    · rw [List.find?_cons_of_neg _ ha] at h
      obtain ⟨pre, post, hl, hpre, hb⟩ := find?_split q rest b h
      refine ⟨a :: pre, post, by rw [hl]; rfl, ?_, hb⟩
      intro x hx
      rcases List.mem_cons.1 hx with rfl | hx
      · exact Bool.eq_false_iff.2 ha
      · exact hpre x hx

theorem updateFirst_length (q : Budget → Bool) (f : Budget → Budget) :
    ∀ l : List Budget, (updateFirst q f l).length = l.length
  | [] => rfl
  | a :: rest => by
    unfold updateFirst
    split_ifs
    · rfl
    · simp only [List.length_cons, updateFirst_length q f rest]

theorem serveBudgetRequest_length (budgets : List Budget) (r : BudgetRequest) :
    budgets.length ≤ (serveBudgetRequest budgets r).length := by
  cases r with
  | create userId body now =>
    show budgets.length ≤ (createBudget budgets userId body now).2.length
    unfold createBudget
    split_ifs
    · exact le_refl _
    · simp only []
      rcases findOneAndUpsert_keys budgets userId body.category_id body.month body.limit
        body.threshold now (freshId budgets) with ⟨hk, _⟩ | ⟨hk, _⟩
      · have := congrArg List.length hk
        simp only [List.length_map] at this
        omega
      · have := congrArg List.length hk
        simp only [List.length_map, List.length_append, List.length_singleton] at this
        omega
    · exact le_refl _
  | toggle userId id now =>
    show budgets.length ≤ (toggleBudget budgets userId id now).2.length
    unfold toggleBudget
    split
    · exact le_refl _
    · simp only []
      split_ifs
      all_goals first
        | exact le_of_eq (updateFirst_length _ _ budgets).symm
        | exact le_refl _
  | delete userId id now =>
    show budgets.length ≤ (deleteBudget budgets userId id now).2.length
    unfold deleteBudget
    split
    · exact le_refl _
    · simp only [updateFirst_length]
      exact le_refl _

theorem serveBudgetRequests_length (reqs : List BudgetRequest) :
    ∀ budgets : List Budget, budgets.length ≤ (serveBudgetRequests budgets reqs).length := by
  induction reqs with
  | nil => exact fun _ => le_refl _
  | cons r rs ih =>
    intro budgets
    exact le_trans (serveBudgetRequest_length budgets r) (ih _)

/-- C23, as the code has it: `deleteBudget` on a non-deleted budget of the
caller writes `isDeleted = true`, `isActive = false` and the `updatedAt`
timestamp to that record, changes no other field of it and no other record;
`toggleBudget` on such a budget whose stored `month`, `limit` and `threshold`
pass the validators that `save()` runs (ids being distinct) flips `isActive`,
sets `updatedAt` and changes nothing else; both answer 404 and leave the
collection as it is when no non-deleted budget of the caller has the id; and
no sequence of `createBudget`, `toggleBudget` and `deleteBudget` requests
makes the collection shorter. -/
theorem budget_soft_delete_frame (budgets : List Budget) (userId id : Nat) (now : Int) :
    (∀ b, budgets.find? (matchesOwned id userId) = some b →
      ∃ pre post, budgets = pre ++ b :: post ∧
        deleteBudget budgets userId id now
          = (BudgetActionResponse.message 200 "Presupuesto eliminado",
              pre ++ softDeletedBudget b now :: post)) ∧
    (∀ b, budgets.find? (matchesOwned id userId) = some b →
      saveValidatorsPass b = true →
      (budgets.map (fun x => x._id)).Nodup →
      ∃ pre post, budgets = pre ++ b :: post ∧
        (toggleBudget budgets userId id now).2 = pre ++ flippedBudget b now :: post ∧
        (toggleBudget budgets userId id now).1.status = 200) ∧
    (∀ b : Budget,
      ((softDeletedBudget b now).isDeleted = true ∧ (softDeletedBudget b now).isActive = false
        ∧ (softDeletedBudget b now)._id = b._id
        ∧ (softDeletedBudget b now).user_id = b.user_id
        ∧ (softDeletedBudget b now).category_id = b.category_id
        ∧ (softDeletedBudget b now).month = b.month
        ∧ (softDeletedBudget b now).limit = b.limit
        ∧ (softDeletedBudget b now).threshold = b.threshold
        ∧ (softDeletedBudget b now).createdAt = b.createdAt) ∧
      ((flippedBudget b now).isActive = !b.isActive
        ∧ (flippedBudget b now).isDeleted = b.isDeleted
        ∧ (flippedBudget b now)._id = b._id
        ∧ (flippedBudget b now).user_id = b.user_id
        ∧ (flippedBudget b now).category_id = b.category_id
        ∧ (flippedBudget b now).month = b.month
        ∧ (flippedBudget b now).limit = b.limit
        ∧ (flippedBudget b now).threshold = b.threshold
        ∧ (flippedBudget b now).createdAt = b.createdAt)) ∧
    (budgets.find? (matchesOwned id userId) = none →
      deleteBudget budgets userId id now
        = (BudgetActionResponse.message 404 "Presupuesto no encontrado", budgets) ∧
      toggleBudget budgets userId id now
        = (BudgetActionResponse.message 404 "Presupuesto no encontrado", budgets)) ∧
    (∀ reqs : List BudgetRequest,
      budgets.length ≤ (serveBudgetRequests budgets reqs).length) := by
  refine ⟨?_, ?_, fun b => ⟨⟨rfl, rfl, rfl, rfl, rfl, rfl, rfl, rfl, rfl⟩,
    ⟨rfl, rfl, rfl, rfl, rfl, rfl, rfl, rfl, rfl⟩⟩, ?_, fun reqs =>
    serveBudgetRequests_length reqs budgets⟩
  · intro b hfind
    obtain ⟨pre, post, hl, hpre, hb⟩ := find?_split _ budgets b hfind
    refine ⟨pre, post, hl, ?_⟩
    unfold deleteBudget
    rw [hfind]
    simp only []
    rw [hl, updateFirst_append _ _ b post pre hpre hb]
    rfl
  · intro b hfind hvalid hnodup
    have hsaved : saveValidatorsPass { b with isActive := !b.isActive, updatedAt := now }
        = true := hvalid
    obtain ⟨pre, post, hl, _, _⟩ := find?_split _ budgets b hfind
    refine ⟨pre, post, hl, ?_, ?_⟩
    · unfold toggleBudget
      rw [hfind]
      simp only [hsaved, if_true]
      have hpre2 : ∀ x ∈ pre, (x._id == b._id) = false := by
        intro x hx
        rw [hl, List.map_append, List.map_cons] at hnodup
        have hdis := (List.nodup_append.1 hnodup).2.2
        rw [beq_eq_false_iff_ne]
        intro heq
        exact hdis (List.mem_map.2 ⟨x, hx, rfl⟩) (by rw [heq]; exact List.mem_cons_self _ _)
      rw [hl, updateFirst_append _ _ b post pre hpre2 (by simp)]
      rfl
    · unfold toggleBudget
      rw [hfind]
      simp only [hsaved, if_true]
      rfl
  · intro hnone
    unfold deleteBudget toggleBudget
    rw [hnone]
    exact ⟨rfl, rfl⟩

/-- Witness of C23: the budget of the scenario passes the validators, and
toggling it a day after its creation is answered 200. -/
theorem budget_soft_delete_frame_witness :
    saveValidatorsPass (Budget.mk 1 7 3 "2024-06" 500 80 true false scenarioCreatedAt
      scenarioCreatedAt) = true ∧
    (toggleBudget scenarioBudgets 7 1 1718118000000).1.status = 200 :=
  ⟨by decide!,
    ((budget_soft_delete_frame scenarioBudgets 7 1 1718118000000).2.1
      (Budget.mk 1 7 3 "2024-06" 500 80 true false scenarioCreatedAt scenarioCreatedAt)
      (by decide!) (by decide!) (by decide!)).elim
      (fun _ h => h.elim (fun _ h2 => h2.2.2))⟩

/-- Counterexample to C23 as stated: deleting and toggling the budget of the
scenario a day after its creation also change its `updatedAt`; and a budget
that `createBudget` stored with the month `2024-13` is not flipped by
`toggleBudget`, which answers 500 and leaves the collection as it is. -/
theorem budget_writes_touch_updatedAt :
    scenarioBudgets.map Budget.updatedAt = [1718031600000] ∧
    (deleteBudget scenarioBudgets 7 1 1718118000000).2.map Budget.updatedAt
      = [1718118000000] ∧
    (toggleBudget scenarioBudgets 7 1 1718118000000).2.map Budget.updatedAt
      = [1718118000000] ∧
    (createBudget [] 7 (CreateBudgetBody.mk 3 "2024-13" 500 80) scenarioCreatedAt).2
      = [insertedBudget 7 3 "2024-13" 500 80 scenarioCreatedAt 1] ∧
    [insertedBudget 7 3 "2024-13" 500 80 scenarioCreatedAt 1].find? (matchesOwned 1 7)
      = some (insertedBudget 7 3 "2024-13" 500 80 scenarioCreatedAt 1) ∧
    toggleBudget [insertedBudget 7 3 "2024-13" 500 80 scenarioCreatedAt 1] 7 1 1718118000000
      = (BudgetActionResponse.message 500 "Error al cambiar estado",
          [insertedBudget 7 3 "2024-13" 500 80 scenarioCreatedAt 1]) := by
  decide!

/-! ## Deleting a goal whose name a deleted goal has (C27) -/

/-- C27 fails on the code: the unique index `{ user_id, name, isDeleted }`
holds deleted goals too.  User 7 creates the goal `Viaje` (201), deletes it
(200) and creates `Viaje` again (201); deleting the second one would give two
goals the key `(7, Viaje, true)`, so it is answered 500 and the goal stays
undeleted. -/
theorem deleteSavingsGoal_blocked_by_namesake :
    viajeCreated.1.status = 201 ∧
    viajeDeleted.1 = GoalResponse.message 200 "Meta eliminada" ∧
    viajeCreatedAgain.1.status = 201 ∧
    viajeDeletedAgain.1 = GoalResponse.message 500 "Error al eliminar meta" ∧
    viajeDeletedAgain.2 = viajeCreatedAgain.2 ∧
    viajeDeletedAgain.2.map (fun g => (g._id, g.user_id, g.name, g.isDeleted))
      = [(1, 7, "Viaje", true), (2, 7, "Viaje", false)] := by
  decide!

/-! ## Dates that are not in the calendar (C28) -/

/-- C28 fails on the code: for a string of the form `YYYY-MM-DD`
`parseDateOnly` returns `new Date(y, m - 1, d)` unchecked, which rolls a day or
month that does not exist over into the following ones and is never `null`.
`2024-02-31` is read as 2 March 2024 and `2024-13-45` as 14 February 2025, and
`createSavingsGoal` on 2024-01-15 with the due date `2024-02-31` answers 201
and stores 2 March 2024. -/
theorem parseDateOnly_rolls_over :
    parseDateOnly Zone.UTC noDateParse (DateInput.text "2024-02-31")
      = some (some 1709337600000) ∧
    parseDateOnly Zone.UTC noDateParse (DateInput.text "2024-13-45")
      = some (some 1739491200000) ∧
    (createSavingsGoal Zone.UTC noDateParse [] 7 februaryBody 1705312800000).1.status = 201 ∧
    (createSavingsGoal Zone.UTC noDateParse [] 7 februaryBody 1705312800000).2.map
      SavingsGoal.due_date = [1709337600000] ∧
    (∀ (z : Zone) (dateParse : String → Option Int) (s : String),
      isoDateMatch s ≠ none → parseDateOnly z dateParse (DateInput.text s) ≠ none) := by
  refine ⟨by decide!, by decide!, by decide!, by decide!, ?_⟩
  intro z dateParse s hmatch
  have hne : s ≠ "" := by
    intro h
    subst h
    exact hmatch (by decide)
  unfold parseDateOnly
  simp only [if_neg hne]
  cases hm : isoDateMatch s with
  | none => exact absurd hm hmatch
  | some ymd => simp

/-! ## Rounding to the nearest double -/

theorem log2Fuel_spec : ∀ (fuel n : Nat), 0 < n → n < 2 ^ fuel →
    2 ^ log2Fuel fuel n ≤ n ∧ n < 2 ^ (log2Fuel fuel n + 1)
  | 0, n, h0, h => by
    simp only [pow_zero] at h
    omega
  | fuel + 1, n, h0, h => by
    unfold log2Fuel
    split_ifs with h2
    · have : n = 1 := by omega
      subst this
      simp
    · have hlt : n / 2 < 2 ^ fuel := by
        rw [pow_succ] at h
        omega
      obtain ⟨h1, h3⟩ := log2Fuel_spec fuel (n / 2) (by omega) hlt
      rw [pow_succ, pow_succ]
      constructor
      · omega
      · rw [pow_succ] at h3
        omega

theorem natLog2_spec (n : Nat) (h : 0 < n) :
    2 ^ natLog2 n ≤ n ∧ n < 2 ^ (natLog2 n + 1) :=
  log2Fuel_spec n n h (Nat.lt_two_pow n)

theorem floorLog2_spec (x : ℚ) (hx : x ≠ 0) :
    (2 : ℚ) ^ floorLog2 x ≤ |x| ∧ |x| < (2 : ℚ) ^ (floorLog2 x + 1) := by
  have ha : 0 < x.num.natAbs := Int.natAbs_pos.2 (Rat.num_ne_zero.2 hx)
  have hd : 0 < x.den := x.den_pos
  obtain ⟨ha1, ha2⟩ := natLog2_spec _ ha
  obtain ⟨hd1, hd2⟩ := natLog2_spec _ hd
  have habs : |x| = (x.num.natAbs : ℚ) / (x.den : ℚ) := by
    rw [Rat.abs_def, Rat.divInt_eq_div]
    push_cast
    rw [Nat.cast_natAbs, Int.cast_abs]
  have hA1 : (2 : ℚ) ^ natLog2 x.num.natAbs ≤ (x.num.natAbs : ℚ) := by exact_mod_cast ha1
  have hA2 : (x.num.natAbs : ℚ) < (2 : ℚ) ^ (natLog2 x.num.natAbs + 1) := by exact_mod_cast ha2
  have hD1 : (2 : ℚ) ^ natLog2 x.den ≤ (x.den : ℚ) := by exact_mod_cast hd1
  have hD2 : (x.den : ℚ) < (2 : ℚ) ^ (natLog2 x.den + 1) := by exact_mod_cast hd2
  have hDpos : (0 : ℚ) < (x.den : ℚ) := by exact_mod_cast hd
  have h2 : (2 : ℚ) ≠ 0 := two_ne_zero
  have hpa : (0 : ℚ) < (2 : ℚ) ^ natLog2 x.num.natAbs := by positivity
  have hpd : (0 : ℚ) < (2 : ℚ) ^ natLog2 x.den := by positivity
  have hk : ∀ j : ℤ, (2 : ℚ) ^ ((natLog2 x.num.natAbs : ℤ) - (natLog2 x.den : ℤ) + j)
      = (2 : ℚ) ^ natLog2 x.num.natAbs / (2 : ℚ) ^ natLog2 x.den * (2 : ℚ) ^ j := by
    intro j
    rw [zpow_add₀ h2, zpow_sub₀ h2, zpow_natCast, zpow_natCast]
  have hup : |x| < (2 : ℚ) ^ ((natLog2 x.num.natAbs : ℤ) - (natLog2 x.den : ℤ) + 1) := by
    rw [hk, habs, div_lt_iff₀ hDpos, zpow_one]
    calc (x.num.natAbs : ℚ) < (2 : ℚ) ^ (natLog2 x.num.natAbs + 1) := hA2
      _ = (2 : ℚ) ^ natLog2 x.num.natAbs / (2 : ℚ) ^ natLog2 x.den * 2
            * (2 : ℚ) ^ natLog2 x.den := by
          field_simp
          ring
      _ ≤ (2 : ℚ) ^ natLog2 x.num.natAbs / (2 : ℚ) ^ natLog2 x.den * 2 * (x.den : ℚ) := by
          apply mul_le_mul_of_nonneg_left hD1
          positivity
  have hlow : (2 : ℚ) ^ ((natLog2 x.num.natAbs : ℤ) - (natLog2 x.den : ℤ) + (-1)) ≤ |x| := by
    rw [hk, habs, le_div_iff₀ hDpos]
    calc (2 : ℚ) ^ natLog2 x.num.natAbs / (2 : ℚ) ^ natLog2 x.den * (2 : ℚ) ^ (-1 : ℤ)
            * (x.den : ℚ)
          ≤ (2 : ℚ) ^ natLog2 x.num.natAbs / (2 : ℚ) ^ natLog2 x.den * (2 : ℚ) ^ (-1 : ℤ)
            * (2 : ℚ) ^ (natLog2 x.den + 1) := by
          apply mul_le_mul_of_nonneg_left (le_of_lt hD2)
          positivity
      _ = (2 : ℚ) ^ natLog2 x.num.natAbs := by
          rw [pow_succ]
          field_simp
      _ ≤ (x.num.natAbs : ℚ) := hA1
  unfold floorLog2
  simp only []
  split_ifs with hle
  · exact ⟨hle, hup⟩
  · refine ⟨?_, ?_⟩
    · rw [sub_eq_add_neg]
      exact hlow
    · rw [sub_add_cancel]
      exact not_le.1 hle

theorem roundHalfEven_le {m : ℚ} {j : ℤ} (h : m ≤ (j : ℚ)) : roundHalfEven m ≤ j := by
  have hf : ⌊m⌋ ≤ j := Int.floor_le_iff.2 (lt_of_le_of_lt h (by linarith))
  have hfm : ((⌊m⌋ : ℤ) : ℚ) ≤ m := Int.floor_le m
  have hstep : (0 : ℚ) < m - ⌊m⌋ → ⌊m⌋ + 1 ≤ j := by
    intro hr
    have : ((⌊m⌋ : ℤ) : ℚ) < (j : ℚ) := by linarith
    have : ⌊m⌋ < j := by exact_mod_cast this
    omega
  unfold roundHalfEven
  simp only []
  split_ifs with h1 h2 h3
  · exact hf
  · exact hstep (by linarith)
  · exact hf
  · exact hstep (by linarith)

theorem le_roundHalfEven {m : ℚ} {j : ℤ} (h : (j : ℚ) ≤ m) : j ≤ roundHalfEven m := by
  have hf : j ≤ ⌊m⌋ := Int.le_floor.2 h
  unfold roundHalfEven
  simp only []
  split_ifs <;> omega

theorem roundHalfEven_error (m : ℚ) : |(roundHalfEven m : ℚ) - m| ≤ 1 / 2 := by
  have hfm : ((⌊m⌋ : ℤ) : ℚ) ≤ m := Int.floor_le m
  have hlt : m < ((⌊m⌋ : ℤ) : ℚ) + 1 := Int.lt_floor_add_one m
  unfold roundHalfEven
  simp only []
  rw [abs_le]
  split_ifs with h1 h2 h3
  · constructor <;> linarith
  · push_cast
    constructor <;> linarith
  · constructor <;> linarith
  · push_cast
    constructor <;> linarith


theorem floorLog2_neg (x : ℚ) : floorLog2 (-x) = floorLog2 x := by
  unfold floorLog2
  simp only [Rat.neg_num, Int.natAbs_neg, Rat.neg_den, abs_neg]

theorem ulpExponent_neg (x : ℚ) : ulpExponent (-x) = ulpExponent x := by
  unfold ulpExponent
  rw [floorLog2_neg]

theorem roundDouble_of_pos {x : ℚ} (hx : 0 < x) :
    roundDouble x = (roundHalfEven (x / (2 : ℚ) ^ ulpExponent x) : ℚ) * (2 : ℚ) ^ ulpExponent x := by
  unfold roundDouble
  rw [if_neg (ne_of_gt hx), abs_of_pos hx]
  simp only [if_neg (not_lt.2 (le_of_lt hx))]

theorem roundDouble_zero : roundDouble 0 = 0 := by
  unfold roundDouble
  rw [if_pos rfl]

theorem roundDouble_neg (x : ℚ) : roundDouble (-x) = -roundDouble x := by
  rcases lt_trichotomy x 0 with hx | hx | hx
  · have hpos : 0 < -x := neg_pos.2 hx
    rw [roundDouble_of_pos hpos, ulpExponent_neg]
    unfold roundDouble
    rw [if_neg (ne_of_lt hx), abs_of_neg hx]
    simp only [if_pos hx, neg_neg]
  · subst hx
    simp [roundDouble_zero]
  · have hneg : -x < 0 := neg_neg_of_pos hx
    rw [roundDouble_of_pos hx]
    unfold roundDouble
    rw [if_neg (ne_of_lt hneg), abs_neg, abs_of_pos hx, ulpExponent_neg]
    simp only [if_pos hneg]

theorem roundDouble_nonneg {y : ℚ} (h : 0 ≤ y) : 0 ≤ roundDouble y := by
  rcases eq_or_lt_of_le h with h0 | hpos
  · rw [← h0, roundDouble_zero]
  · rw [roundDouble_of_pos hpos]
    have hp : (0 : ℚ) < (2 : ℚ) ^ ulpExponent y := zpow_pos (by norm_num) _
    have hn : (0 : ℤ) ≤ roundHalfEven (y / (2 : ℚ) ^ ulpExponent y) :=
      le_roundHalfEven (by
        push_cast
        exact div_nonneg h (le_of_lt hp))
    have : (0 : ℚ) ≤ (roundHalfEven (y / (2 : ℚ) ^ ulpExponent y) : ℚ) := by exact_mod_cast hn
    exact mul_nonneg this (le_of_lt hp)

theorem isDouble_neg {c : ℚ} (hc : IsDouble c) : IsDouble (-c) := by
  obtain ⟨m, e, hm, he, rfl⟩ := hc
  exact ⟨-m, e, by rwa [abs_neg], he, by push_cast; ring⟩

theorem isDouble_zero : IsDouble 0 := ⟨0, 0, by norm_num, by norm_num, by norm_num⟩

/-- A whole number below `2 ^ 53` in magnitude is a double. -/
theorem isDouble_intCast (n : ℤ) (h : |n| < 2 ^ 53) : IsDouble (n : ℚ) :=
  ⟨n, 0, h, by norm_num, by simp⟩

/-- A positive double that is at least `2 ^ k` is a whole multiple of the unit
in the last place of the numbers from `2 ^ k` on. -/
theorem isDouble_multiple {c : ℚ} (hc : IsDouble c) (hpos : 0 < c) {k : ℤ}
    (hk : (2 : ℚ) ^ k ≤ c) : ∃ j : ℤ, c = (j : ℚ) * (2 : ℚ) ^ (max (k - 52) (-1074)) := by
  obtain ⟨m, e, hm, he, rfl⟩ := hc
  have h2 : (1 : ℚ) < 2 := by norm_num
  have hpe : (0 : ℚ) < (2 : ℚ) ^ e := zpow_pos (by norm_num) _
  have hmpos : (0 : ℚ) < (m : ℚ) := by
    by_contra hneg
    have : (m : ℚ) * (2 : ℚ) ^ e ≤ 0 := mul_nonpos_of_nonpos_of_nonneg (not_lt.1 hneg) (le_of_lt hpe)
    linarith
  have hm53 : (m : ℚ) < (2 : ℚ) ^ (53 : ℤ) := by
    have : m < 2 ^ 53 := lt_of_le_of_lt (le_abs_self m) hm
    have h' : (m : ℚ) < ((2 ^ 53 : ℤ) : ℚ) := by exact_mod_cast this
    calc (m : ℚ) < ((2 ^ 53 : ℤ) : ℚ) := h'
      _ = (2 : ℚ) ^ (53 : ℤ) := by norm_num
  have hlt : (2 : ℚ) ^ k < (2 : ℚ) ^ (53 + e) := by
    rw [zpow_add₀ (by norm_num : (2 : ℚ) ≠ 0)]
    calc (2 : ℚ) ^ k ≤ (m : ℚ) * (2 : ℚ) ^ e := hk
      _ < (2 : ℚ) ^ (53 : ℤ) * (2 : ℚ) ^ e := mul_lt_mul_of_pos_right hm53 hpe
  have hke : k < 53 + e := (zpow_lt_zpow_iff_right₀ h2).1 hlt
  have hge : max (k - 52) (-1074) ≤ e := max_le (by omega) he
  obtain ⟨d, hd⟩ : ∃ d : ℕ, e = max (k - 52) (-1074) + d :=
    ⟨(e - max (k - 52) (-1074)).toNat, by omega⟩
  refine ⟨m * 2 ^ d, ?_⟩
  rw [hd, zpow_add₀ (by norm_num : (2 : ℚ) ≠ 0), zpow_natCast]
  push_cast
  ring

theorem roundDouble_le_of_pos {y c : ℚ} (hy : 0 < y) (hc : IsDouble c) (h : y ≤ c) :
    roundDouble y ≤ c := by
  have hspec := floorLog2_spec y (ne_of_gt hy)
  rw [abs_of_pos hy] at hspec
  obtain ⟨j, hj⟩ := isDouble_multiple hc (lt_of_lt_of_le hy h) (le_trans hspec.1 h)
  have hp : (0 : ℚ) < (2 : ℚ) ^ ulpExponent y := zpow_pos (by norm_num) _
  rw [roundDouble_of_pos hy]
  have hle : roundHalfEven (y / (2 : ℚ) ^ ulpExponent y) ≤ j := by
    apply roundHalfEven_le
    rw [div_le_iff₀ hp]
    calc y ≤ c := h
      _ = (j : ℚ) * (2 : ℚ) ^ ulpExponent y := hj
  have hle' : (roundHalfEven (y / (2 : ℚ) ^ ulpExponent y) : ℚ) ≤ (j : ℚ) := by exact_mod_cast hle
  calc (roundHalfEven (y / (2 : ℚ) ^ ulpExponent y) : ℚ) * (2 : ℚ) ^ ulpExponent y
      ≤ (j : ℚ) * (2 : ℚ) ^ ulpExponent y := mul_le_mul_of_nonneg_right hle' (le_of_lt hp)
    _ = c := hj.symm

theorem isDouble_ge_min {c : ℚ} (hc : IsDouble c) (hpos : 0 < c) :
    (2 : ℚ) ^ (-1074 : ℤ) ≤ c := by
  obtain ⟨m, e, hm, he, rfl⟩ := hc
  have hpe : (0 : ℚ) < (2 : ℚ) ^ e := zpow_pos (by norm_num) _
  have hmpos : (0 : ℚ) < (m : ℚ) := by
    by_contra hneg
    have : (m : ℚ) * (2 : ℚ) ^ e ≤ 0 := mul_nonpos_of_nonpos_of_nonneg (not_lt.1 hneg) (le_of_lt hpe)
    linarith
  have hm1 : (1 : ℚ) ≤ (m : ℚ) := by
    have : (0 : ℤ) < m := by exact_mod_cast hmpos
    have : (1 : ℤ) ≤ m := this
    exact_mod_cast this
  calc (2 : ℚ) ^ (-1074 : ℤ) ≤ (2 : ℚ) ^ e := zpow_le_zpow_right₀ (by norm_num) he
    _ = 1 * (2 : ℚ) ^ e := (one_mul _).symm
    _ ≤ (m : ℚ) * (2 : ℚ) ^ e := mul_le_mul_of_nonneg_right hm1 (le_of_lt hpe)

theorem le_roundDouble_of_pos {y c : ℚ} (hc0 : 0 < c) (hc : IsDouble c) (h : c ≤ y) :
    c ≤ roundDouble y := by
  have hy : 0 < y := lt_of_lt_of_le hc0 h
  have hspec := floorLog2_spec y (ne_of_gt hy)
  rw [abs_of_pos hy] at hspec
  have hp : (0 : ℚ) < (2 : ℚ) ^ ulpExponent y := zpow_pos (by norm_num) _
  have h2 : (1 : ℚ) < 2 := by norm_num
  rw [roundDouble_of_pos hy]
  by_cases hck : (2 : ℚ) ^ floorLog2 y ≤ c
  · obtain ⟨j, hj⟩ := isDouble_multiple hc hc0 hck
    have hle : j ≤ roundHalfEven (y / (2 : ℚ) ^ ulpExponent y) := by
      apply le_roundHalfEven
      rw [le_div_iff₀ hp]
      calc (j : ℚ) * (2 : ℚ) ^ ulpExponent y = c := hj.symm
        _ ≤ y := h
    have hle' : (j : ℚ) ≤ (roundHalfEven (y / (2 : ℚ) ^ ulpExponent y) : ℚ) := by
      exact_mod_cast hle
    calc c = (j : ℚ) * (2 : ℚ) ^ ulpExponent y := hj
      _ ≤ _ := mul_le_mul_of_nonneg_right hle' (le_of_lt hp)
  · have hlt : c < (2 : ℚ) ^ floorLog2 y := not_le.1 hck
    have hmin := isDouble_ge_min hc hc0
    have hk : (-1074 : ℤ) < floorLog2 y := (zpow_lt_zpow_iff_right₀ h2).1 (lt_of_le_of_lt hmin hlt)
    obtain ⟨d, hd⟩ : ∃ d : ℕ, floorLog2 y = ulpExponent y + d :=
      ⟨(floorLog2 y - ulpExponent y).toNat, by unfold ulpExponent; omega⟩
    have hpow : (2 : ℚ) ^ floorLog2 y = ((2 ^ d : ℤ) : ℚ) * (2 : ℚ) ^ ulpExponent y := by
      rw [hd, zpow_add₀ (by norm_num : (2 : ℚ) ≠ 0), zpow_natCast]
      push_cast
      ring
    have hle : (2 ^ d : ℤ) ≤ roundHalfEven (y / (2 : ℚ) ^ ulpExponent y) := by
      apply le_roundHalfEven
      rw [le_div_iff₀ hp, ← hpow]
      exact hspec.1
    have hle' : ((2 ^ d : ℤ) : ℚ) ≤ (roundHalfEven (y / (2 : ℚ) ^ ulpExponent y) : ℚ) := by
      exact_mod_cast hle
    calc c ≤ (2 : ℚ) ^ floorLog2 y := le_of_lt hlt
      _ = ((2 ^ d : ℤ) : ℚ) * (2 : ℚ) ^ ulpExponent y := hpow
      _ ≤ _ := mul_le_mul_of_nonneg_right hle' (le_of_lt hp)

/-- Rounding to the nearest double does not cross a double: what lies at or
below a double is rounded to at most that double. -/
theorem roundDouble_le {y c : ℚ} (hc : IsDouble c) (h : y ≤ c) : roundDouble y ≤ c := by
  rcases lt_trichotomy y 0 with hy | hy | hy
  · rcases le_or_lt 0 c with hc0 | hc0
    · have := roundDouble_nonneg (le_of_lt (neg_pos.2 hy))
      rw [roundDouble_neg] at this
      linarith
    · have := le_roundDouble_of_pos (neg_pos.2 hc0) (isDouble_neg hc) (neg_le_neg h)
      rw [roundDouble_neg] at this
      linarith
  · subst hy
    rw [roundDouble_zero]
    exact h
  · exact roundDouble_le_of_pos hy hc h

/-- What lies at or above a double is rounded to at least that double. -/
theorem le_roundDouble {y c : ℚ} (hc : IsDouble c) (h : c ≤ y) : c ≤ roundDouble y := by
  have := roundDouble_le (isDouble_neg hc) (neg_le_neg h)
  rw [roundDouble_neg] at this
  linarith


theorem roundHalfEven_intCast (j : ℤ) : roundHalfEven (j : ℚ) = j :=
  le_antisymm (roundHalfEven_le (le_refl _)) (le_roundHalfEven (le_refl _))

theorem ulpExponent_ge (x : ℚ) : -1074 ≤ ulpExponent x := le_max_right _ _

/-- The result of rounding is a double. -/
theorem isDouble_roundDouble (x : ℚ) : IsDouble (roundDouble x) := by
  have key : ∀ y : ℚ, 0 < y → IsDouble (roundDouble y) := by
    intro y hy
    have hspec := floorLog2_spec y (ne_of_gt hy)
    rw [abs_of_pos hy] at hspec
    have hp : (0 : ℚ) < (2 : ℚ) ^ ulpExponent y := zpow_pos (by norm_num) _
    have h2 : (2 : ℚ) ≠ 0 := by norm_num
    rw [roundDouble_of_pos hy]
    have h0 : (0 : ℤ) ≤ roundHalfEven (y / (2 : ℚ) ^ ulpExponent y) :=
      le_roundHalfEven (by
        push_cast
        exact div_nonneg (le_of_lt hy) (le_of_lt hp))
    have hle : roundHalfEven (y / (2 : ℚ) ^ ulpExponent y) ≤ 2 ^ 53 := by
      apply roundHalfEven_le
      rw [div_le_iff₀ hp]
      have hexp : floorLog2 y + 1 ≤ 53 + ulpExponent y := by
        unfold ulpExponent
        omega
      calc y ≤ (2 : ℚ) ^ (floorLog2 y + 1) := le_of_lt hspec.2
        _ ≤ (2 : ℚ) ^ (53 + ulpExponent y) := zpow_le_zpow_right₀ (by norm_num) hexp
        _ = ((2 ^ 53 : ℤ) : ℚ) * (2 : ℚ) ^ ulpExponent y := by
          rw [zpow_add₀ h2]
          norm_num
    rcases eq_or_lt_of_le hle with heq | hlt
    · refine ⟨2 ^ 52, ulpExponent y + 1, by norm_num, ?_, ?_⟩
      · have := ulpExponent_ge y
        omega
      · rw [heq, zpow_add₀ h2]
        norm_num
        ring
    · exact ⟨_, ulpExponent y, by rw [abs_of_nonneg h0]; exact hlt, ulpExponent_ge y, rfl⟩
  rcases lt_trichotomy x 0 with hx | hx | hx
  · have := isDouble_neg (key (-x) (neg_pos.2 hx))
    rwa [roundDouble_neg, neg_neg] at this
  · subst hx
    rw [roundDouble_zero]
    exact isDouble_zero
  · exact key x hx

/-- A double is left as it is. -/
theorem roundDouble_of_isDouble {c : ℚ} (hc : IsDouble c) : roundDouble c = c :=
  le_antisymm (roundDouble_le hc (le_refl _)) (le_roundDouble hc (le_refl _))

/-- Every double is a whole multiple of the smallest positive one. -/
theorem isDouble_grid {c : ℚ} (hc : IsDouble c) :
    ∃ j : ℤ, c = (j : ℚ) * (2 : ℚ) ^ (-1074 : ℤ) := by
  obtain ⟨m, e, _, he, rfl⟩ := hc
  obtain ⟨d, hd⟩ : ∃ d : ℕ, e = -1074 + d := ⟨(e + 1074).toNat, by omega⟩
  refine ⟨m * 2 ^ d, ?_⟩
  rw [hd, zpow_add₀ (by norm_num : (2 : ℚ) ≠ 0), zpow_natCast]
  push_cast
  ring

/-- The error of rounding is at most half a unit in the last place. -/
theorem roundDouble_error (x : ℚ) :
    |roundDouble x - x| ≤ (2 : ℚ) ^ ulpExponent x / 2 := by
  have key : ∀ y : ℚ, 0 < y → |roundDouble y - y| ≤ (2 : ℚ) ^ ulpExponent y / 2 := by
    intro y hy
    have hp : (0 : ℚ) < (2 : ℚ) ^ ulpExponent y := zpow_pos (by norm_num) _
    rw [roundDouble_of_pos hy]
    have herr := roundHalfEven_error (y / (2 : ℚ) ^ ulpExponent y)
    have heq : (roundHalfEven (y / (2 : ℚ) ^ ulpExponent y) : ℚ) * (2 : ℚ) ^ ulpExponent y - y
        = ((roundHalfEven (y / (2 : ℚ) ^ ulpExponent y) : ℚ) - y / (2 : ℚ) ^ ulpExponent y)
          * (2 : ℚ) ^ ulpExponent y := by
      field_simp
    rw [heq, abs_mul, abs_of_pos hp]
    calc |(roundHalfEven (y / (2 : ℚ) ^ ulpExponent y) : ℚ) - y / (2 : ℚ) ^ ulpExponent y|
          * (2 : ℚ) ^ ulpExponent y
        ≤ 1 / 2 * (2 : ℚ) ^ ulpExponent y := mul_le_mul_of_nonneg_right herr (le_of_lt hp)
      _ = (2 : ℚ) ^ ulpExponent y / 2 := by ring
  rcases lt_trichotomy x 0 with hx | hx | hx
  · have := key (-x) (neg_pos.2 hx)
    rw [roundDouble_neg, ulpExponent_neg] at this
    have heq : -roundDouble x - -x = -(roundDouble x - x) := by ring
    rwa [heq, abs_neg] at this
  · subst hx
    rw [roundDouble_zero, sub_zero, abs_zero]
    exact le_of_lt (div_pos (zpow_pos (by norm_num) _) (by norm_num))
  · exact key x hx

/-- Beside the subnormal range the error of rounding is at most one part in
`2 ^ 53` of the number; inside it, a number on the grid of the doubles is
left as it is. -/
theorem roundDouble_rel_error {x : ℚ} (hgrid : ∃ j : ℤ, x = (j : ℚ) * (2 : ℚ) ^ (-1074 : ℤ)) :
    |roundDouble x - x| ≤ |x| / 2 ^ 53 := by
  have h2 : (2 : ℚ) ≠ 0 := by norm_num
  have key : ∀ y : ℚ, 0 < y → (∃ j : ℤ, y = (j : ℚ) * (2 : ℚ) ^ (-1074 : ℤ)) →
      |roundDouble y - y| ≤ y / 2 ^ 53 := by
    intro y hy hg
    have hspec := floorLog2_spec y (ne_of_gt hy)
    rw [abs_of_pos hy] at hspec
    by_cases hk : -1074 ≤ floorLog2 y - 52
    · have he : ulpExponent y = floorLog2 y - 52 := max_eq_left hk
      have hpow : (2 : ℚ) ^ ulpExponent y / 2 = (2 : ℚ) ^ floorLog2 y / 2 ^ 53 := by
        rw [he, zpow_sub₀ h2]
        norm_num
        ring
      calc |roundDouble y - y| ≤ (2 : ℚ) ^ ulpExponent y / 2 := roundDouble_error y
        _ = (2 : ℚ) ^ floorLog2 y / 2 ^ 53 := hpow
        _ ≤ y / 2 ^ 53 := div_le_div_of_nonneg_right hspec.1 (by positivity)
    · have he : ulpExponent y = -1074 := max_eq_right (by omega)
      obtain ⟨j, hj⟩ := hg
      have hp : (0 : ℚ) < (2 : ℚ) ^ (-1074 : ℤ) := zpow_pos (by norm_num) _
      have hexact : roundDouble y = y := by
        rw [roundDouble_of_pos hy, he]
        have : y / (2 : ℚ) ^ (-1074 : ℤ) = (j : ℚ) := by
          rw [hj]
          field_simp
        rw [this, roundHalfEven_intCast, ← hj]
      rw [hexact, sub_self, abs_zero]
      positivity
  rcases lt_trichotomy x 0 with hx | hx | hx
  · obtain ⟨j, hj⟩ := hgrid
    have := key (-x) (neg_pos.2 hx) ⟨-j, by rw [hj]; push_cast; ring⟩
    rw [roundDouble_neg] at this
    have heq : -roundDouble x - -x = -(roundDouble x - x) := by ring
    rwa [heq, abs_neg, ← abs_of_neg hx] at this
  · subst hx
    simp [roundDouble_zero]
  · rw [abs_of_pos hx]
    exact key x hx hgrid

/-- The difference of two doubles is not rounded to zero: the difference of a
smaller and a larger double is rounded to a negative double. -/
theorem roundDouble_sub_neg {a b : ℚ} (ha : IsDouble a) (hb : IsDouble b) (h : a < b) :
    roundDouble (a - b) < 0 := by
  obtain ⟨ja, hja⟩ := isDouble_grid ha
  obtain ⟨jb, hjb⟩ := isDouble_grid hb
  have hp : (0 : ℚ) < (2 : ℚ) ^ (-1074 : ℤ) := zpow_pos (by norm_num) _
  have hj : ja < jb := by
    by_contra hge
    have hge' : (jb : ℚ) ≤ (ja : ℚ) := by exact_mod_cast not_lt.1 hge
    have : b ≤ a := by
      rw [hja, hjb]
      exact mul_le_mul_of_nonneg_right hge' (le_of_lt hp)
    linarith
  have hj1 : (ja : ℚ) - (jb : ℚ) ≤ -1 := by
    have : ja - jb ≤ -1 := by omega
    exact_mod_cast this
  have hle : a - b ≤ ((-1 : ℤ) : ℚ) * (2 : ℚ) ^ (-1074 : ℤ) := by
    rw [hja, hjb, ← sub_mul]
    push_cast
    exact mul_le_mul_of_nonneg_right hj1 (le_of_lt hp)
  have hmin : IsDouble (((-1 : ℤ) : ℚ) * (2 : ℚ) ^ (-1074 : ℤ)) :=
    ⟨-1, -1074, by norm_num, le_refl _, rfl⟩
  have := roundDouble_le hmin hle
  have hneg : ((-1 : ℤ) : ℚ) * (2 : ℚ) ^ (-1074 : ℤ) < 0 := by
    push_cast
    linarith
  linarith

/-! ## The year and the month of a day -/

theorem dayFromYear_succ (y : Int) :
    dayFromYear (y + 1) = dayFromYear y + 365 + (if inLeapYear y then 1 else 0) := by
  unfold dayFromYear inLeapYear
  by_cases h4 : y % 4 = 0 <;> by_cases h100 : y % 100 = 0 <;> by_cases h400 : y % 400 = 0 <;>
    simp [h4, h100, h400] <;> omega

theorem dayFromYear_linear (y : Int) :
    146097 * (y - 1970) - 506 ≤ 400 * dayFromYear y
      ∧ 400 * dayFromYear y ≤ 146097 * (y - 1970) + 589 := by
  unfold dayFromYear
  constructor <;> omega

theorem dayFromYear_lt_succ (y : Int) : dayFromYear y + 365 ≤ dayFromYear (y + 1) := by
  rw [dayFromYear_succ]
  split_ifs <;> omega

/-- The year of a day: the one whose first day is the last not after it. -/
theorem yearFromDay_eq (d Y : Int) (h1 : dayFromYear Y ≤ d) (h2 : d < dayFromYear (Y + 1)) :
    yearFromDay d = Y := by
  have hl1 := dayFromYear_linear Y
  have hl2 := dayFromYear_linear (Y + 1)
  have hk : 1970 + d * 400 / 146097 = Y - 1 ∨ 1970 + d * 400 / 146097 = Y
      ∨ 1970 + d * 400 / 146097 = Y + 1 := by omega
  have hm0 := dayFromYear_lt_succ (Y - 1)
  have hm1 := dayFromYear_lt_succ Y
  have hm2 := dayFromYear_lt_succ (Y + 1)
  have e0 : Y - 1 + 1 = Y := by ring
  rw [e0] at hm0
  unfold yearFromDay
  simp only []
  rcases hk with hk | hk | hk <;> rw [hk]
  · rw [e0, if_pos h1]
  · rw [if_neg (not_le.2 h2), if_neg (not_lt.2 h1)]
  · have h3 : ¬ dayFromYear (Y + 1 + 1) ≤ d := by omega
    rw [if_neg h3, if_pos h2]
    omega

theorem monthFromDay_eq (d Y m : Int) (hm : 1 ≤ m ∧ m ≤ 12)
    (h1 : makeDay Y (m - 1) 1 ≤ d) (h2 : d < makeDay Y m 1) :
    yearFromDay d = Y ∧ monthFromDay d = m - 1 := by
  obtain ⟨hm1, hm2⟩ := hm
  have hsucc := dayFromYear_succ Y
  have hy : yearFromDay d = Y := by
    apply yearFromDay_eq
    · interval_cases m <;> simp [makeDay, daysBeforeMonth] at h1 <;> (try split at h1) <;> omega
    · interval_cases m <;> simp [makeDay, daysBeforeMonth] at h2 <;> (try split at h2) <;> omega
  refine ⟨hy, ?_⟩
  unfold monthFromDay
  simp only [hy]
  interval_cases m <;> simp [makeDay, daysBeforeMonth] at h1 h2 <;>
    cases hl : inLeapYear Y <;> simp [hl] at h1 h2 hsucc ⊢ <;> omega

/-! ## The error of a computation on doubles -/

/-- The error of rounding is at most one part in `2 ^ 53` of the number, or
half the smallest positive double. -/
theorem roundDouble_abs_error (x : ℚ) :
    |roundDouble x - x| ≤ |x| / 2 ^ 53 + 1 / 2 ^ 1075 := by
  have h2 : (2 : ℚ) ≠ 0 := by norm_num
  by_cases hx : x = 0
  · subst hx
    rw [roundDouble_zero]
    norm_num
  · have hspec := floorLog2_spec x hx
    have herr := roundDouble_error x
    by_cases hk : -1074 ≤ floorLog2 x - 52
    · have he : ulpExponent x = floorLog2 x - 52 := max_eq_left hk
      have hpow : (2 : ℚ) ^ ulpExponent x / 2 = (2 : ℚ) ^ floorLog2 x / 2 ^ 53 := by
        rw [he, zpow_sub₀ h2]
        norm_num
        ring
      have h1 : (2 : ℚ) ^ floorLog2 x / 2 ^ 53 ≤ |x| / 2 ^ 53 :=
        div_le_div_of_nonneg_right hspec.1 (by positivity)
      have h3 : (0 : ℚ) ≤ 1 / 2 ^ 1075 := by positivity
      linarith
    · have he : ulpExponent x = -1074 := max_eq_right (by omega)
      have hpow : (2 : ℚ) ^ ulpExponent x / 2 = 1 / 2 ^ 1075 := by
        rw [he]
        norm_num
      have h3 : (0 : ℚ) ≤ |x| / 2 ^ 53 := by positivity
      linarith

/-- Rounding a number of magnitude at most `B`: the error and the magnitude
of the result. -/
theorem roundDouble_error_of_le {x B : ℚ} (h : |x| ≤ B) :
    |roundDouble x - x| ≤ B / 2 ^ 53 + 1 / 2 ^ 1075 ∧
      |roundDouble x| ≤ B + (B / 2 ^ 53 + 1 / 2 ^ 1075) := by
  have h1 := roundDouble_abs_error x
  have h2 : |x| / 2 ^ 53 ≤ B / 2 ^ 53 := div_le_div_of_nonneg_right h (by positivity)
  have h3 : |roundDouble x - x| ≤ B / 2 ^ 53 + 1 / 2 ^ 1075 := by linarith
  refine ⟨h3, ?_⟩
  have h4 : |roundDouble x| ≤ |roundDouble x - x| + |x| := by
    have := abs_add (roundDouble x - x) x
    simpa using this
  linarith

/-- The percentage `parseFloat(((s / l) * 100).toFixed(1))` of the doubles lies
within half a tenth, and one part in `10 ^ 9`, of `s / l * 100`, for
percentages up to a million. -/
theorem doublePercent_error {s l : ℚ} (hX : |s / l * 100| ≤ 10 ^ 6) :
    |roundDouble (toFixed1 (roundDouble (roundDouble (s / l) * 100))) - s / l * 100|
      ≤ 1 / 20 + 1 / 10 ^ 9 := by
  have hq : |s / l| ≤ 10 ^ 4 := by
    rw [abs_mul] at hX
    have : |(100 : ℚ)| = 100 := abs_of_pos (by norm_num)
    rw [this] at hX
    linarith
  obtain ⟨e1, b1⟩ := roundDouble_error_of_le hq
  have hq100 : |roundDouble (s / l) * 100|
      ≤ (10 ^ 4 + (10 ^ 4 / 2 ^ 53 + 1 / 2 ^ 1075)) * 100 := by
    rw [abs_mul, abs_of_pos (by norm_num : (0 : ℚ) < 100)]
    linarith
  obtain ⟨e2, b2⟩ := roundDouble_error_of_le hq100
  have e3 := (toFixed1_isRounded (roundDouble (roundDouble (s / l) * 100))).2
  have ht : |toFixed1 (roundDouble (roundDouble (s / l) * 100))|
      ≤ (10 ^ 4 + (10 ^ 4 / 2 ^ 53 + 1 / 2 ^ 1075)) * 100
        + ((10 ^ 4 + (10 ^ 4 / 2 ^ 53 + 1 / 2 ^ 1075)) * 100 / 2 ^ 53 + 1 / 2 ^ 1075)
        + 1 / 20 := by
    have := abs_add (toFixed1 (roundDouble (roundDouble (s / l) * 100))
      - roundDouble (roundDouble (s / l) * 100)) (roundDouble (roundDouble (s / l) * 100))
    simp only [sub_add_cancel] at this
    linarith
  obtain ⟨e4, _⟩ := roundDouble_error_of_le ht
  have hsum : roundDouble (toFixed1 (roundDouble (roundDouble (s / l) * 100))) - s / l * 100
      = (roundDouble (toFixed1 (roundDouble (roundDouble (s / l) * 100)))
          - toFixed1 (roundDouble (roundDouble (s / l) * 100)))
        + (toFixed1 (roundDouble (roundDouble (s / l) * 100))
          - roundDouble (roundDouble (s / l) * 100))
        + (roundDouble (roundDouble (s / l) * 100) - roundDouble (s / l) * 100)
        + (roundDouble (s / l) - s / l) * 100 := by ring
  rw [hsum]
  have t1 := abs_add ((roundDouble (toFixed1 (roundDouble (roundDouble (s / l) * 100)))
          - toFixed1 (roundDouble (roundDouble (s / l) * 100)))
        + (toFixed1 (roundDouble (roundDouble (s / l) * 100))
          - roundDouble (roundDouble (s / l) * 100))
        + (roundDouble (roundDouble (s / l) * 100) - roundDouble (s / l) * 100))
      ((roundDouble (s / l) - s / l) * 100)
  have t2 := abs_add ((roundDouble (toFixed1 (roundDouble (roundDouble (s / l) * 100)))
          - toFixed1 (roundDouble (roundDouble (s / l) * 100)))
        + (toFixed1 (roundDouble (roundDouble (s / l) * 100))
          - roundDouble (roundDouble (s / l) * 100)))
      (roundDouble (roundDouble (s / l) * 100) - roundDouble (s / l) * 100)
  have t3 := abs_add (roundDouble (toFixed1 (roundDouble (roundDouble (s / l) * 100)))
          - toFixed1 (roundDouble (roundDouble (s / l) * 100)))
      (toFixed1 (roundDouble (roundDouble (s / l) * 100))
          - roundDouble (roundDouble (s / l) * 100))
  have t4 : |(roundDouble (s / l) - s / l) * 100| = |roundDouble (s / l) - s / l| * 100 := by
    rw [abs_mul, abs_of_pos (by norm_num : (0 : ℚ) < 100)]
  have hnum : ((10 ^ 4 + (10 ^ 4 / 2 ^ 53 + 1 / 2 ^ 1075)) * 100
        + ((10 ^ 4 + (10 ^ 4 / 2 ^ 53 + 1 / 2 ^ 1075)) * 100 / 2 ^ 53 + 1 / 2 ^ 1075)
        + 1 / 20) / 2 ^ 53 + 1 / 2 ^ 1075
      + ((10 ^ 4 + (10 ^ 4 / 2 ^ 53 + 1 / 2 ^ 1075)) * 100 / 2 ^ 53 + 1 / 2 ^ 1075)
      + (10 ^ 4 / 2 ^ 53 + 1 / 2 ^ 1075) * 100 ≤ (1 : ℚ) / 10 ^ 9 := by norm_num
  linarith

/-- The progress `parseFloat(Math.min(100, (c / t) * 100).toFixed(2))` of the
doubles lies within half a hundredth, and one part in `10 ^ 9`, of
`min(100, c / t * 100)`. -/
theorem doubleProgress_error {c t : ℚ} (hc : 0 ≤ c) (ht : 0 < t) :
    |roundDouble (toFixed2 (min 100 (roundDouble (roundDouble (c / t) * 100))))
        - min 100 (c / t * 100)| ≤ 1 / 200 + 1 / 10 ^ 9 := by
  have hq0 : 0 ≤ c / t := div_nonneg hc (le_of_lt ht)
  have hp0 : 0 ≤ roundDouble (roundDouble (c / t) * 100) :=
    roundDouble_nonneg (mul_nonneg (roundDouble_nonneg hq0) (by norm_num))
  by_cases hq : c / t ≤ 10 ^ 4
  · have hqa : |c / t| ≤ 10 ^ 4 := by rwa [abs_of_nonneg hq0]
    obtain ⟨e1, b1⟩ := roundDouble_error_of_le hqa
    have hq100 : |roundDouble (c / t) * 100|
        ≤ (10 ^ 4 + (10 ^ 4 / 2 ^ 53 + 1 / 2 ^ 1075)) * 100 := by
      rw [abs_mul, abs_of_pos (by norm_num : (0 : ℚ) < 100)]
      linarith
    obtain ⟨e2, _⟩ := roundDouble_error_of_le hq100
    have hm0 : 0 ≤ min 100 (roundDouble (roundDouble (c / t) * 100)) :=
      le_min (by norm_num) hp0
    have hm100 : min 100 (roundDouble (roundDouble (c / t) * 100)) ≤ 100 := min_le_left _ _
    have e3 := (toFixed2_isRounded (min 100 (roundDouble (roundDouble (c / t) * 100)))).2
    obtain ⟨hf0, hf100⟩ := toFixed2_bounds hm0 hm100
    have hta : |toFixed2 (min 100 (roundDouble (roundDouble (c / t) * 100)))| ≤ 100 := by
      rwa [abs_of_nonneg hf0]
    obtain ⟨e4, _⟩ := roundDouble_error_of_le hta
    have hmin : |min 100 (roundDouble (roundDouble (c / t) * 100)) - min 100 (c / t * 100)|
        ≤ |roundDouble (roundDouble (c / t) * 100) - c / t * 100| := by
      have := abs_min_sub_min_le_max (100 : ℚ) (roundDouble (roundDouble (c / t) * 100)) 100
        (c / t * 100)
      simpa using this
    have hpx : |roundDouble (roundDouble (c / t) * 100) - c / t * 100|
        ≤ ((10 ^ 4 + (10 ^ 4 / 2 ^ 53 + 1 / 2 ^ 1075)) * 100 / 2 ^ 53 + 1 / 2 ^ 1075)
          + (10 ^ 4 / 2 ^ 53 + 1 / 2 ^ 1075) * 100 := by
      have hs : roundDouble (roundDouble (c / t) * 100) - c / t * 100
          = (roundDouble (roundDouble (c / t) * 100) - roundDouble (c / t) * 100)
            + (roundDouble (c / t) - c / t) * 100 := by ring
      rw [hs]
      have t1 := abs_add (roundDouble (roundDouble (c / t) * 100) - roundDouble (c / t) * 100)
        ((roundDouble (c / t) - c / t) * 100)
      have t4 : |(roundDouble (c / t) - c / t) * 100| = |roundDouble (c / t) - c / t| * 100 := by
        rw [abs_mul, abs_of_pos (by norm_num : (0 : ℚ) < 100)]
      linarith
    have hs : roundDouble (toFixed2 (min 100 (roundDouble (roundDouble (c / t) * 100))))
          - min 100 (c / t * 100)
        = (roundDouble (toFixed2 (min 100 (roundDouble (roundDouble (c / t) * 100))))
            - toFixed2 (min 100 (roundDouble (roundDouble (c / t) * 100))))
          + (toFixed2 (min 100 (roundDouble (roundDouble (c / t) * 100)))
            - min 100 (roundDouble (roundDouble (c / t) * 100)))
          + (min 100 (roundDouble (roundDouble (c / t) * 100)) - min 100 (c / t * 100)) := by
      ring
    rw [hs]
    have t1 := abs_add ((roundDouble (toFixed2 (min 100 (roundDouble (roundDouble (c / t) * 100))))
            - toFixed2 (min 100 (roundDouble (roundDouble (c / t) * 100))))
          + (toFixed2 (min 100 (roundDouble (roundDouble (c / t) * 100)))
            - min 100 (roundDouble (roundDouble (c / t) * 100))))
        (min 100 (roundDouble (roundDouble (c / t) * 100)) - min 100 (c / t * 100))
    have t2 := abs_add (roundDouble (toFixed2 (min 100 (roundDouble (roundDouble (c / t) * 100))))
            - toFixed2 (min 100 (roundDouble (roundDouble (c / t) * 100))))
        (toFixed2 (min 100 (roundDouble (roundDouble (c / t) * 100)))
            - min 100 (roundDouble (roundDouble (c / t) * 100)))
    have hnum : (100 : ℚ) / 2 ^ 53 + 1 / 2 ^ 1075
        + (((10 ^ 4 + (10 ^ 4 / 2 ^ 53 + 1 / 2 ^ 1075)) * 100 / 2 ^ 53 + 1 / 2 ^ 1075)
          + (10 ^ 4 / 2 ^ 53 + 1 / 2 ^ 1075) * 100) ≤ 1 / 10 ^ 9 := by norm_num
    linarith
  · have hq' : (10 : ℚ) ^ 4 ≤ c / t := le_of_lt (not_le.1 hq)
    have hd4 : IsDouble ((10 : ℚ) ^ 4) := by
      have := isDouble_intCast (10 ^ 4) (by norm_num)
      simpa using this
    have hd6 : IsDouble ((10 : ℚ) ^ 6) := by
      have := isDouble_intCast (10 ^ 6) (by norm_num)
      simpa using this
    have h1 : (10 : ℚ) ^ 4 ≤ roundDouble (c / t) := le_roundDouble hd4 hq'
    have h2 : (10 : ℚ) ^ 6 ≤ roundDouble (roundDouble (c / t) * 100) :=
      le_roundDouble hd6 (by linarith)
    have hm1 : min 100 (roundDouble (roundDouble (c / t) * 100)) = 100 :=
      min_eq_left (by linarith)
    have hm2 : min 100 (c / t * 100) = 100 := min_eq_left (by linarith)
    have h100 : roundDouble (toFixed2 100) = 100 := by decide!
    rw [hm1, hm2, h100, sub_self, abs_zero]
    norm_num

/-! ## Entries of `listBudgets` on doubles (C5, C8) -/

/-- Every entry `listBudgetsDouble` returns is the enrichment of one of the
budgets its query selected. -/
theorem listBudgetsDouble_entry {z : Zone} {cats : List Category} {budgets : List Budget}
    {txs : List Transaction} {userId status : Nat} {entries : List BudgetEntry}
    (h : listBudgetsDouble z cats budgets txs userId
      = some (ListBudgetsResponse.budgets status entries))
    {e : BudgetEntry} (he : e ∈ entries) :
    ∃ b ∈ findActiveBudgets budgets userId,
      enrichBudgetDouble z txs userId (populate cats b) = some e := by
  unfold listBudgetsDouble at h
  simp only [] at h
  split at h
  · simp at h
  · split at h
    · simp at h
    · rename_i enriched henr
      simp only [Option.some.injEq, ListBudgetsResponse.budgets.injEq] at h
      obtain ⟨_, rfl⟩ := h
      obtain ⟨pb, hpb, hpe⟩ := allSome_mem _ _ _ henr e he
      obtain ⟨b, hb, rfl⟩ := List.mem_map.1 hpb
      exact ⟨b, hb, hpe⟩

/-- For a month that has a window, `spentInPeriod` on doubles returns a value. -/
theorem spentInPeriodDouble_isSome {z : Zone} {month : String}
    (h : (spentInPeriodWindow z month Anchor.absent).isSome = true) (txs : List Transaction)
    (userId catId : Nat) (anchor : Anchor) :
    ∃ v, spentInPeriodDouble z txs userId catId month anchor = some v := by
  obtain ⟨w, hw⟩ := Option.isSome_iff_exists.1 (spentInPeriodWindow_isSome h anchor)
  unfold spentInPeriodDouble
  rw [hw]
  simp only []
  split
  · exact ⟨_, rfl⟩
  · exact ⟨_, rfl⟩

/-- The value `spentInPeriod` returns on doubles is a double. -/
theorem spentInPeriodDouble_isDouble {z : Zone} {txs : List Transaction} {userId catId : Nat}
    {month : String} {anchor : Anchor} {v : ℚ}
    (h : spentInPeriodDouble z txs userId catId month anchor = some v) : IsDouble v := by
  unfold spentInPeriodDouble at h
  split at h
  · simp at h
  · rename_i start finish _
    unfold aggregateSpendDouble at h
    cases hf : txs.filter (matchesSpend userId catId start finish) with
    | nil =>
      rw [hf] at h
      simp only [Option.some.injEq] at h
      rw [← h]
      exact isDouble_zero
    | cons m ms =>
      rw [hf] at h
      simp only [Option.some.injEq] at h
      rw [← h]
      exact isDouble_roundDouble _

/-- The shape of an entry produced by the callback on doubles. -/
theorem enrichBudgetDouble_eq_some {z : Zone} {txs : List Transaction} {userId : Nat}
    {b : PopulatedBudget} {e : BudgetEntry} (h : enrichBudgetDouble z txs userId b = some e) :
    ∃ cat, b.category_id = some cat ∧
      spentInPeriodDouble z txs userId cat._id b.month (Anchor.instant b.createdAt)
        = some e.spent ∧
      e._id = b._id ∧ e.limit = roundDouble b.limit ∧
      e.available = roundDouble (e.limit - e.spent) ∧
      e.percentUsed = (if e.limit ≠ 0 then
          roundDouble (toFixed1 (roundDouble (roundDouble (e.spent / e.limit) * 100)))
        else 0) := by
  unfold enrichBudgetDouble at h
  split at h
  · simp at h
  · rename_i cat hcat
    split at h
    · simp at h
    · rename_i spent hspent
      simp only [Option.some.injEq] at h
      subst h
      exact ⟨cat, hcat, hspent, rfl, rfl, rfl, rfl⟩

/-- The listing of a budget of 80 with 23 spent, on doubles. -/
theorem tie_listBudgetsDouble :
    listBudgetsDouble Zone.UTC scenarioCategories (juneBudget 80 80) (juneExpense 23) 7
      = some (ListBudgetsResponse.budgets 200 [tieEntry]) := by
  decide!

/-- The listing of a budget of 80 with 100 spent, on doubles. -/
theorem overspent_listBudgetsDouble :
    listBudgetsDouble Zone.UTC scenarioCategories (juneBudget 80 80) (juneExpense 100) 7
      = some (ListBudgetsResponse.budgets 200 [overspentEntry]) := by
  decide!

/-- The listing of a budget of 1000.1 with 0.3 spent, on doubles. -/
theorem uneven_listBudgetsDouble :
    listBudgetsDouble Zone.UTC scenarioCategories (juneBudget (10001 / 10) 80)
        (juneExpense (3 / 10)) 7
      = some (ListBudgetsResponse.budgets 200 [unevenEntry]) := by
  decide!

/-- C5, as the code has it: in every entry `listBudgets` returns, with `limit`
the double read from the budget's limit and `spent` the value of
`spentInPeriod` anchored at the budget's creation, `percentUsed` is what
`parseFloat` reads from `((spent / limit) * 100).toFixed(1)` when the limit is
not zero: the quotient and the product are each rounded to the nearest double,
and that product is rounded to one decimal place; it is `0` when the limit is
zero; and for percentages up to a million it lies within half a tenth, and one
part in `10 ^ 9`, of `spent / limit * 100`. -/
theorem listBudgetsDouble_percentUsed (z : Zone) (cats : List Category)
    (budgets : List Budget) (txs : List Transaction) (userId status : Nat)
    (entries : List BudgetEntry)
    (h : listBudgetsDouble z cats budgets txs userId
      = some (ListBudgetsResponse.budgets status entries))
    (e : BudgetEntry) (he : e ∈ entries) :
    (∃ b ∈ budgets, e._id = b._id ∧ e.limit = roundDouble b.limit ∧
      spentInPeriodDouble z txs userId b.category_id b.month (Anchor.instant b.createdAt)
        = some e.spent) ∧
    (e.limit ≠ 0 → e.percentUsed
      = roundDouble (toFixed1 (roundDouble (roundDouble (e.spent / e.limit) * 100)))) ∧
    (e.limit ≠ 0 → IsRoundedToOneDecimal (roundDouble (roundDouble (e.spent / e.limit) * 100))
      (toFixed1 (roundDouble (roundDouble (e.spent / e.limit) * 100)))) ∧
    (e.limit = 0 → e.percentUsed = 0) ∧
    (e.limit ≠ 0 → |e.spent / e.limit * 100| ≤ 10 ^ 6 →
      |e.percentUsed - e.spent / e.limit * 100| ≤ 1 / 20 + 1 / 10 ^ 9) := by
  obtain ⟨b, hbmem, hb⟩ := listBudgetsDouble_entry h he
  obtain ⟨cat, hcat, hspent, hid, hlim, _, hpct⟩ := enrichBudgetDouble_eq_some hb
  have hb2 : b ∈ budgets := (mem_findActiveBudgets hbmem).1
  have hcid : cat._id = b.category_id := by
    have := List.find?_some hcat
    simpa using this
  refine ⟨⟨b, hb2, hid, hlim, ?_⟩, ?_, ?_, ?_, ?_⟩
  · rw [← hcid]
    exact hspent
  · intro hl
    rw [hpct, if_pos hl]
  · intro _
    exact toFixed1_isRounded _
  · intro hl
    rw [hpct, if_neg (not_not.2 hl)]
  · intro hl hX
    rw [hpct, if_pos hl]
    exact doublePercent_error hX

/-- Witness of C5: the entry of the budget of 80 with 23 spent. -/
theorem listBudgetsDouble_percentUsed_witness :
    tieEntry.limit ≠ 0 ∧
    tieEntry.percentUsed = roundDouble (toFixed1
      (roundDouble (roundDouble (tieEntry.spent / tieEntry.limit) * 100))) :=
  ⟨by decide!,
    (listBudgetsDouble_percentUsed Zone.UTC scenarioCategories (juneBudget 80 80)
      (juneExpense 23) 7 200 [tieEntry] tie_listBudgetsDouble tieEntry
      (List.mem_singleton.2 rfl)).2.1 (by decide!)⟩

/-- Counterexample to C5 as stated: for a limit of 80 and 23 spent,
`spent / limit * 100` is 28.75, which rounded to one decimal place is 28.8;
the product the code computes is the double just below 28.75, and the entry
reports 28.7 (the double nearest to it), more than half a tenth away from
28.75. -/
theorem listBudgets_percentUsed_below_tie :
    listBudgetsDouble Zone.UTC scenarioCategories (juneBudget 80 80) (juneExpense 23) 7
      = some (ListBudgetsResponse.budgets 200 [tieEntry]) ∧
    tieEntry.limit = 80 ∧ tieEntry.spent = 23 ∧
    tieEntry.spent / tieEntry.limit * 100 = 115 / 4 ∧
    toFixed1 (tieEntry.spent / tieEntry.limit * 100) = 288 / 10 ∧
    roundDouble (roundDouble (tieEntry.spent / tieEntry.limit) * 100) < 115 / 4 ∧
    tieEntry.percentUsed = roundDouble (287 / 10) ∧
    tieEntry.percentUsed ≠ toFixed1 (tieEntry.spent / tieEntry.limit * 100) ∧
    ¬ IsRoundedToOneDecimal (tieEntry.spent / tieEntry.limit * 100) tieEntry.percentUsed := by
  refine ⟨by decide!, by decide!, by decide!, by decide!, by decide!, by decide!, by decide!,
    by decide!, ?_⟩
  intro hr
  have h1 : |tieEntry.percentUsed - tieEntry.spent / tieEntry.limit * 100| ≤ 1 / 20 := hr.2
  have h2 : ¬ |tieEntry.percentUsed - tieEntry.spent / tieEntry.limit * 100| ≤ 1 / 20 := by
    decide!
  exact h2 h1

/-- C8, as the code has it: in every entry `listBudgets` returns, `available`
is `limit - spent` as the subtraction of doubles gives it: the double nearest
to the exact difference, no further from it than one part in `2 ^ 53`, and
equal to it (so that `available + spent = limit`) when that difference is a
double itself; it is negative, not clamped to `0`, when `spent` exceeds the
limit. -/
theorem listBudgetsDouble_available (z : Zone) (cats : List Category)
    (budgets : List Budget) (txs : List Transaction) (userId status : Nat)
    (entries : List BudgetEntry)
    (h : listBudgetsDouble z cats budgets txs userId
      = some (ListBudgetsResponse.budgets status entries))
    (e : BudgetEntry) (he : e ∈ entries) :
    e.available = roundDouble (e.limit - e.spent) ∧
    |e.available - (e.limit - e.spent)| ≤ |e.limit - e.spent| / 2 ^ 53 ∧
    (IsDouble (e.limit - e.spent) → e.available + e.spent = e.limit) ∧
    (e.limit < e.spent → e.available < 0) := by
  obtain ⟨b, _, hb⟩ := listBudgetsDouble_entry h he
  obtain ⟨cat, _, hspent, _, hlim, havail, _⟩ := enrichBudgetDouble_eq_some hb
  have hdl : IsDouble e.limit := by
    rw [hlim]
    exact isDouble_roundDouble _
  have hds : IsDouble e.spent := spentInPeriodDouble_isDouble hspent
  refine ⟨havail, ?_, ?_, ?_⟩
  · rw [havail]
    apply roundDouble_rel_error
    obtain ⟨j1, h1⟩ := isDouble_grid hdl
    obtain ⟨j2, h2⟩ := isDouble_grid hds
    exact ⟨j1 - j2, by rw [h1, h2]; push_cast; ring⟩
  · intro hd
    rw [havail, roundDouble_of_isDouble hd]
    ring
  · intro hlt
    rw [havail]
    exact roundDouble_sub_neg hdl hds hlt

/-- Witness of C8: the entry of the budget of 1000.1 with 0.3 spent, and the
entry of the budget of 80 with 100 spent, whose available amount is negative. -/
theorem listBudgetsDouble_available_witness :
    unevenEntry.available = roundDouble (unevenEntry.limit - unevenEntry.spent) ∧
    |unevenEntry.available - (unevenEntry.limit - unevenEntry.spent)|
      ≤ |unevenEntry.limit - unevenEntry.spent| / 2 ^ 53 ∧
    overspentEntry.limit < overspentEntry.spent ∧ overspentEntry.available < 0 :=
  ⟨(listBudgetsDouble_available Zone.UTC scenarioCategories (juneBudget (10001 / 10) 80)
      (juneExpense (3 / 10)) 7 200 [unevenEntry] uneven_listBudgetsDouble unevenEntry
      (List.mem_singleton.2 rfl)).1,
    (listBudgetsDouble_available Zone.UTC scenarioCategories (juneBudget (10001 / 10) 80)
      (juneExpense (3 / 10)) 7 200 [unevenEntry] uneven_listBudgetsDouble unevenEntry
      (List.mem_singleton.2 rfl)).2.1,
    by decide!,
    (listBudgetsDouble_available Zone.UTC scenarioCategories (juneBudget 80 80)
      (juneExpense 100) 7 200 [overspentEntry] overspent_listBudgetsDouble overspentEntry
      (List.mem_singleton.2 rfl)).2.2.2 (by decide!)⟩

/-- Counterexample to C8 as stated: for a limit of 1000.1 and 0.3 spent the
entry reports the limit and the spent amount as the doubles nearest to them
and `available` as 999.8000000000001, the double nearest to their difference,
which is not that difference: `available + spent` is not the limit. -/
theorem listBudgets_available_not_exact :
    listBudgetsDouble Zone.UTC scenarioCategories (juneBudget (10001 / 10) 80)
        (juneExpense (3 / 10)) 7
      = some (ListBudgetsResponse.budgets 200 [unevenEntry]) ∧
    unevenEntry.limit = roundDouble (10001 / 10) ∧
    unevenEntry.spent = roundDouble (3 / 10) ∧
    unevenEntry.available = roundDouble (9998000000000001 / 10000000000000) ∧
    unevenEntry.available ≠ unevenEntry.limit - unevenEntry.spent ∧
    unevenEntry.available + unevenEntry.spent ≠ unevenEntry.limit ∧
    unevenEntry.available ≠ roundDouble (10001 / 10 - 3 / 10) := by
  refine ⟨by decide!, by decide!, by decide!, by decide!, by decide!, by decide!, by decide!⟩

/-! ## The threshold notifier on doubles (C12) -/

/-- C12, as the code has it: when no lookup raises, `checkBudgetAlert`
completes normally and makes at most one call of `sendMail`; it makes one
exactly when an active, non-deleted budget exists for (user, category, month),
the percentage `(spent / limit) * 100` as the doubles give it (the limit and
the total read as doubles, the quotient and the product each rounded to the
nearest double; `0` for a limit of `0`), with `spent` counted from the
budget's creation, is at least the threshold, and the user exists and has a
non-empty email address, to which the mail is addressed; in every other case
no call is made. -/
theorem checkBudgetAlertDouble_sends_iff (z : Zone) (budgets : List Budget)
    (cats : List Category)
    (txs : List Transaction) (users : List User) (faults : AlertFaults)
    (userId categoryId : Nat) (month : String)
    (hb : faults.budgetLookup = false) (ha : faults.aggregation = false)
    (hu : faults.userLookup = false)
    (hwin : (spentInPeriodWindow z month Anchor.absent).isSome = true) :
    ∃ r, checkBudgetAlertDouble z budgets cats txs users faults userId categoryId month
        = some r ∧
      r.thrown = none ∧
      (r.sendMailCalls.length = 1 ↔
        ∃ b spent user email,
          budgets.find? (matchesAlert userId categoryId month) = some b ∧
          spentInPeriodDouble z txs userId categoryId month (Anchor.instant b.createdAt)
            = some spent ∧
          b.threshold ≤ (if roundDouble b.limit ≠ 0 then
            roundDouble (roundDouble (roundDouble spent / roundDouble b.limit) * 100) else 0) ∧
          users.find? (fun u => u._id == userId) = some user ∧
          user.email = some email ∧ email ≠ "" ∧
          ∀ m ∈ r.sendMailCalls, m.toAddress = email) ∧
      (r.sendMailCalls.length ≠ 1 → r.sendMailCalls = [] ∧ r.delivered = []) := by
  cases hfind : budgets.find? (matchesAlert userId categoryId month) with
  | none =>
    refine ⟨{ thrown := none, sendMailCalls := [], delivered := [] }, ?_, rfl, ?_, ?_⟩
    · simp [checkBudgetAlertDouble, checkBudgetAlertTryDouble, hb, hfind]
    · simp
    · simp
  | some b =>
    obtain ⟨spent, hsp⟩ := spentInPeriodDouble_isSome hwin txs userId categoryId
      (Anchor.instant b.createdAt)
    have hnorm : (if roundDouble b.limit ≠ 0 then
          roundDouble (roundDouble (roundDouble spent / roundDouble b.limit) * 100) else 0)
        = (if roundDouble b.limit = 0 then 0
          else roundDouble (roundDouble (roundDouble spent / roundDouble b.limit) * 100)) := by
      split_ifs <;> simp_all
    by_cases hpct : b.threshold ≤ (if roundDouble b.limit ≠ 0 then
            roundDouble (roundDouble (roundDouble spent / roundDouble b.limit) * 100) else 0)
    · have hpct2 := hpct
      rw [hnorm] at hpct2
      cases hfu : users.find? (fun u => u._id == userId) with
      | none =>
        refine ⟨{ thrown := none, sendMailCalls := [], delivered := [] }, ?_, rfl, ?_, ?_⟩
        · simp [checkBudgetAlertDouble, checkBudgetAlertTryDouble, hb, ha, hu, hfind, hsp,
            populate, hfu, hpct]
        · simp
        · simp
      | some user =>
        cases hem : user.email with
        | none =>
          refine ⟨{ thrown := none, sendMailCalls := [], delivered := [] }, ?_, rfl, ?_, ?_⟩
          · simp [checkBudgetAlertDouble, checkBudgetAlertTryDouble, hb, ha, hu, hfind, hsp,
              populate, hfu, hpct, hem]
          · simp [hem]
          · simp
        | some email =>
          by_cases hempty : email = ""
          · refine ⟨{ thrown := none, sendMailCalls := [], delivered := [] }, ?_, rfl, ?_, ?_⟩
            · simp [checkBudgetAlertDouble, checkBudgetAlertTryDouble, hb, ha, hu, hfind, hsp,
                populate, hfu, hpct, hem, hempty]
            · simp only [List.length_nil, zero_ne_one, false_iff]
              rintro ⟨b', spent', user', email', _, _, _, hu', he', hne, _⟩
              rw [Option.some.injEq] at hu'
              subst hu'
              rw [hem, Option.some.injEq] at he'
              exact hne (he' ▸ hempty)
            · simp
          · refine ⟨AlertRun.mk none
              [alertMail email (populate cats b).category_id month
                (if roundDouble b.limit ≠ 0 then
                  roundDouble (roundDouble (roundDouble spent / roundDouble b.limit) * 100)
                else 0)
                (roundDouble b.limit) (roundDouble spent)]
              (if faults.sendMail then [] else
                [alertMail email (populate cats b).category_id month
                  (if roundDouble b.limit ≠ 0 then
                    roundDouble (roundDouble (roundDouble spent / roundDouble b.limit) * 100)
                  else 0)
                  (roundDouble b.limit) (roundDouble spent)]),
              ?_, rfl, ?_, ?_⟩
            · simp [checkBudgetAlertDouble, checkBudgetAlertTryDouble, hb, ha, hu, hfind, hsp,
                populate, hfu, hpct2, hem, hempty]
            · simp only [List.length_singleton, true_iff]
              exact ⟨b, spent, user, email, rfl, hsp, hpct, rfl, hem, hempty, by simp [alertMail]⟩
            · simp
    · have hpct2 := hpct
      rw [hnorm] at hpct2
      refine ⟨{ thrown := none, sendMailCalls := [], delivered := [] }, ?_, rfl, ?_, ?_⟩
      · simp [checkBudgetAlertDouble, checkBudgetAlertTryDouble, hb, ha, hfind, hsp, populate, hpct2]
      · simp only [List.length_nil, zero_ne_one, false_iff]
        rintro ⟨b', spent', user', email', hb', hs', hp', _⟩
        rw [Option.some.injEq] at hb'
        subst hb'
        rw [hsp, Option.some.injEq] at hs'
        subst hs'
        exact hpct hp'
      · simp

/-- Witness of C12: in the scenario one mail, that of the scenario, goes to
the user's address. -/
theorem checkBudgetAlertDouble_sends_iff_witness :
    ∃ r, checkBudgetAlertDouble Zone.UTC scenarioBudgets scenarioCategories
        scenarioTransactions scenarioUsers AlertFaults.none 7 3 "2024-06" = some r ∧
      r.thrown = none ∧ r.sendMailCalls = [scenarioMail] := by
  obtain ⟨r, hr, hth, _, _⟩ := checkBudgetAlertDouble_sends_iff Zone.UTC scenarioBudgets
    scenarioCategories scenarioTransactions scenarioUsers AlertFaults.none 7 3 "2024-06"
    rfl rfl rfl (by decide)
  refine ⟨r, hr, hth, ?_⟩
  have heval : checkBudgetAlertDouble Zone.UTC scenarioBudgets scenarioCategories
      scenarioTransactions scenarioUsers AlertFaults.none 7 3 "2024-06"
      = some (AlertRun.mk none [scenarioMail] [scenarioMail]) := by decide!
  rw [heval, Option.some.injEq] at hr
  rw [← hr]

/-- Counterexample to C12 as stated: a budget of 100 with threshold 58 and 58
spent.  `spent / limit * 100` is 58, which reaches the threshold, the budget is
active and the user has an address; but `58 / 100` is rounded to a double
whose product with 100 is the double below 58, and no mail is sent. -/
theorem checkBudgetAlert_misses_threshold :
    (juneBudget 100 58).find? (matchesAlert 7 3 "2024-06")
      = some (Budget.mk 1 7 3 "2024-06" 100 58 true false scenarioCreatedAt
          scenarioCreatedAt) ∧
    spentInPeriodDouble Zone.UTC (juneExpense 58) 7 3 "2024-06"
        (Anchor.instant scenarioCreatedAt) = some 58 ∧
    (58 : ℚ) ≤ 58 / 100 * 100 ∧
    scenarioUsers.find? (fun u => u._id == 7)
      = some (User.mk 7 (some "ana@example.com") true) ∧
    roundDouble (roundDouble (58 / 100) * 100) < 58 ∧
    checkBudgetAlertDouble Zone.UTC (juneBudget 100 58) scenarioCategories (juneExpense 58)
        scenarioUsers AlertFaults.none 7 3 "2024-06"
      = some (AlertRun.mk none [] []) := by
  refine ⟨by decide!, by decide!, by decide!, by decide!, by decide!, by decide!⟩

/-! ## Progress of a goal on doubles (C20) -/

/-- C20, as the code has it: every entry of `getUserGoals` belongs to a
non-deleted goal of the caller; with `target` and `current` the doubles read
from the goal, its `progress` is what `parseFloat` reads from
`Math.min(100, (current / target) * 100).toFixed(2)`, the quotient and the
product each rounded to the nearest double and the smaller of 100 and that
product rounded to two decimal places, and it is `0` when the target is `0`;
so `0 ≤ progress ≤ 100` for every goal whose current amount and target are not
negative, and for a positive target the progress lies within half a
hundredth, and one part in `10 ^ 9`, of `min(100, current / target * 100)`. -/
theorem getUserGoalsDouble_progress (z : Zone) (now : Int) (goals : List SavingsGoal)
    (userId : Nat) (e : GoalEntry) (he : e ∈ getUserGoalsDouble z now goals userId) :
    ∃ g ∈ goals, g.user_id = userId ∧ g.isDeleted = false ∧ e._id = g._id ∧
      e.target_amount = roundDouble g.target_amount ∧
      e.current_amount = roundDouble g.current_amount ∧
      (e.target_amount ≠ 0 →
        e.progress = roundDouble (toFixed2 (min 100
          (roundDouble (roundDouble (e.current_amount / e.target_amount) * 100)))) ∧
        IsRoundedToTwoDecimals
          (min 100 (roundDouble (roundDouble (e.current_amount / e.target_amount) * 100)))
          (toFixed2 (min 100
            (roundDouble (roundDouble (e.current_amount / e.target_amount) * 100))))) ∧
      (e.target_amount = 0 → e.progress = 0) ∧
      (0 ≤ g.current_amount → 0 ≤ g.target_amount → 0 ≤ e.progress ∧ e.progress ≤ 100) ∧
      (0 ≤ e.current_amount → 0 < e.target_amount →
        |e.progress - min 100 (e.current_amount / e.target_amount * 100)|
          ≤ 1 / 200 + 1 / 10 ^ 9) := by
  unfold getUserGoalsDouble at he
  obtain ⟨g, hg, rfl⟩ := List.mem_map.1 he
  rw [List.mem_filter] at hg
  obtain ⟨hmem, hp⟩ := hg
  simp only [Bool.and_eq_true, beq_iff_eq, Bool.not_eq_true'] at hp
  have hzero : roundDouble (toFixed2 0) = 0 := by decide!
  have h100 : IsDouble (100 : ℚ) := by
    have := isDouble_intCast 100 (by norm_num)
    simpa using this
  have hprog : (enrichGoalDouble z now g).progress
      = roundDouble (toFixed2 (if roundDouble g.target_amount ≠ 0 then
          min 100 (roundDouble
            (roundDouble (roundDouble g.current_amount / roundDouble g.target_amount) * 100))
        else 0)) := rfl
  refine ⟨g, hmem, hp.1, hp.2, rfl, rfl, rfl, ?_, ?_, ?_, ?_⟩
  · intro ht
    have ht2 : roundDouble g.target_amount ≠ 0 := ht
    rw [hprog, if_pos ht2]
    exact ⟨rfl, toFixed2_isRounded _⟩
  · intro ht
    have ht2 : roundDouble g.target_amount = 0 := ht
    rw [hprog, if_neg (not_not.2 ht2)]
    exact hzero
  · intro hc ht
    rw [hprog]
    have hb : 0 ≤ (if roundDouble g.target_amount ≠ 0 then
          min 100 (roundDouble
            (roundDouble (roundDouble g.current_amount / roundDouble g.target_amount) * 100))
        else 0) ∧
        (if roundDouble g.target_amount ≠ 0 then
          min 100 (roundDouble
            (roundDouble (roundDouble g.current_amount / roundDouble g.target_amount) * 100))
        else 0) ≤ 100 := by
      split_ifs with h0
      · refine ⟨le_min (by norm_num) ?_, min_le_left _ _⟩
        apply roundDouble_nonneg
        apply mul_nonneg _ (by norm_num)
        apply roundDouble_nonneg
        exact div_nonneg (roundDouble_nonneg hc) (roundDouble_nonneg ht)
      · exact ⟨le_refl _, by norm_num⟩
    obtain ⟨hf0, hf100⟩ := toFixed2_bounds hb.1 hb.2
    exact ⟨roundDouble_nonneg hf0, roundDouble_le h100 hf100⟩
  · intro hc ht
    have hc2 : 0 ≤ roundDouble g.current_amount := hc
    have ht2 : 0 < roundDouble g.target_amount := ht
    rw [hprog, if_pos (ne_of_gt ht2)]
    exact doubleProgress_error hc2 ht2

/-- Witness of C20: the goal with 1 of 3 saved is reported at 33.33, the
double nearest to it. -/
theorem getUserGoalsDouble_progress_witness :
    (enrichGoalDouble Zone.UTC 1718031600000 thirdGoal).progress = roundDouble (3333 / 100) ∧
    ∃ g ∈ [thirdGoal],
      (0 ≤ g.current_amount → 0 ≤ g.target_amount →
        0 ≤ (enrichGoalDouble Zone.UTC 1718031600000 thirdGoal).progress
          ∧ (enrichGoalDouble Zone.UTC 1718031600000 thirdGoal).progress ≤ 100) :=
  ⟨by decide!,
    (getUserGoalsDouble_progress Zone.UTC 1718031600000 [thirdGoal] 7
      (enrichGoalDouble Zone.UTC 1718031600000 thirdGoal) (by decide!)).imp
      (fun _ h => ⟨h.1, h.2.2.2.2.2.2.2.2.1⟩)⟩

/-- Counterexample to C20 as stated: for the goal with 1 of 3 saved the
reported progress is 33.33 (the double nearest to it), which is not
`min(100, 1 / 3 * 100)`; and for the goal with 2.01 of 200 saved, where
`current / target * 100` is 1.005, the product of the doubles lies below 1.005
and the reported progress is 1, not 1.01. -/
theorem reported_progress_not_exact :
    (getUserGoalsDouble Zone.UTC 1718031600000 [thirdGoal] 7).map GoalEntry.progress
        = [roundDouble (3333 / 100)] ∧
    roundDouble (3333 / 100) ≠ min 100 (thirdGoal.current_amount / thirdGoal.target_amount * 100)
      ∧
    (getUserGoalsDouble Zone.UTC 1718031600000 [pennyGoal] 7).map GoalEntry.progress = [1] ∧
    min 100 (pennyGoal.current_amount / pennyGoal.target_amount * 100) = 201 / 200 ∧
    toFixed2 (min 100 (pennyGoal.current_amount / pennyGoal.target_amount * 100))
      = 101 / 100 := by
  refine ⟨by decide!, by decide!, by decide!, by decide!, by decide!⟩

/-! ## The monthly quota on doubles (C18) -/

/-- The calendar fields of an instant that lies in month `m` of year `y` on
the local clock. -/
theorem fields_of_inLocalMonth {z : Zone} {t y m : Int} (hm : 1 ≤ m ∧ m ≤ 12)
    (h : InLocalMonth z t y m) : getFullYear z t = y ∧ getMonth z t = m - 1 := by
  obtain ⟨h1, h2⟩ := h
  have hd1 : makeDay y (m - 1) 1 ≤ dayOf (z.localTime t) := by
    unfold dayOf
    simp only [msPerDay] at h1 ⊢
    omega
  have hd2 : dayOf (z.localTime t) < makeDay y m 1 := by
    unfold dayOf
    simp only [msPerDay] at h2 ⊢
    omega
  exact monthFromDay_eq _ y m hm hd1 hd2

/-- C18, as the code has it: with `now` in month `m1` of year `y1` and the due
date in month `m2` of year `y2` (on the local clock), so that the due date
lies `N = (y2 - y1) * 12 + (m2 - m1)` calendar months after the current
month, `getMonthlyQuota(target, current, due)` is the remaining amount
`target - current`, as the subtraction of doubles gives it, when `N ≤ 0` (the
due date lies in the current month or in an earlier one), and that remaining
amount divided by `N + 1`, the quotient rounded to the nearest double, when
`N ≥ 1`; for a target and a current amount that are doubles the quota is no
further from `(target - current) / (max(0, N) + 1)` than one part in `2 ^ 51`
of the remaining amount (and half the smallest positive double). -/
theorem getMonthlyQuotaDouble_by_months (z : Zone) (now dueDate : Int) (target current : ℚ)
    (y1 m1 y2 m2 : Int) (hm1 : 1 ≤ m1 ∧ m1 ≤ 12) (hm2 : 1 ≤ m2 ∧ m2 ≤ 12)
    (hnow : InLocalMonth z now y1 m1) (hdue : InLocalMonth z dueDate y2 m2) :
    ((y2 - y1) * 12 + (m2 - m1) ≤ 0 →
      getMonthlyQuotaDouble z now target current dueDate = roundDouble (target - current)) ∧
    (1 ≤ (y2 - y1) * 12 + (m2 - m1) →
      getMonthlyQuotaDouble z now target current dueDate
        = roundDouble (roundDouble (target - current)
            / ((((y2 - y1) * 12 + (m2 - m1) : Int) : ℚ) + 1))) ∧
    (IsDouble target → IsDouble current →
      |getMonthlyQuotaDouble z now target current dueDate
          - (target - current) / (((max 0 ((y2 - y1) * 12 + (m2 - m1)) : Int) : ℚ) + 1)|
        ≤ |target - current| / 2 ^ 51 + 1 / 2 ^ 1075) := by
  obtain ⟨hy1, hmo1⟩ := fields_of_inLocalMonth hm1 hnow
  obtain ⟨hy2, hmo2⟩ := fields_of_inLocalMonth hm2 hdue
  have hdiff : (getFullYear z dueDate - getFullYear z now) * 12
      + (getMonth z dueDate - getMonth z now) = (y2 - y1) * 12 + (m2 - m1) := by
    rw [hy1, hy2, hmo1, hmo2]
    ring
  unfold getMonthlyQuotaDouble
  simp only [hdiff]
  refine ⟨?_, ?_, ?_⟩
  · intro hN
    rw [max_eq_left hN, if_pos rfl]
  · intro hN
    have hpos : (0 : Int) ≤ (y2 - y1) * 12 + (m2 - m1) := by omega
    rw [max_eq_right hpos, if_neg (by omega)]
  · intro htd hcd
    have hgrid : ∃ j : ℤ, target - current = (j : ℚ) * (2 : ℚ) ^ (-1074 : ℤ) := by
      obtain ⟨j1, h1⟩ := isDouble_grid htd
      obtain ⟨j2, h2⟩ := isDouble_grid hcd
      exact ⟨j1 - j2, by rw [h1, h2]; push_cast; ring⟩
    have hrem := roundDouble_rel_error hgrid
    have hD : (0 : ℚ) ≤ |target - current| := abs_nonneg _
    have hη : (0 : ℚ) ≤ 1 / 2 ^ 1075 := by positivity
    by_cases hN : (y2 - y1) * 12 + (m2 - m1) ≤ 0
    · rw [max_eq_left hN, if_pos rfl]
      simp only [Int.cast_zero, zero_add, div_one]
      have : |target - current| / 2 ^ 53 ≤ |target - current| / 2 ^ 51 :=
        div_le_div_of_nonneg_left hD (by positivity) (by norm_num)
      linarith
    · have hpos : (0 : Int) ≤ (y2 - y1) * 12 + (m2 - m1) := by omega
      rw [max_eq_right hpos, if_neg (by omega)]
      have hn1 : (1 : ℚ) ≤ (((y2 - y1) * 12 + (m2 - m1) : Int) : ℚ) + 1 := by
        have : (0 : ℚ) ≤ (((y2 - y1) * 12 + (m2 - m1) : Int) : ℚ) := by exact_mod_cast hpos
        linarith
      have hnpos : (0 : ℚ) < (((y2 - y1) * 12 + (m2 - m1) : Int) : ℚ) + 1 := by linarith
      have hr : |roundDouble (target - current)|
          ≤ |target - current| + |target - current| / 2 ^ 53 := by
        have := abs_add (roundDouble (target - current) - (target - current))
          (target - current)
        simp only [sub_add_cancel] at this
        linarith
      have hquot : |roundDouble (target - current)
            / ((((y2 - y1) * 12 + (m2 - m1) : Int) : ℚ) + 1)|
          ≤ |roundDouble (target - current)| := by
        rw [abs_div, abs_of_pos hnpos]
        exact div_le_self (abs_nonneg _) hn1
      have hq := roundDouble_abs_error (roundDouble (target - current)
        / ((((y2 - y1) * 12 + (m2 - m1) : Int) : ℚ) + 1))
      have hq2 : |roundDouble (target - current)
            / ((((y2 - y1) * 12 + (m2 - m1) : Int) : ℚ) + 1)| / 2 ^ 53
          ≤ (|target - current| + |target - current| / 2 ^ 53) / 2 ^ 53 :=
        div_le_div_of_nonneg_right (le_trans hquot hr) (by positivity)
      have hdiv : |roundDouble (target - current)
            / ((((y2 - y1) * 12 + (m2 - m1) : Int) : ℚ) + 1)
          - (target - current) / ((((y2 - y1) * 12 + (m2 - m1) : Int) : ℚ) + 1)|
          ≤ |target - current| / 2 ^ 53 := by
        rw [← sub_div, abs_div, abs_of_pos hnpos]
        exact le_trans (div_le_self (abs_nonneg _) hn1) hrem
      have hs : roundDouble (roundDouble (target - current)
            / ((((y2 - y1) * 12 + (m2 - m1) : Int) : ℚ) + 1))
          - (target - current) / ((((y2 - y1) * 12 + (m2 - m1) : Int) : ℚ) + 1)
          = (roundDouble (roundDouble (target - current)
              / ((((y2 - y1) * 12 + (m2 - m1) : Int) : ℚ) + 1))
            - roundDouble (target - current)
              / ((((y2 - y1) * 12 + (m2 - m1) : Int) : ℚ) + 1))
          + (roundDouble (target - current)
              / ((((y2 - y1) * 12 + (m2 - m1) : Int) : ℚ) + 1)
            - (target - current) / ((((y2 - y1) * 12 + (m2 - m1) : Int) : ℚ) + 1)) := by
        ring
      rw [hs]
      have t1 := abs_add (roundDouble (roundDouble (target - current)
              / ((((y2 - y1) * 12 + (m2 - m1) : Int) : ℚ) + 1))
            - roundDouble (target - current)
              / ((((y2 - y1) * 12 + (m2 - m1) : Int) : ℚ) + 1))
          (roundDouble (target - current)
              / ((((y2 - y1) * 12 + (m2 - m1) : Int) : ℚ) + 1)
            - (target - current) / ((((y2 - y1) * 12 + (m2 - m1) : Int) : ℚ) + 1))
      have hfin : (|target - current| + |target - current| / 2 ^ 53) / 2 ^ 53
          + |target - current| / 2 ^ 53 ≤ |target - current| / 2 ^ 51 := by
        have h53 : |target - current| / 2 ^ 53 ≤ |target - current| :=
          div_le_self hD (by norm_num)
        have e1 : (|target - current| + |target - current| / 2 ^ 53) / 2 ^ 53
            ≤ (|target - current| + |target - current|) / 2 ^ 53 :=
          div_le_div_of_nonneg_right (by linarith) (by positivity)
        have e2 : (|target - current| + |target - current|) / 2 ^ 53
            + |target - current| / 2 ^ 53 ≤ |target - current| / 2 ^ 51 := by
          have : |target - current| / 2 ^ 51 = 4 * (|target - current| / 2 ^ 53) := by
            ring
          rw [this]
          have : (|target - current| + |target - current|) / 2 ^ 53
              = 2 * (|target - current| / 2 ^ 53) := by ring
          rw [this]
          have : (0 : ℚ) ≤ |target - current| / 2 ^ 53 := by positivity
          linarith
        linarith
      linarith

/-- Witness of C18: seen from 15 November 2024, a goal of 1200 with nothing
saved that is due on 1 February 2025, three calendar months later, has a
quota of 1200 / 4 = 300. -/
theorem getMonthlyQuotaDouble_by_months_witness :
    InLocalMonth Zone.UTC 1731672000000 2024 11 ∧
    InLocalMonth Zone.UTC 1738368000000 2025 2 ∧
    getMonthlyQuotaDouble Zone.UTC 1731672000000 1200 0 1738368000000 = 300 ∧
    |getMonthlyQuotaDouble Zone.UTC 1731672000000 1200 0 1738368000000
        - (1200 - 0) / (((max 0 ((2025 - 2024) * 12 + (2 - 11)) : Int) : ℚ) + 1)|
      ≤ |(1200 : ℚ) - 0| / 2 ^ 51 + 1 / 2 ^ 1075 :=
  ⟨by decide, by decide,
    ((getMonthlyQuotaDouble_by_months Zone.UTC 1731672000000 1738368000000 1200 0 2024 11 2025 2
      (by decide) (by decide) (by decide) (by decide)).2.1 (by decide)).trans (by decide!),
    (getMonthlyQuotaDouble_by_months Zone.UTC 1731672000000 1738368000000 1200 0 2024 11 2025 2
      (by decide) (by decide) (by decide) (by decide)).2.2
      ⟨1200, 0, by norm_num, by norm_num, by norm_num⟩
      ⟨0, 0, by norm_num, by norm_num, by norm_num⟩⟩

/-- Counterexample to C18 as stated: seen from 10 June 2024, a goal of 1 with
nothing saved that is due on 1 August 2024, two calendar months later, has the
quota `roundDouble (1 / 3)`, the double nearest to a third, which is not
`(1 - 0) / (2 + 1)`; and for a goal due in the current month with target
1000.1 and 0.3 saved (as doubles) the quota is 999.8000000000001, not the
difference of the two. -/
theorem monthly_quota_not_exact :
    InLocalMonth Zone.UTC scenarioCreatedAt 2024 6 ∧
    InLocalMonth Zone.UTC 1722470400000 2024 8 ∧
    getMonthlyQuotaDouble Zone.UTC scenarioCreatedAt 1 0 1722470400000 = roundDouble (1 / 3) ∧
    roundDouble (1 / 3) ≠ (1 - 0) / (2 + 1) ∧
    InLocalMonth Zone.UTC 1718841600000 2024 6 ∧
    getMonthlyQuotaDouble Zone.UTC scenarioCreatedAt (roundDouble (10001 / 10))
        (roundDouble (3 / 10)) 1718841600000
      = roundDouble (9998000000000001 / 10000000000000) ∧
    roundDouble (9998000000000001 / 10000000000000)
      ≠ roundDouble (10001 / 10) - roundDouble (3 / 10) := by
  refine ⟨by decide, by decide, by decide!, by decide!, by decide, by decide!, by decide!⟩

/-! ## The alert preference of the user (C26) -/

/-- The user lookup of `checkBudgetAlert` finds the same user, with the same
address, whatever the preference is set to. -/
theorem find?_withThresholdEnabled (value : Bool) (userId : Nat) (users : List User) :
    (withThresholdEnabled value users).find? (fun u => u._id == userId)
      = (users.find? (fun u => u._id == userId)).map
          (fun u => { u with thresholdEnabled := value }) := by
  unfold withThresholdEnabled
  induction users with
  | nil => rfl
  | cons u rest ih =>
    simp only [List.map_cons, List.find?_cons]
    cases hu : (u._id == userId) with
    | true => rfl
    | false => exact ih

/-- C26, as the code has it: `checkBudgetAlert` does not read the preference
`thresholdEnabled`.  Whatever the stores hold and whichever calls raise, the
run is the same (the same calls of `sendMail`, the same mails delivered) with
the preference of every user set to `false`, or to `true`, as with the
preferences the users have. -/
theorem checkBudgetAlertDouble_preference_free (z : Zone) (budgets : List Budget)
    (cats : List Category) (txs : List Transaction) (users : List User) (faults : AlertFaults)
    (userId categoryId : Nat) (month : String) (value : Bool) :
    checkBudgetAlertDouble z budgets cats txs (withThresholdEnabled value users) faults userId
        categoryId month
      = checkBudgetAlertDouble z budgets cats txs users faults userId categoryId month := by
  have htry : checkBudgetAlertTryDouble z budgets cats txs (withThresholdEnabled value users)
      faults userId categoryId month
      = checkBudgetAlertTryDouble z budgets cats txs users faults userId categoryId month := by
    unfold checkBudgetAlertTryDouble
    simp only [find?_withThresholdEnabled]
    cases users.find? (fun u => u._id == userId) with
    | none => rfl
    | some user => rfl
  unfold checkBudgetAlertDouble
  rw [htry]

/-- Counterexample to C26 as stated: for the user of the scenario with
`thresholdEnabled = false`, the mail of the scenario is sent all the same. -/
theorem checkBudgetAlert_ignores_preference :
    (mutedUsers.map User.thresholdEnabled = [false]) ∧
    checkBudgetAlertDouble Zone.UTC scenarioBudgets scenarioCategories scenarioTransactions
        mutedUsers AlertFaults.none 7 3 "2024-06"
      = some (AlertRun.mk none [scenarioMail] [scenarioMail]) := by
  refine ⟨by decide, by decide!⟩

end SpendSmart
